import Mathlib

/-!
# Soccer-Manager-API: transfer market use cases

A shallow embedding of the Go sources under `internal/domain`, `internal/app` and
`internal/infrastructure/persistence/postgres`.

Modelling conventions.

* `uuid.UUID` values and the id strings handed to the repositories are natural numbers;
  `time.Time` values are natural numbers.
* `float64` values are those of IEEE 754 binary64 (`F64`), and `+`, `-`, `*` round their
  exact result to the nearest value, ties to even.  A `float64` that no arithmetic of the
  program produces (an asking price decoded from a JSON request, a draw of `rand.Float64`)
  is finite and is given as the rational it denotes.
* Every table is a list of rows in insertion order.  `SELECT ... WHERE` fetching one row
  returns the first matching row, `UPDATE ... WHERE id = $n` rewrites every matching row,
  `INSERT` appends a row.  Key uniqueness is not built in; theorems that need it say so.
* A repository call can fail with an error that is not a domain error (lost connection,
  ...).  Each call site takes an `Option Nat`: `some c` makes that call fail with
  `Err.infra c` without touching the store, `none` lets it run.
* Fresh ids, clock readings and random draws are inputs (the `...Env` structures); one call
  of a use case reads the clock once.
* The use cases return the store they leave behind together with their Go result, so that
  writes made before a failing call stay visible.
* Calls to the cache helper made after the last repository write discard their result and
  touch no table; they are not part of the store functions below.
-/

namespace SoccerManager

abbrev UUID := Nat
abbrev Time := Nat

/-! ## float64

Go's `float64` is the IEEE 754 binary64 format.  An operation returns its exact result
rounded to the nearest value of the format, ties going to the even significand; a result
of magnitude `2^1024` or more after rounding is an infinity. -/

/-- Value of a `float64`: a finite value, given as the rational it denotes, an infinity, or
NaN.  The two zeros are both `fin 0`; the program adds, subtracts, multiplies and compares
and none of these operations tells them apart. -/
inductive F64 where
  | fin (q : ℚ)
  | posInf
  | negInf
  | nan
  deriving DecidableEq, Repr

/-- Position of the leading binary digit of `n`, found by halving; `fuel` bounds the number
of halvings. -/
def F64.log2Aux : Nat → Nat → Nat
  | 0, _ => 0
  | fuel + 1, n => if 2 ≤ n then F64.log2Aux fuel (n / 2) + 1 else 0

def F64.natLog2 (n : Nat) : Nat := F64.log2Aux n n

/-- Binary exponent of `q`: the `k` with `2^k ≤ |q| < 2^(k+1)`, for `q ≠ 0`. -/
def F64.ilog2 (q : ℚ) : ℤ :=
  let k : ℤ := (F64.natLog2 q.num.natAbs : ℤ) - (F64.natLog2 q.den : ℤ)
  if (2 : ℚ) ^ k ≤ |q| then k else k - 1

/-- Nearest integer, ties to the even one. -/
def F64.rne (x : ℚ) : ℤ :=
  let f := ⌊x⌋
  if x - f < 1 / 2 then f
  else if 1 / 2 < x - f then f + 1
  else if f % 2 = 0 then f
  else f + 1

/-- Exponent of the last place of the significand of `q`: 53 binary digits, and never below
`-1074`, the last place of the subnormal values. -/
def F64.ulpExp (q : ℚ) : ℤ := max (F64.ilog2 q - 52) (-1074)

/-- Nearest multiple of the last place of `q`. -/
def F64.nearest (q : ℚ) : ℚ := F64.rne (q / 2 ^ F64.ulpExp q) * 2 ^ F64.ulpExp q

/-- Overflow: a rounded result of magnitude `2^1024` or more is an infinity. -/
def F64.overflow (r : ℚ) : F64 :=
  if 2 ^ 1024 ≤ r then F64.posInf
  else if r ≤ -2 ^ 1024 then F64.negInf
  else F64.fin r

/-- Rounding of an exact result to `float64`. -/
def F64.round (q : ℚ) : F64 := F64.overflow (F64.nearest q)

def F64.neg : F64 → F64
  | F64.fin q => F64.fin (-q)
  | F64.posInf => F64.negInf
  | F64.negInf => F64.posInf
  | F64.nan => F64.nan

/-- Operator `+` of `float64`. -/
def F64.add : F64 → F64 → F64
  | F64.fin a, F64.fin b => F64.round (a + b)
  | F64.fin _, F64.posInf => F64.posInf
  | F64.fin _, F64.negInf => F64.negInf
  | F64.posInf, F64.fin _ => F64.posInf
  | F64.posInf, F64.posInf => F64.posInf
  | F64.negInf, F64.fin _ => F64.negInf
  | F64.negInf, F64.negInf => F64.negInf
  | _, _ => F64.nan

/-- Operator `-` of `float64`. -/
def F64.sub (a b : F64) : F64 := F64.add a (F64.neg b)

/-- Product of an infinity with the finite value `q`; `pos` tells the sign of the
infinity. -/
def F64.infTimes (pos : Bool) (q : ℚ) : F64 :=
  if q = 0 then F64.nan
  else if (0 < q) = pos then F64.posInf
  else F64.negInf

/-- Operator `*` of `float64`. -/
def F64.mul : F64 → F64 → F64
  | F64.fin a, F64.fin b => F64.round (a * b)
  | F64.fin a, F64.posInf => F64.infTimes true a
  | F64.fin a, F64.negInf => F64.infTimes false a
  | F64.posInf, F64.fin b => F64.infTimes true b
  | F64.negInf, F64.fin b => F64.infTimes false b
  | F64.posInf, F64.posInf => F64.posInf
  | F64.posInf, F64.negInf => F64.negInf
  | F64.negInf, F64.posInf => F64.negInf
  | F64.negInf, F64.negInf => F64.posInf
  | _, _ => F64.nan

/-- Fused multiply-add: `x*y + z` computed exactly and rounded once.  With an operand that
is not finite no rounding takes place and the result is that of `x*y + z`. -/
def F64.fma : F64 → F64 → F64 → F64
  | F64.fin a, F64.fin b, F64.fin c => F64.round (a * b + c)
  | F64.fin _, F64.fin _, c => c
  | a, b, c => F64.add (F64.mul a b) c

/-- Operator `<=` of `float64`; false when an operand is NaN. -/
def F64.ble : F64 → F64 → Bool
  | F64.fin a, F64.fin b => decide (a ≤ b)
  | F64.fin _, F64.posInf => true
  | F64.negInf, F64.fin _ => true
  | F64.negInf, F64.negInf => true
  | F64.negInf, F64.posInf => true
  | F64.posInf, F64.posInf => true
  | _, _ => false

/-- Operator `<` of `float64`; false when an operand is NaN. -/
def F64.blt : F64 → F64 → Bool
  | F64.fin a, F64.fin b => decide (a < b)
  | F64.fin _, F64.posInf => true
  | F64.negInf, F64.fin _ => true
  | F64.negInf, F64.posInf => true
  | _, _ => false

instance : Add F64 := ⟨F64.add⟩
instance : Sub F64 := ⟨F64.sub⟩
instance : Mul F64 := ⟨F64.mul⟩
instance : LE F64 := ⟨fun a b => F64.ble a b = true⟩
instance : LT F64 := ⟨fun a b => F64.blt a b = true⟩
instance (a b : F64) : Decidable (a ≤ b) := inferInstanceAs (Decidable (F64.ble a b = true))
instance (a b : F64) : Decidable (a < b) := inferInstanceAs (Decidable (F64.blt a b = true))

/-- A numeral denotes the finite value of that size; the numerals of the program are whole
numbers below `2^53`, which `float64` holds exactly. -/
instance (n : Nat) : OfNat F64 n := ⟨F64.fin n⟩

/-- The `float64` nearest to a decimal constant of the source. -/
def F64.ofDecimal (q : ℚ) : F64 := F64.round q

/-- Exact value of a finite `float64`; `0` for the infinities and NaN. -/
def F64.toRat : F64 → ℚ
  | F64.fin q => q
  | _ => 0

/-- Says that `q` is a value of the format: rounding leaves it as it is. -/
def F64.isFloat (q : ℚ) : Prop := F64.round q = F64.fin q

instance (q : ℚ) : Decidable (F64.isFloat q) :=
  inferInstanceAs (Decidable (F64.round q = F64.fin q))

/-! ## internal/domain/errors.go -/

/-- Errors of `errors.go`, plus `infra` for every error that is not one of them. -/
inductive Err where
  | ErrUserNotFound
  | ErrUserAlreadyExists
  | ErrInvalidCredentials
  | ErrTeamNotFound
  | ErrTeamAlreadyExists
  | ErrTeamFull
  | ErrInsufficientBudget
  | ErrCannotBuyOwnPlayer
  | ErrPlayerNotFound
  | ErrPlayerNotOwned
  | ErrPlayerAlreadyListed
  | ErrPlayerNotOnTransferList
  | ErrTransferNotFound
  | ErrTransferListingNotFound
  | ErrInvalidAskingPrice
  | infra (code : Nat)
  deriving DecidableEq, Repr

open Err

/-! ## internal/domain/user.go -/

structure User where
  ID : UUID
  Email : String
  PasswordHash : String
  CreatedAt : Time
  UpdatedAt : Time
  deriving DecidableEq, Repr

/-- Constructor `NewUser` with the generated id and the clock reading made explicit. -/
def NewUser (id : UUID) (now : Time) (email passwordHash : String) : User :=
  { ID := id, Email := email, PasswordHash := passwordHash, CreatedAt := now, UpdatedAt := now }

/-! ## internal/domain/team.go -/

structure Team where
  ID : UUID
  UserID : UUID
  Name : String
  Country : String
  Budget : F64
  CreatedAt : Time
  UpdatedAt : Time
  deriving DecidableEq, Repr

def InitialBudget : F64 := 5000000
def MaxPlayers : Nat := 20

def NewTeam (id : UUID) (now : Time) (userID : UUID) (name country : String) : Team :=
  { ID := id, UserID := userID, Name := name, Country := country, Budget := InitialBudget,
    CreatedAt := now, UpdatedAt := now }

/-- Method `CanAfford`: the `float64` comparison `t.Budget >= price`.  The price is the asking
price of a listing, a finite value. -/
def Team.CanAfford (t : Team) (price : ℚ) : Bool := decide (t.Budget ≥ F64.fin price)

/-- Method `DeductBudget`: the `float64` subtraction `t.Budget -= amount`. -/
def Team.DeductBudget (t : Team) (amount : ℚ) (now : Time) : Team :=
  { t with Budget := t.Budget - F64.fin amount, UpdatedAt := now }

/-- Method `AddBudget`: the `float64` addition `t.Budget += amount`. -/
def Team.AddBudget (t : Team) (amount : ℚ) (now : Time) : Team :=
  { t with Budget := t.Budget + F64.fin amount, UpdatedAt := now }

/-! ## internal/domain/player.go -/

inductive Position where
  | PositionGoalkeeper
  | PositionDefender
  | PositionMidfielder
  | PositionAttacker
  deriving DecidableEq, Repr

structure Player where
  ID : UUID
  TeamID : Option UUID
  FirstName : String
  LastName : String
  Country : String
  Age : Nat
  Position : Position
  MarketValue : F64
  CreatedAt : Time
  UpdatedAt : Time
  deriving DecidableEq, Repr

def InitialPlayerValue : F64 := 1000000
def MinAge : Nat := 18
def MaxAge : Nat := 40

/-- Constructor `NewPlayer`; `ageDraw` is the raw random number that `rand.Intn` reduces
modulo `MaxAge-MinAge+1`. -/
def NewPlayer (id : UUID) (now : Time) (ageDraw : Nat) (teamID : Option UUID)
    (firstName lastName country : String) (position : Position) : Player :=
  { ID := id, TeamID := teamID, FirstName := firstName, LastName := lastName,
    Country := country, Age := MinAge + ageDraw % (MaxAge - MinAge + 1), Position := position,
    MarketValue := InitialPlayerValue, CreatedAt := now, UpdatedAt := now }

/-- Local `increasePercent` of `UpdateMarketValue`: `0.10 + rand.Float64()*0.90`, with `r` the
result of `rand.Float64()`.  The Go specification lets the compiler fuse the product and
the sum of `x*y + z` into one operation with a single rounding (the compiler does so on
some architectures and not on others); `fused` tells whether it did.  Unfused, the product
and the sum each round their own result. -/
def increasePercent (fused : Bool) (r : ℚ) : F64 :=
  if fused then F64.fma (F64.fin r) (F64.ofDecimal (90 / 100)) (F64.ofDecimal (10 / 100))
  else F64.ofDecimal (10 / 100) + F64.fin r * F64.ofDecimal (90 / 100)

/-- Method `UpdateMarketValue`: `p.MarketValue * (1 + increasePercent)` in `float64`. -/
def Player.UpdateMarketValue (p : Player) (fused : Bool) (r : ℚ) (now : Time) : Player :=
  { p with MarketValue := p.MarketValue * (1 + increasePercent fused r), UpdatedAt := now }

def Player.Transfer (p : Player) (newTeamID : UUID) (fused : Bool) (r : ℚ) (now : Time) :
    Player :=
  { (Player.UpdateMarketValue { p with TeamID := some newTeamID } fused r now) with
    UpdatedAt := now }

def Player.IsOwnedBy (p : Player) (teamID : UUID) : Bool :=
  match p.TeamID with
  | none => false
  | some t => t == teamID

/-! ## internal/domain/transfer.go -/

inductive TransferListingStatus where
  | TransferStatusActive
  | TransferStatusSold
  | TransferStatusCancelled
  deriving DecidableEq, Repr

open TransferListingStatus

structure TransferListing where
  ID : UUID
  PlayerID : UUID
  AskingPrice : ℚ
  Status : TransferListingStatus
  ListedAt : Time
  deriving DecidableEq, Repr

def NewTransferListing (id : UUID) (now : Time) (playerID : UUID) (askingPrice : ℚ) :
    TransferListing :=
  { ID := id, PlayerID := playerID, AskingPrice := askingPrice, Status := TransferStatusActive,
    ListedAt := now }

def TransferListing.MarkAsSold (tl : TransferListing) : TransferListing :=
  { tl with Status := TransferStatusSold }

def TransferListing.Cancel (tl : TransferListing) : TransferListing :=
  { tl with Status := TransferStatusCancelled }

def TransferListing.IsActive (tl : TransferListing) : Bool :=
  decide (tl.Status = TransferStatusActive)

structure Transfer where
  ID : UUID
  PlayerID : UUID
  SellerTeamID : UUID
  BuyerTeamID : UUID
  TransferPrice : ℚ
  TransferredAt : Time
  deriving DecidableEq, Repr

def NewTransfer (id : UUID) (now : Time) (playerID sellerTeamID buyerTeamID : UUID)
    (transferPrice : ℚ) : Transfer :=
  { ID := id, PlayerID := playerID, SellerTeamID := sellerTeamID, BuyerTeamID := buyerTeamID,
    TransferPrice := transferPrice, TransferredAt := now }

/-! ## The persistent store -/

/-- The five tables of the database. -/
structure Store where
  users : List User
  teams : List Team
  players : List Player
  listings : List TransferListing
  transfers : List Transfer
  deriving DecidableEq, Repr

/-- A repository read at a call site that may be made to fail. -/
def callRepo {α : Type} (fault : Option Nat) (r : Except Err α) : Except Err α :=
  match fault with
  | some c => Except.error (infra c)
  | none => r

/-! ## postgres/user_repository.go -/

def userRepo.GetByEmail (s : Store) (email : String) : Except Err User :=
  match s.users.find? (fun u => u.Email == email) with
  | some u => Except.ok u
  | none => Except.error ErrUserNotFound

def userRepo.Create (s : Store) (user : User) : Store :=
  { s with users := s.users ++ [user] }

/-! ## postgres/team_repository.go -/

def teamRepo.Create (s : Store) (team : Team) : Store :=
  { s with teams := s.teams ++ [team] }

def teamRepo.GetByID (s : Store) (id : UUID) : Except Err Team :=
  match s.teams.find? (fun t => t.ID == id) with
  | some t => Except.ok t
  | none => Except.error ErrTeamNotFound

def teamRepo.GetByUserID (s : Store) (userID : UUID) : Except Err Team :=
  match s.teams.find? (fun t => t.UserID == userID) with
  | some t => Except.ok t
  | none => Except.error ErrTeamNotFound

/-- Statement `UPDATE teams SET name, country, budget, updated_at WHERE id`. -/
def teamRepo.Update (s : Store) (team : Team) : Store :=
  { s with teams := s.teams.map (fun row =>
      if row.ID == team.ID then
        { row with Name := team.Name, Country := team.Country, Budget := team.Budget,
                   UpdatedAt := team.UpdatedAt }
      else row) }

/-- Query `SELECT COUNT(*) FROM players WHERE team_id = $1`. -/
def teamRepo.GetPlayerCount (s : Store) (teamID : UUID) : Nat :=
  s.players.countP (fun p => p.TeamID == some teamID)

/-! ## postgres/player_repository.go -/

def playerRepo.CreateBatch (s : Store) (players : List Player) : Store :=
  { s with players := s.players ++ players }

def playerRepo.GetByID (s : Store) (id : UUID) : Except Err Player :=
  match s.players.find? (fun p => p.ID == id) with
  | some p => Except.ok p
  | none => Except.error ErrPlayerNotFound

/-- Statement `UPDATE players SET team_id, first_name, last_name, country, age, position,
market_value, updated_at WHERE id`. -/
def playerRepo.Update (s : Store) (player : Player) : Store :=
  { s with players := s.players.map (fun row =>
      if row.ID == player.ID then
        { row with TeamID := player.TeamID, FirstName := player.FirstName,
                   LastName := player.LastName, Country := player.Country, Age := player.Age,
                   Position := player.Position, MarketValue := player.MarketValue,
                   UpdatedAt := player.UpdatedAt }
      else row) }

/-! ## postgres/transfer_repository.go -/

def transferRepo.CreateListing (s : Store) (listing : TransferListing) : Store :=
  { s with listings := s.listings ++ [listing] }

def transferRepo.GetListingByID (s : Store) (id : UUID) : Except Err TransferListing :=
  match s.listings.find? (fun l => l.ID == id) with
  | some l => Except.ok l
  | none => Except.error ErrTransferListingNotFound

/-- Query `SELECT ... WHERE player_id = $1 AND status = 'active'`. -/
def transferRepo.GetListingByPlayerID (s : Store) (playerID : UUID) :
    Except Err TransferListing :=
  match s.listings.find?
      (fun l => l.PlayerID == playerID && decide (l.Status = TransferStatusActive)) with
  | some l => Except.ok l
  | none => Except.error ErrTransferListingNotFound

/-- Statement `UPDATE transfer_listings SET asking_price, status WHERE id`. -/
def transferRepo.UpdateListing (s : Store) (listing : TransferListing) : Store :=
  { s with listings := s.listings.map (fun row =>
      if row.ID == listing.ID then
        { row with AskingPrice := listing.AskingPrice, Status := listing.Status }
      else row) }

def transferRepo.CreateTransfer (s : Store) (transfer : Transfer) : Store :=
  { s with transfers := s.transfers ++ [transfer] }

/-- A repository write at a call site that may be made to fail: on failure the store is
left as it was. -/
def execRepo (fault : Option Nat) (s s' : Store) : Store × Except Err Unit :=
  match fault with
  | some c => (s, Except.error (infra c))
  | none => (s', Except.ok ())

/-! ## internal/app/transfer/transfer_usecase.go: BuyPlayer -/

/-- Entropy, clock and id generator consumed by one `BuyPlayer` call. -/
structure BuyEnv where
  fused : Bool
  rand : ℚ
  transferID : UUID
  now : Time
  deriving DecidableEq, Repr

/-- One switch per repository call of `BuyPlayer`, in source order. -/
structure BuyFaults where
  getByUserID : Option Nat
  getListingByID : Option Nat
  getPlayerByID : Option Nat
  getPlayerCount : Option Nat
  getTeamByID : Option Nat
  updatePlayer : Option Nat
  updateBuyer : Option Nat
  updateSeller : Option Nat
  updateListing : Option Nat
  createTransfer : Option Nat
  deriving DecidableEq, Repr

def BuyFaults.none : BuyFaults :=
  { getByUserID := Option.none, getListingByID := Option.none, getPlayerByID := Option.none,
    getPlayerCount := Option.none, getTeamByID := Option.none, updatePlayer := Option.none,
    updateBuyer := Option.none, updateSeller := Option.none, updateListing := Option.none,
    createTransfer := Option.none }

/-- Local variables of `BuyPlayer` once every check has passed (line 207). -/
structure BuyLocals where
  buyerTeam : Team
  listing : TransferListing
  player : Player
  sellerTeam : Team
  deriving DecidableEq, Repr

/-- Lines 157-207 of `BuyPlayer`: the reads and the checks.  Nothing is written. -/
def buyPlayerChecks (f : BuyFaults) (s : Store) (userID listingID : UUID) :
    Except Err BuyLocals :=
  match callRepo f.getByUserID (teamRepo.GetByUserID s userID) with
  | Except.error e => Except.error e
  | Except.ok buyerTeam =>
  match callRepo f.getListingByID (transferRepo.GetListingByID s listingID) with
  | Except.error e => Except.error e
  | Except.ok listing =>
  if !listing.IsActive then Except.error ErrTransferListingNotFound else
  match callRepo f.getPlayerByID (playerRepo.GetByID s listing.PlayerID) with
  | Except.error e => Except.error e
  | Except.ok player =>
  if player.TeamID.isSome && player.IsOwnedBy buyerTeam.ID then
    Except.error ErrCannotBuyOwnPlayer else
  if !buyerTeam.CanAfford listing.AskingPrice then Except.error ErrInsufficientBudget else
  match callRepo f.getPlayerCount (Except.ok (teamRepo.GetPlayerCount s buyerTeam.ID)) with
  | Except.error e => Except.error e
  | Except.ok playerCount =>
  if playerCount ≥ MaxPlayers then Except.error ErrTeamFull else
  match player.TeamID with
  | Option.none => Except.error ErrTeamNotFound
  | some sellerID =>
  match callRepo f.getTeamByID (teamRepo.GetByID s sellerID) with
  | Except.error e => Except.error e
  | Except.ok sellerTeam =>
  Except.ok { buyerTeam := buyerTeam, listing := listing, player := player,
              sellerTeam := sellerTeam }

/-- Lines 211-248 of `BuyPlayer`: the five writes, each from the local copies read by the
checks, stopping at the first write that fails. -/
def buyPlayerWrites (env : BuyEnv) (f : BuyFaults) (s : Store) (v : BuyLocals) :
    Store × Except Err Transfer :=
  let player := v.player.Transfer v.buyerTeam.ID env.fused env.rand env.now
  match execRepo f.updatePlayer s (playerRepo.Update s player) with
  | (s1, Except.error e) => (s1, Except.error e)
  | (s1, Except.ok _) =>
  let buyerTeam := v.buyerTeam.DeductBudget v.listing.AskingPrice env.now
  let sellerTeam := v.sellerTeam.AddBudget v.listing.AskingPrice env.now
  match execRepo f.updateBuyer s1 (teamRepo.Update s1 buyerTeam) with
  | (s2, Except.error e) => (s2, Except.error e)
  | (s2, Except.ok _) =>
  match execRepo f.updateSeller s2 (teamRepo.Update s2 sellerTeam) with
  | (s3, Except.error e) => (s3, Except.error e)
  | (s3, Except.ok _) =>
  let listing := v.listing.MarkAsSold
  match execRepo f.updateListing s3 (transferRepo.UpdateListing s3 listing) with
  | (s4, Except.error e) => (s4, Except.error e)
  | (s4, Except.ok _) =>
  let transfer := NewTransfer env.transferID env.now player.ID sellerTeam.ID buyerTeam.ID
    listing.AskingPrice
  match execRepo f.createTransfer s4 (transferRepo.CreateTransfer s4 transfer) with
  | (s5, Except.error e) => (s5, Except.error e)
  | (s5, Except.ok _) => (s5, Except.ok transfer)

/-- The use case `TransferUseCase.BuyPlayer`: checks, then writes. -/
def BuyPlayer (env : BuyEnv) (f : BuyFaults) (s : Store) (userID listingID : UUID) :
    Store × Except Err Transfer :=
  match buyPlayerChecks f s userID listingID with
  | Except.error e => (s, Except.error e)
  | Except.ok v => buyPlayerWrites env f s v

/-- Two `BuyPlayer` calls on the same listing whose executions overlap, in the schedule where
the second call makes all its reads and checks (lines 157-207) before the first call makes
its first write, and makes its writes (lines 211-241) after the first call has returned.
Repositories do not fail.  Returns the final store, the first call's result and the second
call's result. -/
def BuyPlayerOverlapping (env1 env2 : BuyEnv) (s : Store) (user1 user2 listingID : UUID) :
    Store × Except Err Transfer × Except Err Transfer :=
  let checks1 := buyPlayerChecks BuyFaults.none s user1 listingID
  let checks2 := buyPlayerChecks BuyFaults.none s user2 listingID
  let r1 : Store × Except Err Transfer :=
    match checks1 with
    | Except.error e => (s, Except.error e)
    | Except.ok v => buyPlayerWrites env1 BuyFaults.none s v
  let r2 : Store × Except Err Transfer :=
    match checks2 with
    | Except.error e => (r1.1, Except.error e)
    | Except.ok v => buyPlayerWrites env2 BuyFaults.none r1.1 v
  (r2.1, r1.2, r2.2)

/-! ## internal/app/transfer/transfer_usecase.go: ListPlayer, RemoveFromTransferList -/

structure ListEnv where
  listingID : UUID
  now : Time
  deriving DecidableEq, Repr

structure ListFaults where
  getByUserID : Option Nat
  getPlayerByID : Option Nat
  getListingByPlayerID : Option Nat
  createListing : Option Nat
  deriving DecidableEq, Repr

def ListFaults.none : ListFaults :=
  { getByUserID := Option.none, getPlayerByID := Option.none,
    getListingByPlayerID := Option.none, createListing := Option.none }

/-- The use case `TransferUseCase.ListPlayer`.  The error of the existing-listing lookup is
discarded (line 67): a failed lookup counts as no listing. -/
def ListPlayer (env : ListEnv) (f : ListFaults) (s : Store) (userID playerID : UUID)
    (askingPrice : ℚ) : Store × Except Err TransferListing :=
  match callRepo f.getByUserID (teamRepo.GetByUserID s userID) with
  | Except.error e => (s, Except.error e)
  | Except.ok team =>
  match callRepo f.getPlayerByID (playerRepo.GetByID s playerID) with
  | Except.error e => (s, Except.error e)
  | Except.ok player =>
  if !player.IsOwnedBy team.ID then (s, Except.error ErrPlayerNotOwned) else
  let existingListing : Option TransferListing :=
    match callRepo f.getListingByPlayerID (transferRepo.GetListingByPlayerID s playerID) with
    | Except.error _ => Option.none
    | Except.ok l => some l
  if existingListing.any (fun l => l.IsActive) then (s, Except.error ErrPlayerAlreadyListed) else
  if askingPrice ≤ 0 then (s, Except.error ErrInvalidAskingPrice) else
  let listing := NewTransferListing env.listingID env.now player.ID askingPrice
  match execRepo f.createListing s (transferRepo.CreateListing s listing) with
  | (s1, Except.error e) => (s1, Except.error e)
  | (s1, Except.ok _) => (s1, Except.ok listing)

structure RemoveFaults where
  getByUserID : Option Nat
  getPlayerByID : Option Nat
  getListingByPlayerID : Option Nat
  updateListing : Option Nat
  deriving DecidableEq, Repr

def RemoveFaults.none : RemoveFaults :=
  { getByUserID := Option.none, getPlayerByID := Option.none,
    getListingByPlayerID := Option.none, updateListing := Option.none }

/-- The use case `TransferUseCase.RemoveFromTransferList`.  Every error of the listing lookup
becomes `ErrPlayerNotOnTransferList` (lines 109-112). -/
def RemoveFromTransferList (f : RemoveFaults) (s : Store) (userID playerID : UUID) :
    Store × Except Err Unit :=
  match callRepo f.getByUserID (teamRepo.GetByUserID s userID) with
  | Except.error e => (s, Except.error e)
  | Except.ok team =>
  match callRepo f.getPlayerByID (playerRepo.GetByID s playerID) with
  | Except.error e => (s, Except.error e)
  | Except.ok player =>
  if !player.IsOwnedBy team.ID then (s, Except.error ErrPlayerNotOwned) else
  match callRepo f.getListingByPlayerID (transferRepo.GetListingByPlayerID s playerID) with
  | Except.error _ => (s, Except.error ErrPlayerNotOnTransferList)
  | Except.ok listing =>
  match execRepo f.updateListing s (transferRepo.UpdateListing s listing.Cancel) with
  | (s1, Except.error e) => (s1, Except.error e)
  | (s1, Except.ok _) => (s1, Except.ok ())

/-! ## internal/app/team/team_usecase.go: UpdateTeam -/

structure UpdateTeamFaults where
  getByUserID : Option Nat
  update : Option Nat
  deriving DecidableEq, Repr

/-- The use case `TeamUseCase.UpdateTeam`. -/
def UpdateTeam (f : UpdateTeamFaults) (s : Store) (userID : UUID) (name country : String) :
    Store × Except Err Team :=
  match callRepo f.getByUserID (teamRepo.GetByUserID s userID) with
  | Except.error e => (s, Except.error e)
  | Except.ok team =>
  let team := { team with Name := name, Country := country }
  match execRepo f.update s (teamRepo.Update s team) with
  | (s1, Except.error e) => (s1, Except.error e)
  | (s1, Except.ok _) => (s1, Except.ok team)

/-! ## internal/app/player/player_usecase.go: UpdatePlayer -/

structure UpdatePlayerFaults where
  getByUserID : Option Nat
  getPlayerByID : Option Nat
  update : Option Nat
  deriving DecidableEq, Repr

/-- The use case `PlayerUseCase.UpdatePlayer`. -/
def UpdatePlayer (f : UpdatePlayerFaults) (s : Store) (userID playerID : UUID)
    (firstName lastName country : String) : Store × Except Err Player :=
  match callRepo f.getByUserID (teamRepo.GetByUserID s userID) with
  | Except.error e => (s, Except.error e)
  | Except.ok team =>
  match callRepo f.getPlayerByID (playerRepo.GetByID s playerID) with
  | Except.error e => (s, Except.error e)
  | Except.ok player =>
  if !player.IsOwnedBy team.ID then (s, Except.error ErrPlayerNotOwned) else
  let player := { player with FirstName := firstName, LastName := lastName, Country := country }
  match execRepo f.update s (playerRepo.Update s player) with
  | (s1, Except.error e) => (s1, Except.error e)
  | (s1, Except.ok _) => (s1, Except.ok player)

/-! ## internal/app/auth/auth_usecase.go: Register -/

/-- Random numbers and the fresh id consumed by one `NewPlayer` call of
`generateInitialPlayers`. -/
structure PlayerDraw where
  id : UUID
  firstName : Nat
  lastName : Nat
  country : Nat
  age : Nat
  deriving DecidableEq, Repr

/-- Everything `Register` takes from outside the store: fresh ids, the clock, the random
numbers, and the results of `password.HashPassword` and `jwt.GenerateToken` (an error code
when they fail). -/
structure RegisterEnv where
  userID : UUID
  teamID : UUID
  now : Time
  teamName : Nat
  draws : Nat → PlayerDraw
  hashPassword : String → Except Nat String
  generateToken : UUID → String → Except Nat String

structure RegisterFaults where
  getByEmail : Option Nat
  createUser : Option Nat
  createTeam : Option Nat
  createBatch : Option Nat
  deriving DecidableEq, Repr

def RegisterFaults.none : RegisterFaults :=
  { getByEmail := Option.none, createUser := Option.none, createTeam := Option.none,
    createBatch := Option.none }

structure AuthResponse where
  Token : String
  User : User
  deriving DecidableEq, Repr

/-- Element `names[rand.Intn(len(names))]`, with `draw` the raw random number. -/
def pick (names : List String) (draw : Nat) : String :=
  names.getD (draw % names.length) ""

def teamNames : List String :=
  ["FC United", "City FC", "Athletic Club", "Sporting FC",
   "United FC", "City United", "Athletic United", "Sporting Club"]

def firstNames : List String :=
  ["John", "James", "Michael", "David", "Robert", "William", "Richard", "Joseph",
   "Thomas", "Charles", "Christopher", "Daniel", "Matthew", "Anthony", "Mark",
   "Donald", "Steven", "Paul", "Andrew", "Joshua", "Kenneth", "Kevin", "Brian"]

def lastNames : List String :=
  ["Smith", "Johnson", "Williams", "Brown", "Jones", "Garcia", "Miller", "Davis",
   "Rodriguez", "Martinez", "Hernandez", "Lopez", "Wilson", "Anderson", "Thomas",
   "Taylor", "Moore", "Jackson", "Martin", "Lee", "Thompson", "White", "Harris"]

def countries : List String :=
  ["Brazil", "Argentina", "Spain", "Germany", "France", "Italy", "England",
   "Portugal", "Netherlands", "Belgium", "Croatia", "Uruguay", "Colombia",
   "Mexico", "Chile", "Poland", "Denmark", "Sweden", "Norway", "Greece"]

def generateDefaultTeamName (draw : Nat) : String := pick teamNames draw
def generateRandomFirstName (draw : Nat) : String := pick firstNames draw
def generateRandomLastName (draw : Nat) : String := pick lastNames draw
def generateRandomCountry (draw : Nat) : String := pick countries draw

/-- The `i`-th `NewPlayer` call of `generateInitialPlayers`. -/
def generatePlayer (env : RegisterEnv) (teamID : UUID) (position : Position) (i : Nat) :
    Player :=
  let d := env.draws i
  NewPlayer d.id env.now d.age (some teamID) (generateRandomFirstName d.firstName)
    (generateRandomLastName d.lastName) (generateRandomCountry d.country) position

/-- The four loops of `generateInitialPlayers`: 3, 6, 6 and 5 players. -/
def generateInitialPlayers (env : RegisterEnv) (teamID : UUID) : List Player :=
  (List.range 3).map (fun i => generatePlayer env teamID Position.PositionGoalkeeper i)
  ++ (List.range 6).map (fun i => generatePlayer env teamID Position.PositionDefender (3 + i))
  ++ (List.range 6).map (fun i => generatePlayer env teamID Position.PositionMidfielder (9 + i))
  ++ (List.range 5).map (fun i => generatePlayer env teamID Position.PositionAttacker (15 + i))

/-- The use case `AuthUseCase.Register`.  The error of the e-mail lookup is discarded
(line 63). -/
def Register (env : RegisterEnv) (f : RegisterFaults) (s : Store) (email password : String) :
    Store × Except Err AuthResponse :=
  let existingUser : Option User :=
    match callRepo f.getByEmail (userRepo.GetByEmail s email) with
    | Except.error _ => Option.none
    | Except.ok u => some u
  if existingUser.isSome then (s, Except.error ErrUserAlreadyExists) else
  match env.hashPassword password with
  | Except.error c => (s, Except.error (infra c))
  | Except.ok passwordHash =>
  let user := NewUser env.userID env.now email passwordHash
  match execRepo f.createUser s (userRepo.Create s user) with
  | (s1, Except.error e) => (s1, Except.error e)
  | (s1, Except.ok _) =>
  let team := NewTeam env.teamID env.now user.ID (generateDefaultTeamName env.teamName) "Unknown"
  match execRepo f.createTeam s1 (teamRepo.Create s1 team) with
  | (s2, Except.error e) => (s2, Except.error e)
  | (s2, Except.ok _) =>
  let players := generateInitialPlayers env team.ID
  match execRepo f.createBatch s2 (playerRepo.CreateBatch s2 players) with
  | (s3, Except.error e) => (s3, Except.error e)
  | (s3, Except.ok _) =>
  match env.generateToken user.ID user.Email with
  | Except.error c => (s3, Except.error (infra c))
  | Except.ok token => (s3, Except.ok { Token := token, User := user })

/-! ## Sequential histories -/

/-- One call of a use case, with everything it takes from outside the store. -/
inductive Op where
  | register (env : RegisterEnv) (f : RegisterFaults) (email password : String)
  | listPlayer (env : ListEnv) (f : ListFaults) (userID playerID : UUID) (askingPrice : ℚ)
  | removeFromTransferList (f : RemoveFaults) (userID playerID : UUID)
  | buyPlayer (env : BuyEnv) (f : BuyFaults) (userID listingID : UUID)
  | updateTeam (f : UpdateTeamFaults) (userID : UUID) (name country : String)
  | updatePlayer (f : UpdatePlayerFaults) (userID playerID : UUID)
      (firstName lastName country : String)

/-- The store left behind by one call. -/
def step (s : Store) : Op → Store
  | Op.register env f email password => (Register env f s email password).1
  | Op.listPlayer env f userID playerID askingPrice =>
      (ListPlayer env f s userID playerID askingPrice).1
  | Op.removeFromTransferList f userID playerID => (RemoveFromTransferList f s userID playerID).1
  | Op.buyPlayer env f userID listingID => (BuyPlayer env f s userID listingID).1
  | Op.updateTeam f userID name country => (UpdateTeam f s userID name country).1
  | Op.updatePlayer f userID playerID firstName lastName country =>
      (UpdatePlayer f s userID playerID firstName lastName country).1

/-- The store after a finite sequence of calls executed one at a time. -/
def run (s : Store) (ops : List Op) : Store := ops.foldl step s

/-- A call made with repositories that do not fail. -/
def Op.noRepoFault : Op → Prop
  | Op.register _ f _ _ => f = RegisterFaults.none
  | Op.listPlayer _ f _ _ _ => f = ListFaults.none
  | Op.removeFromTransferList f _ _ => f = RemoveFaults.none
  | Op.buyPlayer _ f _ _ => f = BuyFaults.none
  | Op.updateTeam f _ _ _ => f = { getByUserID := Option.none, update := Option.none }
  | Op.updatePlayer f _ _ _ _ _ =>
      f = { getByUserID := Option.none, getPlayerByID := Option.none, update := Option.none }

/-! ## What a successful `BuyPlayer` has read and written -/

/-- The player row written by `BuyPlayer`. -/
def soldPlayer (env : BuyEnv) (v : BuyLocals) : Player :=
  v.player.Transfer v.buyerTeam.ID env.fused env.rand env.now

/-- The transfer record written by `BuyPlayer`. -/
def soldTransfer (env : BuyEnv) (v : BuyLocals) : Transfer :=
  NewTransfer env.transferID env.now v.player.ID v.sellerTeam.ID v.buyerTeam.ID
    v.listing.AskingPrice

/-- The store after all five writes of `BuyPlayer` went through. -/
def soldStore (env : BuyEnv) (s : Store) (v : BuyLocals) : Store :=
  transferRepo.CreateTransfer
    (transferRepo.UpdateListing
      (teamRepo.Update
        (teamRepo.Update (playerRepo.Update s (soldPlayer env v))
          (v.buyerTeam.DeductBudget v.listing.AskingPrice env.now))
        (v.sellerTeam.AddBudget v.listing.AskingPrice env.now))
      v.listing.MarkAsSold)
    (soldTransfer env v)

/-- The store once only the player update of `BuyPlayer` has gone through. -/
def afterPlayerUpdate (env : BuyEnv) (s : Store) (v : BuyLocals) : Store :=
  playerRepo.Update s (soldPlayer env v)

/-- The store once the player and the buyer updates have gone through. -/
def afterBuyerUpdate (env : BuyEnv) (s : Store) (v : BuyLocals) : Store :=
  teamRepo.Update (afterPlayerUpdate env s v)
    (v.buyerTeam.DeductBudget v.listing.AskingPrice env.now)

/-- The store once the player, buyer and seller updates have gone through. -/
def afterSellerUpdate (env : BuyEnv) (s : Store) (v : BuyLocals) : Store :=
  teamRepo.Update (afterBuyerUpdate env s v)
    (v.sellerTeam.AddBudget v.listing.AskingPrice env.now)

/-- The store once every write but the transfer insert has gone through. -/
def afterListingUpdate (env : BuyEnv) (s : Store) (v : BuyLocals) : Store :=
  transferRepo.UpdateListing (afterSellerUpdate env s v) v.listing.MarkAsSold

/-! ## Observations on a store -/

/-- Budget stored for the team with the given id. -/
def budgetOf (s : Store) (teamID : UUID) : Option F64 :=
  (s.teams.find? (fun t => t.ID == teamID)).map Team.Budget

/-- Sum of all stored budgets. -/
def totalBudget (s : Store) : ℚ := (s.teams.map (fun t => t.Budget.toRat)).sum

/-- Owner stored for the player with the given id. -/
def ownerOf (s : Store) (playerID : UUID) : Option (Option UUID) :=
  (s.players.find? (fun p => p.ID == playerID)).map Player.TeamID

/-- Market value stored for the player with the given id. -/
def marketValueOf (s : Store) (playerID : UUID) : Option F64 :=
  (s.players.find? (fun p => p.ID == playerID)).map Player.MarketValue

/-- Listing stored under the given id. -/
def listingOf (s : Store) (listingID : UUID) : Option TransferListing :=
  s.listings.find? (fun l => l.ID == listingID)

/-- Status stored for the listing with the given id. -/
def statusOf (s : Store) (listingID : UUID) : Option TransferListingStatus :=
  (s.listings.find? (fun l => l.ID == listingID)).map TransferListing.Status

/-- The listing found under this id exists and is not Active. -/
def closedListing (s : Store) (listingID : UUID) : Prop :=
  ∃ st, statusOf s listingID = some st ∧ st ≠ TransferStatusActive

/-- No stored team budget is negative. -/
def budgetsNonneg (s : Store) : Prop := ∀ t ∈ s.teams, 0 ≤ t.Budget

/-- No Active stored listing asks a negative price. -/
def activePricesNonneg (s : Store) : Prop :=
  ∀ l ∈ s.listings, l.Status = TransferStatusActive → 0 ≤ l.AskingPrice

/-! ## A small market used to run the use cases -/

def sellerTeam : Team :=
  { ID := 1, UserID := 101, Name := "FC United", Country := "Unknown", Budget := 5000000,
    CreatedAt := 0, UpdatedAt := 0 }

def buyerTeam : Team :=
  { ID := 2, UserID := 102, Name := "City FC", Country := "Unknown", Budget := 5000000,
    CreatedAt := 0, UpdatedAt := 0 }

def rivalTeam : Team :=
  { ID := 3, UserID := 103, Name := "Sporting FC", Country := "Unknown", Budget := 5000000,
    CreatedAt := 0, UpdatedAt := 0 }

def listedPlayer : Player :=
  { ID := 10, TeamID := some 1, FirstName := "John", LastName := "Smith", Country := "Brazil",
    Age := 25, Position := Position.PositionAttacker, MarketValue := 1000000,
    CreatedAt := 0, UpdatedAt := 0 }

def activeListing : TransferListing :=
  { ID := 50, PlayerID := 10, AskingPrice := 1000000, Status := TransferStatusActive,
    ListedAt := 1 }

/-- Three teams, one player of the first team, listed for 1,000,000. -/
def market : Store :=
  { users := [], teams := [sellerTeam, buyerTeam, rivalTeam], players := [listedPlayer],
    listings := [activeListing], transfers := [] }

def marketEnv : BuyEnv := { fused := false, rand := 1 / 2, transferID := 70, now := 2 }

/-- Locals of a purchase of the listing by the second team. -/
def marketLocals : BuyLocals :=
  { buyerTeam := buyerTeam, listing := activeListing, player := listedPlayer,
    sellerTeam := sellerTeam }

/-- Repositories of which only the buyer update fails. -/
def buyerUpdateFails : BuyFaults := { BuyFaults.none with updateBuyer := some 7 }

/-- A buyer who cannot pay the listed price. -/
def poorTeam : Team :=
  { ID := 2, UserID := 102, Name := "City FC", Country := "Unknown", Budget := 500000,
    CreatedAt := 0, UpdatedAt := 0 }

/-- The market with the second team holding 500,000 only. -/
def poorMarket : Store := { market with teams := [sellerTeam, poorTeam, rivalTeam] }

/-- The market after the listing has been sold. -/
def closedMarket : Store := { market with listings := [activeListing.MarkAsSold] }

/-- Twenty players of the second team. -/
def fullSquad : List Player :=
  (List.range 20).map (fun i => { listedPlayer with ID := 100 + i, TeamID := some 2 })

/-- The market with the second team already holding twenty players. -/
def fullMarket : Store := { market with players := listedPlayer :: fullSquad }

/-- The market with the listed player belonging to the second team. -/
def ownMarket : Store := { market with players := [{ listedPlayer with TeamID := some 2 }] }

/-- Two calls made after the sale: the new owner tries to withdraw the player from the
transfer list, and the third team renames itself. -/
def laterCalls : List Op :=
  [Op.removeFromTransferList RemoveFaults.none 102 10,
   Op.updateTeam { getByUserID := Option.none, update := Option.none } 103 "Rivals" "Spain"]

def rivalEnv : BuyEnv := { fused := false, rand := 1 / 4, transferID := 71, now := 3 }

/-- Locals of a purchase of the listing by the third team, read from the market. -/
def rivalLocals : BuyLocals :=
  { buyerTeam := rivalTeam, listing := activeListing, player := listedPlayer,
    sellerTeam := sellerTeam }

/-- An Active listing of player 10 at 1234567.89, the price being the `float64` nearest to
that decimal. -/
def centsListing : TransferListing :=
  { activeListing with AskingPrice := 5302428712241725 / 4294967296 }

/-- The first team holding 9,000,000. -/
def richSeller : Team := { sellerTeam with Budget := 9000000 }

/-- The market with the richer seller and the listing at 1234567.89. -/
def centsMarket : Store :=
  { market with teams := [richSeller, buyerTeam, rivalTeam], listings := [centsListing] }

def centsLocals : BuyLocals :=
  { buyerTeam := buyerTeam, listing := centsListing, player := listedPlayer,
    sellerTeam := richSeller }

/-- The database before the first call. -/
def emptyStore : Store :=
  { users := [], teams := [], players := [], listings := [], transfers := [] }

/-- The market after the second team bought listing 50. -/
def marketAfterSale : Store := soldStore marketEnv market marketLocals

def listEnv : ListEnv := { listingID := 51, now := 4 }

/-- The market with listing 50 withdrawn: player 10 has a Cancelled listing only. -/
def withdrawnMarket : Store := { market with listings := [activeListing.Cancel] }

/-- The market in which player 10, once withdrawn, has been listed again as listing 51. -/
def relistedMarket : Store :=
  transferRepo.CreateListing withdrawnMarket (NewTransferListing 51 4 10 2000000)

/-- Locals of a purchase of listing 51 by the second team. -/
def relistedLocals : BuyLocals :=
  { buyerTeam := buyerTeam, listing := NewTransferListing 51 4 10 2000000,
    player := listedPlayer, sellerTeam := sellerTeam }

/-- A purchase whose random draw is the `float64` nearest to 0.95. -/
def highDrawEnv : BuyEnv :=
  { fused := false, rand := 4278419646001971 / 4503599627370496, transferID := 72, now := 2 }

/-- Entropy, clock and id of a purchase whose draw is the largest `float64` below 1. -/
def maxDrawEnv : BuyEnv :=
  { fused := false, rand := 1 - 1 / 2 ^ 53, transferID := 73, now := 2 }

/-- Number of Active stored listings of a player. -/
def activeListingsOf (s : Store) (playerID : UUID) : Nat :=
  s.listings.countP (fun l => l.PlayerID == playerID && decide (l.Status = TransferStatusActive))

/-- Every player has at most one Active stored listing. -/
def oneActivePerPlayer (s : Store) : Prop := ∀ playerID, activeListingsOf s playerID ≤ 1

/-- The existing-listing lookup of a `ListPlayer` call answers (calls of the other use cases
are not constrained). -/
def Op.listingLookupAnswers : Op → Prop
  | Op.listPlayer _ f _ _ _ => f.getListingByPlayerID = Option.none
  | _ => True

/-- Repositories of which only the existing-listing lookup of `ListPlayer` fails. -/
def lookupFails : ListFaults := { ListFaults.none with getListingByPlayerID := some 3 }

/-- Player ids are unique: they are the key of the players table. -/
def playerIDsUnique (s : Store) : Prop := (s.players.map Player.ID).Nodup

/-- No team id has more than `MaxPlayers` players stored for it. -/
def squadsWithinLimit (s : Store) : Prop :=
  ∀ teamID, teamRepo.GetPlayerCount s teamID ≤ MaxPlayers

/-- What `uuid.New()` provides to a call that inserts players: the team id that `Register`
generates is the owner of no stored player, and the twenty player ids it generates differ
from each other and from every stored player id.  The other calls insert no player. -/
def Op.freshIDs (s : Store) : Op → Prop
  | Op.register env _ _ _ =>
      (∀ p ∈ s.players, p.TeamID ≠ some env.teamID) ∧
      (∀ p ∈ s.players, ∀ i < 20, p.ID ≠ (env.draws i).id) ∧
      ((List.range 20).map (fun i => (env.draws i).id)).Nodup
  | _ => True

/-- Every call of the history generates fresh ids with respect to the store it runs on. -/
def freshRun : Store → List Op → Prop
  | _, [] => True
  | s, op :: ops => op.freshIDs s ∧ freshRun (step s op) ops

/-- A registration in the market: team 4 for user 104, players 200 to 219. -/
def registerEnv : RegisterEnv :=
  { userID := 104, teamID := 4, now := 5, teamName := 0,
    draws := fun i => { id := 200 + i, firstName := i, lastName := 2 * i, country := 3 * i,
                        age := 5 * i },
    hashPassword := fun pw => Except.ok ("hash:" ++ pw),
    generateToken := fun _ email => Except.ok ("token:" ++ email) }

/-- A registration followed by the purchase of listing 50 by the second team. -/
def registerThenBuy : List Op :=
  [Op.register registerEnv RegisterFaults.none "new@example.com" "password123",
   Op.buyPlayer marketEnv BuyFaults.none 102 50]

/-! ## internal/infrastructure/cache: the cache and its helper -/

/-- Struct `TeamWithValue` of team.go: a team with the value of its squad. -/
structure TeamWithValue where
  Team : Team
  TotalValue : F64
  deriving DecidableEq, Repr

/-- Struct `TransferListingWithPlayer` of transfer.go. -/
structure TransferListingWithPlayer where
  TransferListing : TransferListing
  Player : Player
  deriving DecidableEq, Repr

/-- The JSON documents the use cases put in the cache, by the Go type they were marshalled
from.  Unmarshalling a document into the type it came from gives the value back;
unmarshalling it into another type fails. -/
inductive CacheValue where
  | teamWithValue (t : TeamWithValue)
  | players (ps : List Player)
  | listings (ls : List TransferListingWithPlayer)
  deriving DecidableEq, Repr

/-- The cache: keys with their documents.  Expiry is not modelled: an entry stays until it
is deleted or overwritten, which is what a reader sees within the time to live. -/
abbrev Cache := List (String × CacheValue)

/-- One switch per kind of cache call, by key: `some c` makes the call on that key fail.
For `deleteByPattern`, `some (n, c)` makes the scan fail after `n` deletions. -/
structure CacheFaults where
  get : String → Option Nat
  set : String → Option Nat
  delete : String → Option Nat
  deleteByPattern : Option (Nat × Nat)

def CacheFaults.none : CacheFaults :=
  { get := fun _ => Option.none, set := fun _ => Option.none, delete := fun _ => Option.none,
    deleteByPattern := Option.none }

/-- String form of an id, as `uuid.UUID.String` gives it. -/
def idString (id : UUID) : String := toString id

/-- Function `CacheKey`: `fmt.Sprintf("%s:%s", prefix, id)`. -/
def CacheKey (pre : String) (id : String) : String := pre ++ ":" ++ id

/-- Method `redisCache.Get`: the document under the key, `none` when there is none. -/
def redisCache.Get (cf : CacheFaults) (c : Cache) (key : String) :
    Except Err (Option CacheValue) :=
  match cf.get key with
  | some code => Except.error (infra code)
  | Option.none => Except.ok ((c.find? (fun kv => kv.1 == key)).map Prod.snd)

/-- Method `redisCache.Set`: the document replaces what was under the key. -/
def redisCache.Set (cf : CacheFaults) (c : Cache) (key : String) (value : CacheValue) :
    Cache × Except Err Unit :=
  match cf.set key with
  | some code => (c, Except.error (infra code))
  | Option.none => ((key, value) :: c.filter (fun kv => kv.1 != key), Except.ok ())

/-- Method `redisCache.Delete`. -/
def redisCache.Delete (cf : CacheFaults) (c : Cache) (key : String) : Cache × Except Err Unit :=
  match cf.delete key with
  | some code => (c, Except.error (infra code))
  | Option.none => (c.filter (fun kv => kv.1 != key), Except.ok ())

/-- Glob match for the patterns the helper uses: a pattern ending in `*` matches the keys
that start with what precedes the star, any other pattern matches itself only. -/
def matchesPattern (pattern key : String) : Bool :=
  match pattern.data.reverse with
  | '*' :: rest => rest.reverse.isPrefixOf key.data
  | _ => pattern == key

/-- Remove the first `n` entries whose key matches the pattern. -/
def deleteFirstMatches (pattern : String) : Nat → Cache → Cache
  | _, [] => []
  | 0, c => c
  | n + 1, kv :: c =>
    if matchesPattern pattern kv.1 then deleteFirstMatches pattern n c
    else kv :: deleteFirstMatches pattern (n + 1) c

/-- Method `redisCache.DeleteByPattern`: scan the matching keys and delete them one by one,
stopping at the first failure. -/
def redisCache.DeleteByPattern (cf : CacheFaults) (c : Cache) (pattern : String) :
    Cache × Except Err Unit :=
  match cf.deleteByPattern with
  | some (n, code) => (deleteFirstMatches pattern n c, Except.error (infra code))
  | Option.none => (c.filter (fun kv => !matchesPattern pattern kv.1), Except.ok ())

/-- Method `CacheHelper.Get`: a failing read, a missing key and a document of another type
are all errors; the caller treats every error as a miss. -/
def CacheHelper.Get (cf : CacheFaults) (c : Cache) (key : String) : Except Err CacheValue :=
  match redisCache.Get cf c key with
  | Except.error e => Except.error e
  | Except.ok Option.none => Except.error (infra 0)
  | Except.ok (some data) => Except.ok data

/-- Method `CacheHelper.Set`; the time to live is not modelled. -/
def CacheHelper.Set (cf : CacheFaults) (c : Cache) (key : String) (value : CacheValue) :
    Cache × Except Err Unit :=
  redisCache.Set cf c key value

/-- The three keys that `InvalidateTeamCache` deletes. -/
def teamCacheKeys (teamID : String) : List String :=
  [CacheKey "team" teamID, CacheKey "team:players" teamID, CacheKey "team:value" teamID]

/-- The loop of `InvalidateTeamCache`: delete the keys in order, return at the first error. -/
def deleteKeys (cf : CacheFaults) : Cache → List String → Cache × Except Err Unit
  | c, [] => (c, Except.ok ())
  | c, key :: keys =>
    match redisCache.Delete cf c key with
    | (c1, Except.error e) => (c1, Except.error e)
    | (c1, Except.ok _) => deleteKeys cf c1 keys

/-- Method `CacheHelper.InvalidateTeamCache`. -/
def CacheHelper.InvalidateTeamCache (cf : CacheFaults) (c : Cache) (teamID : String) :
    Cache × Except Err Unit :=
  deleteKeys cf c (teamCacheKeys teamID)

/-- Method `CacheHelper.InvalidateTransferListCache`. -/
def CacheHelper.InvalidateTransferListCache (cf : CacheFaults) (c : Cache) :
    Cache × Except Err Unit :=
  redisCache.DeleteByPattern cf c "transfer_list:*"

/-- The database and the cache together. -/
structure World where
  store : Store
  cache : Cache
  deriving DecidableEq, Repr

/-! ## Reads of the repositories used by the cached views -/

/-- Query `SELECT COALESCE(SUM(market_value), 0) FROM players WHERE team_id = $1`; the sum
is taken with `float64` additions in table order. -/
def teamRepo.GetTotalValue (s : Store) (teamID : UUID) : F64 :=
  ((s.players.filter (fun p => p.TeamID == some teamID)).map Player.MarketValue).foldl
    (fun total v => total + v) 0

/-- Text stored for a position. -/
def Position.text : Position → String
  | Position.PositionGoalkeeper => "goalkeeper"
  | Position.PositionDefender => "defender"
  | Position.PositionMidfielder => "midfielder"
  | Position.PositionAttacker => "attacker"

/-- Order of `ORDER BY position, last_name, first_name`, with `lt` the order of the database
collation on text. -/
def playerOrder (lt : String → String → Bool) (a b : Player) : Bool :=
  lt a.Position.text b.Position.text ||
  (a.Position.text == b.Position.text &&
    (lt a.LastName b.LastName ||
     (a.LastName == b.LastName && (lt a.FirstName b.FirstName || a.FirstName == b.FirstName))))

/-- Query of `playerRepository.GetByTeamID`. -/
def playerRepo.GetByTeamID (lt : String → String → Bool) (s : Store) (teamID : UUID) :
    List Player :=
  (s.players.filter (fun p => p.TeamID == some teamID)).insertionSort
    (fun a b => playerOrder lt a b = true)

/-- Query of `transferRepository.GetActiveListings`: Active listings joined with their player,
without the players of the excluded team, latest listing first. -/
def transferRepo.GetActiveListings (s : Store) (excludeTeamID : UUID) :
    List TransferListingWithPlayer :=
  ((s.listings.flatMap (fun tl =>
      (s.players.filter (fun p => p.ID == tl.PlayerID)).map
        (fun p => ({ TransferListing := tl, Player := p } : TransferListingWithPlayer)))).filter
    (fun row => decide (row.TransferListing.Status = TransferStatusActive) &&
      (row.Player.TeamID.isNone || row.Player.TeamID != some excludeTeamID))).insertionSort
    (fun a b => b.TransferListing.ListedAt ≤ a.TransferListing.ListedAt)

/-! ## internal/app/team/team_usecase.go: GetTeam, GetTeamPlayers -/

structure GetTeamFaults where
  getByUserID : Option Nat
  getTotalValue : Option Nat
  deriving DecidableEq, Repr

def GetTeamFaults.none : GetTeamFaults :=
  { getByUserID := Option.none, getTotalValue := Option.none }

/-- The use case `TeamUseCase.GetTeam`: the cache is asked first, under a key made of the
user id. -/
def uc.GetTeam (f : GetTeamFaults) (cf : CacheFaults) (w : World) (userID : UUID) :
    World × Except Err TeamWithValue :=
  let cacheKey := CacheKey "team" (idString userID)
  match CacheHelper.Get cf w.cache cacheKey with
  | Except.ok (CacheValue.teamWithValue teamWithValue) => (w, Except.ok teamWithValue)
  | _ =>
  match callRepo f.getByUserID (teamRepo.GetByUserID w.store userID) with
  | Except.error e => (w, Except.error e)
  | Except.ok team =>
  match callRepo f.getTotalValue (Except.ok (teamRepo.GetTotalValue w.store team.ID)) with
  | Except.error e => (w, Except.error e)
  | Except.ok totalValue =>
  let teamWithValue : TeamWithValue := { Team := team, TotalValue := totalValue }
  ({ w with cache :=
      (CacheHelper.Set cf w.cache cacheKey (CacheValue.teamWithValue teamWithValue)).1 },
   Except.ok teamWithValue)

structure GetTeamPlayersFaults where
  getByUserID : Option Nat
  getByTeamID : Option Nat
  deriving DecidableEq, Repr

/-- The use case `TeamUseCase.GetTeamPlayers`: the team is loaded first, the cache is asked
under a key made of the team id. -/
def uc.GetTeamPlayers (lt : String → String → Bool) (f : GetTeamPlayersFaults)
    (cf : CacheFaults) (w : World) (userID : UUID) : World × Except Err (List Player) :=
  match callRepo f.getByUserID (teamRepo.GetByUserID w.store userID) with
  | Except.error e => (w, Except.error e)
  | Except.ok team =>
  let cacheKey := CacheKey "team:players" (idString team.ID)
  match CacheHelper.Get cf w.cache cacheKey with
  | Except.ok (CacheValue.players players) => (w, Except.ok players)
  | _ =>
  match callRepo f.getByTeamID (Except.ok (playerRepo.GetByTeamID lt w.store team.ID)) with
  | Except.error e => (w, Except.error e)
  | Except.ok players =>
  ({ w with cache := (CacheHelper.Set cf w.cache cacheKey (CacheValue.players players)).1 },
   Except.ok players)

/-! ## internal/app/transfer/transfer_usecase.go: GetTransferList and the cache calls -/

/-- Method `filterOwnPlayers`. -/
def filterOwnPlayers (listings : List TransferListingWithPlayer) (teamID : UUID) :
    List TransferListingWithPlayer :=
  listings.filter (fun listing =>
    listing.Player.TeamID.isNone || listing.Player.TeamID != some teamID)

structure GetTransferListFaults where
  getByUserID : Option Nat
  getActiveListings : Option Nat
  deriving DecidableEq, Repr

def GetTransferListFaults.none : GetTransferListFaults :=
  { getByUserID := Option.none, getActiveListings := Option.none }

/-- The use case `TransferUseCase.GetTransferList`. -/
def uc.GetTransferList (f : GetTransferListFaults) (cf : CacheFaults) (w : World)
    (userID : UUID) : World × Except Err (List TransferListingWithPlayer) :=
  match callRepo f.getByUserID (teamRepo.GetByUserID w.store userID) with
  | Except.error e => (w, Except.error e)
  | Except.ok team =>
  let cacheKey := CacheKey "transfer_list" "all"
  match CacheHelper.Get cf w.cache cacheKey with
  | Except.ok (CacheValue.listings listings) =>
    (w, Except.ok (filterOwnPlayers listings team.ID))
  | _ =>
  match callRepo f.getActiveListings
      (Except.ok (transferRepo.GetActiveListings w.store team.ID)) with
  | Except.error e => (w, Except.error e)
  | Except.ok listings =>
  ({ w with cache := (CacheHelper.Set cf w.cache cacheKey (CacheValue.listings listings)).1 },
   Except.ok listings)

/-- The use case `TransferUseCase.BuyPlayer` in full: the checks and the writes of
`BuyPlayer`, then, once all writes went through, the three invalidations of lines
244-246, whose results are discarded. -/
def uc.BuyPlayer (env : BuyEnv) (f : BuyFaults) (cf : CacheFaults) (w : World)
    (userID listingID : UUID) : World × Except Err Transfer :=
  match buyPlayerChecks f w.store userID listingID with
  | Except.error e => (w, Except.error e)
  | Except.ok v =>
  match buyPlayerWrites env f w.store v with
  | (s1, Except.error e) => ({ w with store := s1 }, Except.error e)
  | (s1, Except.ok transfer) =>
  let c1 := (CacheHelper.InvalidateTeamCache cf w.cache (idString v.buyerTeam.ID)).1
  let c2 := (CacheHelper.InvalidateTeamCache cf c1 (idString v.sellerTeam.ID)).1
  let c3 := (CacheHelper.InvalidateTransferListCache cf c2).1
  ({ store := s1, cache := c3 }, Except.ok transfer)

/-- The use case `TransferUseCase.ListPlayer` in full: `ListPlayer`, then, once the listing
is stored, the invalidation of line 84, whose result is discarded. -/
def uc.ListPlayer (env : ListEnv) (f : ListFaults) (cf : CacheFaults) (w : World)
    (userID playerID : UUID) (askingPrice : ℚ) : World × Except Err TransferListing :=
  match SoccerManager.ListPlayer env f w.store userID playerID askingPrice with
  | (s1, Except.error e) => ({ w with store := s1 }, Except.error e)
  | (s1, Except.ok listing) =>
  ({ store := s1, cache := (CacheHelper.InvalidateTransferListCache cf w.cache).1 },
   Except.ok listing)

/-- The use case `TransferUseCase.RemoveFromTransferList` in full: `RemoveFromTransferList`,
then, once the listing is updated, the invalidation of line 121, whose result is
discarded. -/
def uc.RemoveFromTransferList (f : RemoveFaults) (cf : CacheFaults) (w : World)
    (userID playerID : UUID) : World × Except Err Unit :=
  match SoccerManager.RemoveFromTransferList f w.store userID playerID with
  | (s1, Except.error e) => ({ w with store := s1 }, Except.error e)
  | (s1, Except.ok _) =>
  ({ store := s1, cache := (CacheHelper.InvalidateTransferListCache cf w.cache).1 },
   Except.ok ())

/-- The market with an empty cache. -/
def marketWorld : World := { store := market, cache := [] }

/-- The market after user 102 has looked at its team: the summary is cached. -/
def marketWorldSeen : World :=
  (uc.GetTeam GetTeamFaults.none CacheFaults.none marketWorld 102).1

/-- Then user 102 buys listing 50, with every cache call succeeding. -/
def marketWorldBought : World :=
  (uc.BuyPlayer marketEnv BuyFaults.none CacheFaults.none marketWorldSeen 102 50).1

/-- A player of the second team. -/
def secondPlayer : Player :=
  { ID := 20, TeamID := some 2, FirstName := "James", LastName := "Brown", Country := "Spain",
    Age := 30, Position := Position.PositionDefender, MarketValue := 1000000,
    CreatedAt := 0, UpdatedAt := 0 }

/-- An Active listing of the second team's player. -/
def secondListing : TransferListing :=
  { ID := 52, PlayerID := 20, AskingPrice := 3000000, Status := TransferStatusActive,
    ListedAt := 2 }

/-- The market with one Active listing by the first team and one by the second, and an
empty cache. -/
def twoListingsWorld : World :=
  { store := { market with players := [listedPlayer, secondPlayer],
                            listings := [activeListing, secondListing] },
    cache := [] }

/-- The same after user 101 has looked at the transfer list. -/
def twoListingsWorldSeen : World :=
  (uc.GetTransferList GetTransferListFaults.none CacheFaults.none twoListingsWorld 101).1

/-- Repositories of which only the listing lookup of `RemoveFromTransferList` fails. -/
def removeLookupFails : RemoveFaults :=
  { RemoveFaults.none with getListingByPlayerID := some 3 }

/-! ## internal/app/auth/auth_usecase.go: Login -/

/-- What `Login` takes from outside the store: the results of
`password.CheckPasswordHash` and `jwt.GenerateToken` (an error code when signing fails). -/
structure LoginEnv where
  checkPasswordHash : String → String → Bool
  generateToken : UUID → String → Except Nat String

/-- The use case `AuthUseCase.Login`.  Every error of the e-mail lookup becomes
`ErrInvalidCredentials` (lines 109-112). -/
def Login (env : LoginEnv) (getByEmail : Option Nat) (s : Store) (email password : String) :
    Except Err AuthResponse :=
  match callRepo getByEmail (userRepo.GetByEmail s email) with
  | Except.error _ => Except.error ErrInvalidCredentials
  | Except.ok user =>
  if !env.checkPasswordHash password user.PasswordHash then
    Except.error ErrInvalidCredentials else
  match env.generateToken user.ID user.Email with
  | Except.error c => Except.error (infra c)
  | Except.ok token => Except.ok { Token := token, User := user }

/-- The store after a registration of which every write went through. -/
def registeredStore (env : RegisterEnv) (s : Store) (user : User) : Store :=
  playerRepo.CreateBatch
    (teamRepo.Create (userRepo.Create s user)
      (NewTeam env.teamID env.now user.ID (generateDefaultTeamName env.teamName) "Unknown"))
    (generateInitialPlayers env env.teamID)

/-- A login environment that accepts the hashes of `registerEnv`. -/
def loginEnv : LoginEnv :=
  { checkPasswordHash := fun pw h => h == "hash:" ++ pw,
    generateToken := fun _ email => Except.ok ("token:" ++ email) }

/-- The market in which the second team owns the listed player and holds 500,000 only. -/
def ownPoorMarket : Store :=
  { market with teams := [sellerTeam, poorTeam, rivalTeam],
                players := [{ listedPlayer with TeamID := some 2 }] }

/-- The market in which the second team holds 500,000 only and already has twenty players. -/
def fullPoorMarket : Store :=
  { market with teams := [sellerTeam, poorTeam, rivalTeam],
                players := listedPlayer :: fullSquad }

/-- The market without the record of the listed player. -/
def orphanMarket : Store := { market with players := [] }

/-! ## pkg/localization

Go strings are byte sequences: `len` counts bytes and `lang[:2]` cuts after two bytes.  The
package is therefore embedded over lists of bytes, and the string literals of the source
are written through their UTF-8 encoding. -/

/-- Go string, as the list of its bytes. -/
abbrev Bytes := List Nat

/-- UTF-8 encoding of one character. -/
def utf8Char (c : Char) : Bytes :=
  let n := c.toNat
  if n < 128 then [n]
  else if n < 2048 then [192 + n / 64, 128 + n % 64]
  else if n < 65536 then [224 + n / 4096, 128 + n / 64 % 64, 128 + n % 64]
  else [240 + n / 262144, 128 + n / 4096 % 64, 128 + n / 64 % 64, 128 + n % 64]

/-- Bytes of a string literal of the source file. -/
def utf8 (s : String) : Bytes := s.data.flatMap utf8Char

/-- The two functions of Go's `strings` package whose result depends on the Unicode
tables; they are inputs of the embedding. -/
structure Strings where
  ToLower : Bytes → Bytes
  TrimSpace : Bytes → Bytes

/-- Pieces of `s` between the occurrences of the one-byte separator `sep`: `strings.Split`
with a separator of one byte.  It never returns the empty list. -/
def Split (s : Bytes) (sep : Nat) : List Bytes :=
  match s with
  | [] => [[]]
  | b :: rest =>
    if b = sep then [] :: Split rest sep
    else
      match Split rest sep with
      | piece :: pieces => (b :: piece) :: pieces
      | [] => [[b]]

def LangEN : Bytes := utf8 "en"
def LangKA : Bytes := utf8 "ka"
def LangDefault : Bytes := LangEN

/-- English table of `Messages`. -/
def messagesEN : List (Bytes × Bytes) :=
  [ (utf8 "user.created", utf8 "User created successfully"),
    (utf8 "user.login.success", utf8 "Login successful"),
    (utf8 "user.invalid_credentials", utf8 "Invalid email or password"),
    (utf8 "user.already_exists", utf8 "User with this email already exists"),
    (utf8 "team.created", utf8 "Team created successfully"),
    (utf8 "team.updated", utf8 "Team updated successfully"),
    (utf8 "team.not_found", utf8 "Team not found"),
    (utf8 "player.updated", utf8 "Player updated successfully"),
    (utf8 "player.not_found", utf8 "Player not found"),
    (utf8 "player.not_owned", utf8 "Player does not belong to your team"),
    (utf8 "player.listed", utf8 "Player listed for transfer"),
    (utf8 "player.already_listed", utf8 "Player is already on transfer list"),
    (utf8 "player.removed_from_list", utf8 "Player removed from transfer list"),
    (utf8 "player.not_on_list", utf8 "Player is not on transfer list"),
    (utf8 "transfer.purchased", utf8 "Player purchased successfully"),
    (utf8 "transfer.insufficient_budget", utf8 "Insufficient budget"),
    (utf8 "transfer.team_full", utf8 "Team already has maximum number of players"),
    (utf8 "transfer.cannot_buy_own", utf8 "Cannot buy your own player"),
    (utf8 "transfer.listing_not_found", utf8 "Transfer listing not found"),
    (utf8 "error.internal", utf8 "Internal server error"),
    (utf8 "error.validation", utf8 "Validation error"),
    (utf8 "error.unauthorized", utf8 "Unauthorized") ]

/-- Georgian table of `Messages`. -/
def messagesKA : List (Bytes × Bytes) :=
  [ (utf8 "user.created", utf8 "მომხმარებელი წარმატებით შეიქმნა"),
    (utf8 "user.login.success", utf8 "შესვლა წარმატებულია"),
    (utf8 "user.invalid_credentials", utf8 "არასწორი ელფოსტა ან პაროლი"),
    (utf8 "user.already_exists", utf8 "ამ ელფოსტით მომხმარებელი უკვე არსებობს"),
    (utf8 "team.created", utf8 "გუნდი წარმატებით შეიქმნა"),
    (utf8 "team.updated", utf8 "გუნდი განახლდა"),
    (utf8 "team.not_found", utf8 "გუნდი ვერ მოიძებნა"),
    (utf8 "player.updated", utf8 "მოთამაშე განახლდა"),
    (utf8 "player.not_found", utf8 "მოთამაშე ვერ მოიძებნა"),
    (utf8 "player.not_owned", utf8 "მოთამაშე არ ეკუთვნის თქვენს გუნდს"),
    (utf8 "player.listed", utf8 "მოთამაშე განთავსდა გადაცემის სიაში"),
    (utf8 "player.already_listed", utf8 "მოთამაშე უკვე არის გადაცემის სიაში"),
    (utf8 "player.removed_from_list", utf8 "მოთამაშე წაიშალა გადაცემის სიიდან"),
    (utf8 "player.not_on_list", utf8 "მოთამაშე არ არის გადაცემის სიაში"),
    (utf8 "transfer.purchased", utf8 "მოთამაშე წარმატებით შეიძინა"),
    (utf8 "transfer.insufficient_budget", utf8 "არასაკმარისი ბიუჯეტი"),
    (utf8 "transfer.team_full", utf8 "გუნდს უკვე აქვს მაქსიმალური რაოდენობის მოთამაშე"),
    (utf8 "transfer.cannot_buy_own", utf8 "ვერ შეიძენთ საკუთარ მოთამაშეს"),
    (utf8 "transfer.listing_not_found", utf8 "გადაცემის სია ვერ მოიძებნა"),
    (utf8 "error.internal", utf8 "შიდა სერვერის შეცდომა"),
    (utf8 "error.validation", utf8 "ვალიდაციის შეცდომა"),
    (utf8 "error.unauthorized", utf8 "არაავტორიზებული") ]

/-- The map `Messages`: a table for `LangEN` and one for `LangKA`, none for another
language. -/
def Messages (lang : Bytes) : Option (List (Bytes × Bytes)) :=
  if lang = LangEN then some messagesEN
  else if lang = LangKA then some messagesKA
  else none

/-- Trim and lower-case, default on the empty string, keep the first two bytes of a longer
string, default unless the result is `LangEN` or `LangKA`. -/
def normalizeLang (S : Strings) (lang : Bytes) : Bytes :=
  let lang := S.ToLower (S.TrimSpace lang)
  if lang = [] then LangDefault
  else
    let lang := if lang.length > 2 then lang.take 2 else lang
    if lang ≠ LangEN ∧ lang ≠ LangKA then LangDefault
    else lang

/-- Look `key` up in the table of the normalized language, then in the default table, and
return the key itself when neither has it. -/
def GetMessage (S : Strings) (lang key : Bytes) : Bytes :=
  let lang := normalizeLang S lang
  let fallback : Bytes :=
    match Messages LangDefault with
    | some messages =>
      match messages.lookup key with
      | some msg => msg
      | none => key
    | none => key
  match Messages lang with
  | some messages =>
    match messages.lookup key with
    | some msg => msg
    | none => fallback
  | none => fallback

/-- Byte `,`. -/
def comma : Nat := 44

/-- Byte `;`. -/
def semicolon : Nat := 59

/-- Language of an Accept-Language header: the default for the empty header, otherwise the
first piece before a comma is trimmed, cut at its first semicolon, and normalized.  Index 0
of the inner `Split` always exists. -/
def GetLanguageFromHeader (S : Strings) (acceptLang : Bytes) : Bytes :=
  if acceptLang = [] then LangDefault
  else
    match Split acceptLang comma with
    | first :: _ => normalizeLang S ((Split (S.TrimSpace first) semicolon).headD [])
    | [] => LangDefault

/-- Lower-casing of the bytes `A` to `Z`; `strings.ToLower` on a string of ASCII bytes. -/
def asciiToLower (s : Bytes) : Bytes :=
  s.map (fun b => if 65 ≤ b ∧ b ≤ 90 then b + 32 else b)

/-- The ASCII white space bytes: tab, line feed, vertical tab, form feed, carriage return,
space. -/
def asciiSpace (b : Nat) : Bool := b == 9 || b == 10 || b == 11 || b == 12 || b == 13 || b == 32

/-- Removal of leading and trailing ASCII white space; `strings.TrimSpace` on a string of
ASCII bytes. -/
def asciiTrimSpace (s : Bytes) : Bytes :=
  ((s.dropWhile asciiSpace).reverse.dropWhile asciiSpace).reverse

/-- The `strings` functions restricted to ASCII input. -/
def asciiStrings : Strings := { ToLower := asciiToLower, TrimSpace := asciiTrimSpace }

/-! # Properties -/

/-! ## float64: rounding -/

theorem F64.log2Aux_eq (fuel n : Nat) (h : n ≤ fuel) : F64.log2Aux fuel n = Nat.log 2 n := by
  induction fuel generalizing n with
  | zero =>
    have : n = 0 := by omega
    subst this
    simp [F64.log2Aux]
  | succ fuel ih =>
    unfold F64.log2Aux
    by_cases h2 : 2 ≤ n
    · rw [if_pos h2, ih (n / 2) (by omega), Nat.log_of_one_lt_of_le (by norm_num) h2]
    · rw [if_neg h2, Nat.log_of_lt (by omega)]

theorem F64.natLog2_spec {n : Nat} (hn : n ≠ 0) :
    2 ^ F64.natLog2 n ≤ n ∧ n < 2 ^ (F64.natLog2 n + 1) := by
  unfold F64.natLog2
  rw [F64.log2Aux_eq n n le_rfl]
  exact ⟨Nat.pow_log_le_self 2 hn, Nat.lt_pow_succ_log_self (by norm_num) n⟩

theorem F64.ilog2_spec {q : ℚ} (hq : q ≠ 0) :
    (2 : ℚ) ^ F64.ilog2 q ≤ |q| ∧ |q| < (2 : ℚ) ^ (F64.ilog2 q + 1) := by
  have hnum : q.num.natAbs ≠ 0 := by
    simpa using (Rat.num_ne_zero.mpr hq)
  have hden : q.den ≠ 0 := q.den_nz
  obtain ⟨a1, a2⟩ := F64.natLog2_spec hnum
  obtain ⟨b1, b2⟩ := F64.natLog2_spec hden
  have habs : |q| = (q.num.natAbs : ℚ) / (q.den : ℚ) := by
    conv_lhs => rw [← Rat.num_div_den q]
    rw [abs_div, Nat.abs_cast, Nat.cast_natAbs, Int.cast_abs]
  have hd0 : (0 : ℚ) < (q.den : ℚ) := by exact_mod_cast q.den_pos
  have A1 : ((2 : ℚ) ^ F64.natLog2 q.num.natAbs) ≤ (q.num.natAbs : ℚ) := by exact_mod_cast a1
  have A2 : (q.num.natAbs : ℚ) < (2 : ℚ) ^ (F64.natLog2 q.num.natAbs + 1) := by exact_mod_cast a2
  have B1 : ((2 : ℚ) ^ F64.natLog2 q.den) ≤ (q.den : ℚ) := by exact_mod_cast b1
  have B2 : (q.den : ℚ) < (2 : ℚ) ^ (F64.natLog2 q.den + 1) := by exact_mod_cast b2
  set a := F64.natLog2 q.num.natAbs with ha
  set b := F64.natLog2 q.den with hb
  have h2 : (0 : ℚ) < 2 := by norm_num
  have up : |q| < (2 : ℚ) ^ (((a : ℤ) - (b : ℤ)) + 1) := by
    rw [habs, div_lt_iff₀ hd0]
    have e : (2 : ℚ) ^ (((a : ℤ) - (b : ℤ)) + 1) * (2 : ℚ) ^ b = (2 : ℚ) ^ (a + 1) := by
      rw [← zpow_natCast (2 : ℚ) b, ← zpow_add₀ (by norm_num : (2 : ℚ) ≠ 0),
        ← zpow_natCast (2 : ℚ) (a + 1)]
      congr 1
      push_cast
      ring
    calc (q.num.natAbs : ℚ) < (2 : ℚ) ^ (a + 1) := A2
      _ = (2 : ℚ) ^ (((a : ℤ) - (b : ℤ)) + 1) * (2 : ℚ) ^ b := e.symm
      _ ≤ (2 : ℚ) ^ (((a : ℤ) - (b : ℤ)) + 1) * (q.den : ℚ) :=
        mul_le_mul_of_nonneg_left B1 (le_of_lt (zpow_pos h2 _))
  have low : (2 : ℚ) ^ (((a : ℤ) - (b : ℤ)) - 1) ≤ |q| := by
    rw [habs, le_div_iff₀ hd0]
    have e : (2 : ℚ) ^ (((a : ℤ) - (b : ℤ)) - 1) * (2 : ℚ) ^ (b + 1) = (2 : ℚ) ^ a := by
      rw [← zpow_natCast (2 : ℚ) (b + 1), ← zpow_add₀ (by norm_num : (2 : ℚ) ≠ 0),
        ← zpow_natCast (2 : ℚ) a]
      congr 1
      push_cast
      ring
    calc (2 : ℚ) ^ (((a : ℤ) - (b : ℤ)) - 1) * (q.den : ℚ)
        ≤ (2 : ℚ) ^ (((a : ℤ) - (b : ℤ)) - 1) * (2 : ℚ) ^ (b + 1) :=
          mul_le_mul_of_nonneg_left (le_of_lt B2) (le_of_lt (zpow_pos h2 _))
      _ = (2 : ℚ) ^ a := e
      _ ≤ (q.num.natAbs : ℚ) := A1
  unfold F64.ilog2
  simp only [← ha, ← hb]
  by_cases hk : (2 : ℚ) ^ ((a : ℤ) - (b : ℤ)) ≤ |q|
  · rw [if_pos hk]
    exact ⟨hk, up⟩
  · rw [if_neg hk]
    refine ⟨low, ?_⟩
    rw [sub_add_cancel]
    exact lt_of_not_le hk

theorem F64.ilog2_eq {q : ℚ} {k : ℤ} (h1 : (2 : ℚ) ^ k ≤ |q|) (h2 : |q| < (2 : ℚ) ^ (k + 1)) :
    F64.ilog2 q = k := by
  have hq : q ≠ 0 := by
    intro h
    rw [h, abs_zero] at h1
    exact absurd h1 (not_le.mpr (zpow_pos (by norm_num) _))
  obtain ⟨s1, s2⟩ := F64.ilog2_spec hq
  have l1 : F64.ilog2 q < k + 1 :=
    (zpow_lt_zpow_iff_right₀ (by norm_num : (1 : ℚ) < 2)).mp (lt_of_le_of_lt s1 h2)
  have l2 : k < F64.ilog2 q + 1 :=
    (zpow_lt_zpow_iff_right₀ (by norm_num : (1 : ℚ) < 2)).mp (lt_of_le_of_lt h1 s2)
  omega

theorem F64.rne_bounds (x : ℚ) : x - 1 / 2 ≤ (F64.rne x : ℚ) ∧ (F64.rne x : ℚ) ≤ x + 1 / 2 := by
  have h1 := Int.floor_le x
  have h2 := Int.lt_floor_add_one x
  unfold F64.rne
  simp only
  split_ifs with c1 c2 c3
  · constructor <;> linarith
  · constructor <;> push_cast <;> linarith
  · constructor <;> linarith
  · constructor <;> push_cast <;> linarith

theorem F64.rne_intCast (z : ℤ) : F64.rne (z : ℚ) = z := by
  unfold F64.rne
  simp

theorem F64.rne_cases (x : ℚ) : F64.rne x = ⌊x⌋ ∨ F64.rne x = ⌊x⌋ + 1 := by
  unfold F64.rne
  simp only
  split_ifs <;> simp

theorem F64.le_rne {x : ℚ} {z : ℤ} (h : (z : ℚ) ≤ x) : z ≤ F64.rne x := by
  have hz : z ≤ ⌊x⌋ := Int.le_floor.mpr h
  rcases F64.rne_cases x with e | e <;> omega

theorem F64.rne_le {x : ℚ} {z : ℤ} (h : x ≤ (z : ℚ)) : F64.rne x ≤ z := by
  by_cases hx : x = (⌊x⌋ : ℚ)
  · have : F64.rne x = ⌊x⌋ := by
      rw [hx, F64.rne_intCast]
      simp
    rw [this]
    have : (⌊x⌋ : ℚ) ≤ (z : ℚ) := le_trans (Int.floor_le x) h
    exact_mod_cast this
  · have hlt : (⌊x⌋ : ℚ) < x := lt_of_le_of_ne (Int.floor_le x) (Ne.symm hx)
    have : (⌊x⌋ : ℚ) < (z : ℚ) := lt_of_lt_of_le hlt h
    have hz : ⌊x⌋ < z := by exact_mod_cast this
    rcases F64.rne_cases x with e | e <;> omega

theorem F64.rne_mono {a b : ℚ} (h : a ≤ b) : F64.rne a ≤ F64.rne b := by
  by_contra hc
  push_neg at hc
  have h1 : (F64.rne b : ℚ) + 1 ≤ (F64.rne a : ℚ) := by exact_mod_cast hc
  have ha := (F64.rne_bounds a).2
  have hb := (F64.rne_bounds b).1
  have hab : a = b := by linarith
  subst hab
  exact lt_irrefl _ hc

theorem F64.rne_nonneg {x : ℚ} (h : 0 ≤ x) : 0 ≤ F64.rne x :=
  F64.le_rne (by simpa using h)

/-! ## float64: order -/

theorem F64.fin_le_fin {a b : ℚ} : (F64.fin a ≤ F64.fin b) ↔ a ≤ b := by
  show F64.ble (F64.fin a) (F64.fin b) = true ↔ a ≤ b
  simp [F64.ble]

theorem F64.fin_lt_fin {a b : ℚ} : (F64.fin a < F64.fin b) ↔ a < b := by
  show F64.blt (F64.fin a) (F64.fin b) = true ↔ a < b
  simp [F64.blt]

theorem F64.fin_le_posInf (a : ℚ) : F64.fin a ≤ F64.posInf := rfl

theorem F64.fin_lt_posInf (a : ℚ) : F64.fin a < F64.posInf := rfl

theorem F64.posInf_le_posInf : F64.posInf ≤ F64.posInf := rfl

theorem F64.le_of_le_of_le {a b c : F64} (h1 : a ≤ b) (h2 : b ≤ c) : a ≤ c := by
  change F64.ble a b = true at h1
  change F64.ble b c = true at h2
  show F64.ble a c = true
  cases a <;> cases b <;> cases c <;> simp_all [F64.ble]
  exact LE.le.trans h1 h2

theorem F64.lt_le_trans {a b c : F64} (h1 : a < b) (h2 : b ≤ c) : a < c := by
  change F64.blt a b = true at h1
  change F64.ble b c = true at h2
  show F64.blt a c = true
  cases a <;> cases b <;> cases c <;> simp_all [F64.ble, F64.blt]
  exact LT.lt.trans_le h1 h2

theorem F64.lt_imp_le {a b : F64} (h : a < b) : a ≤ b := by
  change F64.blt a b = true at h
  show F64.ble a b = true
  cases a <;> cases b <;> simp_all [F64.ble, F64.blt]
  exact le_of_lt h

theorem F64.lt_imp_not_ge {a b : F64} (h : a < b) : ¬ b ≤ a := by
  change F64.blt a b = true at h
  show ¬ F64.ble b a = true
  cases a <;> cases b <;> simp_all [F64.ble, F64.blt]

theorem F64.ofNat_eq (n : Nat) : (OfNat.ofNat n : F64) = F64.fin (n : ℚ) := rfl

theorem F64.zero_eq : (0 : F64) = F64.fin 0 := by
  show F64.fin ((0 : Nat) : ℚ) = F64.fin 0
  simp

/-! ## float64: rounding is monotone and exact on the values of the format -/

theorem F64.two_zpow_pos (e : ℤ) : (0 : ℚ) < (2 : ℚ) ^ e := zpow_pos (by norm_num) e

theorem F64.two_zpow_natCast (e : ℤ) (h : 0 ≤ e) :
    (2 : ℚ) ^ e = (((2 : ℤ) ^ e.toNat : ℤ) : ℚ) := by
  have : e = (e.toNat : ℤ) := (Int.toNat_of_nonneg h).symm
  conv_lhs => rw [this]
  rw [zpow_natCast]
  push_cast
  rfl

theorem F64.nearest_nonneg {q : ℚ} (h : 0 ≤ q) : 0 ≤ F64.nearest q := by
  unfold F64.nearest
  have h1 : (0 : ℚ) ≤ q / 2 ^ F64.ulpExp q := div_nonneg h (le_of_lt (F64.two_zpow_pos _))
  have h2 : (0 : ℚ) ≤ (F64.rne (q / 2 ^ F64.ulpExp q) : ℚ) := by
    exact_mod_cast F64.rne_nonneg h1
  exact mul_nonneg h2 (le_of_lt (F64.two_zpow_pos _))

theorem F64.nearest_zero : F64.nearest 0 = 0 := by
  unfold F64.nearest
  rw [zero_div]
  have : F64.rne 0 = 0 := by simpa using F64.rne_intCast 0
  rw [this]
  simp

theorem F64.ulpExp_ge (q : ℚ) : -1074 ≤ F64.ulpExp q := le_max_right _ _

theorem F64.ulpExp_ge_ilog2 (q : ℚ) : F64.ilog2 q - 52 ≤ F64.ulpExp q := le_max_left _ _

theorem F64.ilog2_mono {a b : ℚ} (ha : 0 < a) (h : a ≤ b) : F64.ilog2 a ≤ F64.ilog2 b := by
  have hb : 0 < b := lt_of_lt_of_le ha h
  obtain ⟨a1, -⟩ := F64.ilog2_spec (ne_of_gt ha)
  obtain ⟨-, b2⟩ := F64.ilog2_spec (ne_of_gt hb)
  rw [abs_of_pos ha] at a1
  rw [abs_of_pos hb] at b2
  have : (2 : ℚ) ^ F64.ilog2 a < (2 : ℚ) ^ (F64.ilog2 b + 1) :=
    lt_of_le_of_lt (a1.trans h) b2
  have := (zpow_lt_zpow_iff_right₀ (by norm_num : (1 : ℚ) < 2)).mp this
  omega

theorem F64.nearest_mono {a b : ℚ} (ha : 0 ≤ a) (h : a ≤ b) :
    F64.nearest a ≤ F64.nearest b := by
  rcases eq_or_lt_of_le ha with h0 | hpos
  · rw [← h0, F64.nearest_zero]
    exact F64.nearest_nonneg (ha.trans h)
  have hb : 0 < b := lt_of_lt_of_le hpos h
  have hk := F64.ilog2_mono hpos h
  have hE : F64.ulpExp a ≤ F64.ulpExp b := max_le_max (by omega) le_rfl
  rcases eq_or_lt_of_le hE with heq | hlt
  · unfold F64.nearest
    rw [heq]
    have hdiv : a / 2 ^ F64.ulpExp b ≤ b / 2 ^ F64.ulpExp b :=
      div_le_div_of_nonneg_right h (le_of_lt (F64.two_zpow_pos _))
    have : (F64.rne (a / 2 ^ F64.ulpExp b) : ℚ) ≤ (F64.rne (b / 2 ^ F64.ulpExp b) : ℚ) := by
      exact_mod_cast F64.rne_mono hdiv
    exact mul_le_mul_of_nonneg_right this (le_of_lt (F64.two_zpow_pos _))
  · have hEa := F64.ulpExp_ge a
    have hEa2 := F64.ulpExp_ge_ilog2 a
    have hEb : F64.ulpExp b = F64.ilog2 b - 52 := by
      unfold F64.ulpExp at hlt hEa ⊢
      rcases max_cases (F64.ilog2 b - 52) (-1074) with ⟨e, -⟩ | ⟨e, -⟩
      · exact e
      · rw [e] at hlt
        omega
    obtain ⟨-, a2⟩ := F64.ilog2_spec (ne_of_gt hpos)
    obtain ⟨b1, -⟩ := F64.ilog2_spec (ne_of_gt hb)
    rw [abs_of_pos hpos] at a2
    rw [abs_of_pos hb] at b1
    have h2ne : (2 : ℚ) ≠ 0 := by norm_num
    -- the value `2 ^ ilog2 b` separates the two roundings
    have low : (2 : ℚ) ^ F64.ilog2 b ≤ F64.nearest b := by
      unfold F64.nearest
      have e1 : ((((2 : ℤ) ^ 52 : ℤ)) : ℚ) ≤ b / 2 ^ F64.ulpExp b := by
        rw [le_div_iff₀ (F64.two_zpow_pos _), hEb]
        have : ((((2 : ℤ) ^ 52 : ℤ)) : ℚ) * (2 : ℚ) ^ (F64.ilog2 b - 52)
            = (2 : ℚ) ^ F64.ilog2 b := by
          have : ((((2 : ℤ) ^ 52 : ℤ)) : ℚ) = (2 : ℚ) ^ (52 : ℤ) := by norm_num
          rw [this, ← zpow_add₀ h2ne]
          congr 1
          ring
        rw [this]
        exact b1
      have e2 : (((2 : ℤ) ^ 52 : ℤ) : ℚ) ≤ (F64.rne (b / 2 ^ F64.ulpExp b) : ℚ) := by
        exact_mod_cast F64.le_rne e1
      calc (2 : ℚ) ^ F64.ilog2 b
          = (((2 : ℤ) ^ 52 : ℤ) : ℚ) * (2 : ℚ) ^ F64.ulpExp b := by
            have : ((((2 : ℤ) ^ 52 : ℤ)) : ℚ) = (2 : ℚ) ^ (52 : ℤ) := by norm_num
            rw [this, hEb, ← zpow_add₀ h2ne]
            congr 1
            ring
        _ ≤ _ := mul_le_mul_of_nonneg_right e2 (le_of_lt (F64.two_zpow_pos _))
    have up : F64.nearest a ≤ (2 : ℚ) ^ F64.ilog2 b := by
      unfold F64.nearest
      have hn : 0 ≤ F64.ilog2 b - F64.ulpExp a := by omega
      have e0 : (2 : ℚ) ^ (F64.ilog2 b - F64.ulpExp a) * (2 : ℚ) ^ F64.ulpExp a
          = (2 : ℚ) ^ F64.ilog2 b := by
        rw [← zpow_add₀ h2ne]
        congr 1
        ring
      have e1 : a / 2 ^ F64.ulpExp a
          ≤ ((((2 : ℤ) ^ (F64.ilog2 b - F64.ulpExp a).toNat : ℤ)) : ℚ) := by
        rw [← F64.two_zpow_natCast _ hn, div_le_iff₀ (F64.two_zpow_pos _), e0]
        have : (2 : ℚ) ^ (F64.ilog2 a + 1) ≤ (2 : ℚ) ^ F64.ilog2 b :=
          zpow_le_zpow_right₀ (by norm_num) (by omega)
        exact le_of_lt (lt_of_lt_of_le a2 this)
      have e2 : (F64.rne (a / 2 ^ F64.ulpExp a) : ℚ)
          ≤ ((((2 : ℤ) ^ (F64.ilog2 b - F64.ulpExp a).toNat : ℤ)) : ℚ) := by
        exact_mod_cast F64.rne_le e1
      calc (F64.rne (a / 2 ^ F64.ulpExp a) : ℚ) * 2 ^ F64.ulpExp a
          ≤ ((((2 : ℤ) ^ (F64.ilog2 b - F64.ulpExp a).toNat : ℤ)) : ℚ)
              * 2 ^ F64.ulpExp a :=
            mul_le_mul_of_nonneg_right e2 (le_of_lt (F64.two_zpow_pos _))
        _ = (2 : ℚ) ^ F64.ilog2 b := by
            rw [← F64.two_zpow_natCast _ hn, e0]
    exact up.trans low

theorem F64.nearest_scaled {q : ℚ} (m e : ℤ) (hq : q = (m : ℚ) * (2 : ℚ) ^ e)
    (hm : |m| < 2 ^ 53) (he : -1074 ≤ e) : F64.nearest q = q := by
  by_cases h0 : q = 0
  · rw [h0, F64.nearest_zero]
  have h2ne : (2 : ℚ) ≠ 0 := by norm_num
  obtain ⟨s1, -⟩ := F64.ilog2_spec h0
  have habs : |q| < (2 : ℚ) ^ (53 + e) := by
    rw [hq, abs_mul, abs_of_pos (F64.two_zpow_pos e), zpow_add₀ h2ne]
    have : |(m : ℚ)| < (2 : ℚ) ^ (53 : ℤ) := by
      have : ((|m| : ℤ) : ℚ) < (((2 : ℤ) ^ 53 : ℤ) : ℚ) := by exact_mod_cast hm
      rw [Int.cast_abs] at this
      calc |(m : ℚ)| < (((2 : ℤ) ^ 53 : ℤ) : ℚ) := this
        _ = (2 : ℚ) ^ (53 : ℤ) := by norm_num
    exact mul_lt_mul_of_pos_right this (F64.two_zpow_pos e)
  have hk : F64.ilog2 q < 53 + e :=
    (zpow_lt_zpow_iff_right₀ (by norm_num : (1 : ℚ) < 2)).mp (lt_of_le_of_lt s1 habs)
  have hE : F64.ulpExp q ≤ e := max_le (by omega) he
  have hn : 0 ≤ e - F64.ulpExp q := by omega
  unfold F64.nearest
  have hdiv : q / 2 ^ F64.ulpExp q
      = ((m * (2 : ℤ) ^ (e - F64.ulpExp q).toNat : ℤ) : ℚ) := by
    rw [div_eq_iff (ne_of_gt (F64.two_zpow_pos _))]
    push_cast
    have := F64.two_zpow_natCast _ hn
    push_cast at this
    rw [← this, mul_assoc, ← zpow_add₀ h2ne, hq]
    congr 2
    ring
  rw [hdiv, F64.rne_intCast, ← hdiv]
  exact div_mul_cancel₀ _ (ne_of_gt (F64.two_zpow_pos _))

/-! ## float64: overflow -/

theorem F64.overflow_mono {a b : ℚ} (h : a ≤ b) : F64.overflow a ≤ F64.overflow b := by
  unfold F64.overflow
  show F64.ble _ _ = true
  have hneg : (-2 : ℚ) ^ 1024 = 2 ^ 1024 := by norm_num
  split_ifs with c1 c2 c3 c4 c5 c6 <;> simp only [F64.ble, decide_eq_true_eq] <;>
    first
    | rfl
    | exact h
    | (exfalso; linarith [show (0 : ℚ) < 2 ^ 1024 by positivity])

theorem F64.overflow_fin {r : ℚ} (h : |r| < 2 ^ 1024) : F64.overflow r = F64.fin r := by
  unfold F64.overflow
  obtain ⟨h1, h2⟩ := abs_lt.mp h
  rw [if_neg (not_le.mpr h2), if_neg (not_le.mpr h1)]

theorem F64.round_mono {a b : ℚ} (ha : 0 ≤ a) (h : a ≤ b) : F64.round a ≤ F64.round b :=
  F64.overflow_mono (F64.nearest_mono ha h)

theorem F64.round_scaled {q : ℚ} (m e : ℤ) (hq : q = (m : ℚ) * (2 : ℚ) ^ e)
    (hm : |m| < 2 ^ 53) (he : -1074 ≤ e) (hlt : |q| < 2 ^ 1024) :
    F64.round q = F64.fin q := by
  unfold F64.round
  rw [F64.nearest_scaled m e hq hm he, F64.overflow_fin hlt]

theorem F64.round_int (n : ℤ) (h : |n| < 2 ^ 53) : F64.round (n : ℚ) = F64.fin (n : ℚ) := by
  apply F64.round_scaled n 0 (by simp) h (by norm_num)
  have : ((|n| : ℤ) : ℚ) < (((2 : ℤ) ^ 53 : ℤ) : ℚ) := by exact_mod_cast h
  rw [Int.cast_abs] at this
  calc |(n : ℚ)| < (((2 : ℤ) ^ 53 : ℤ) : ℚ) := this
    _ ≤ 2 ^ 1024 := by norm_num

theorem F64.round_nonneg {q : ℚ} (h : 0 ≤ q) : (0 : F64) ≤ F64.round q := by
  have := F64.round_mono le_rfl h
  have h0 : F64.round 0 = F64.fin 0 := by
    unfold F64.round
    rw [F64.nearest_zero, F64.overflow_fin (by norm_num)]
  rw [h0] at this
  rw [F64.zero_eq]
  exact this

/-! ## float64: arithmetic on finite values -/

theorem F64.fin_add_fin (a b : ℚ) : F64.fin a + F64.fin b = F64.round (a + b) := rfl

theorem F64.fin_sub_fin (a b : ℚ) : F64.fin a - F64.fin b = F64.round (a - b) := by
  show F64.round (a + -b) = F64.round (a - b)
  rw [sub_eq_add_neg]

theorem F64.fin_mul_fin (a b : ℚ) : F64.fin a * F64.fin b = F64.round (a * b) := rfl

theorem F64.isFloat_int (n : ℤ) (h : |n| < 2 ^ 53) : F64.isFloat (n : ℚ) :=
  F64.round_int n h

/-- A numeral below `2^53` is a value of the format. -/
theorem F64.round_ofNat (n : Nat) (h : n < 2 ^ 53) :
    F64.round (n : ℚ) = (OfNat.ofNat n : F64) := by
  rw [F64.ofNat_eq]
  have := F64.round_int (n : ℤ) (by rw [abs_lt]; constructor <;> omega)
  exact_mod_cast this

/-- A budget that covers a price stays non-negative when the price is deducted. -/
theorem F64.sub_fin_nonneg {B : F64} {p : ℚ} (h : F64.fin p ≤ B) : 0 ≤ B - F64.fin p := by
  cases B with
  | fin b =>
    rw [F64.fin_sub_fin]
    exact F64.round_nonneg (sub_nonneg.mpr (F64.fin_le_fin.mp h))
  | posInf => exact F64.fin_le_posInf _
  | negInf => exact absurd h Bool.false_ne_true
  | nan => exact absurd h Bool.false_ne_true

/-- A non-negative budget stays non-negative when a non-negative price is added. -/
theorem F64.add_fin_nonneg {S : F64} {p : ℚ} (hS : 0 ≤ S) (hp : 0 ≤ p) :
    0 ≤ S + F64.fin p := by
  cases S with
  | fin c =>
    rw [F64.fin_add_fin]
    rw [F64.zero_eq] at hS
    exact F64.round_nonneg (add_nonneg (F64.fin_le_fin.mp hS) hp)
  | posInf => exact F64.fin_le_posInf _
  | negInf => exact absurd hS Bool.false_ne_true
  | nan => exact absurd hS Bool.false_ne_true

/-! ## float64: the values of the format -/

theorem F64.overflow_eq_fin {r q : ℚ} (h : F64.overflow r = F64.fin q) : r = q := by
  unfold F64.overflow at h
  split_ifs at h
  injection h

theorem F64.nearest_of_isFloat {q : ℚ} (h : F64.isFloat q) : F64.nearest q = q :=
  F64.overflow_eq_fin h

/-- A value of the format between two finite values is finite. -/
theorem F64.squeeze {X : F64} {a b : ℚ} (h1 : F64.fin a ≤ X) (h2 : X ≤ F64.fin b) :
    ∃ y, X = F64.fin y ∧ a ≤ y ∧ y ≤ b := by
  cases X with
  | fin y => exact ⟨y, rfl, F64.fin_le_fin.mp h1, F64.fin_le_fin.mp h2⟩
  | posInf => exact absurd h2 Bool.false_ne_true
  | negInf => exact absurd h1 Bool.false_ne_true
  | nan => exact absurd h1 Bool.false_ne_true

/-- The largest value of the format below 1 is `1 - 2^-53`. -/
theorem F64.isFloat_lt_one {r : ℚ} (hf : F64.isFloat r) (h1 : r < 1) :
    r ≤ 1 - 1 / 2 ^ 53 := by
  by_cases hhalf : r < 1 / 2
  · have : (1 : ℚ) / 2 ≤ 1 - 1 / 2 ^ 53 := by norm_num
    linarith
  push_neg at hhalf
  have hpos : 0 < r := by linarith
  have hk : F64.ilog2 r = -1 := by
    apply F64.ilog2_eq
    · rw [abs_of_pos hpos]
      have : (2 : ℚ) ^ (-1 : ℤ) = 1 / 2 := by norm_num
      rw [this]; exact hhalf
    · rw [abs_of_pos hpos]
      have : (2 : ℚ) ^ ((-1 : ℤ) + 1) = 1 := by norm_num
      rw [this]; exact h1
  have hE : F64.ulpExp r = -53 := by
    unfold F64.ulpExp
    rw [hk]
    norm_num
  have hn := F64.nearest_of_isFloat hf
  unfold F64.nearest at hn
  rw [hE] at hn
  set m := F64.rne (r / 2 ^ (-53 : ℤ)) with hm
  have h53 : (2 : ℚ) ^ (-53 : ℤ) = 1 / 2 ^ 53 := by norm_num
  rw [h53] at hn
  have hmlt : (m : ℚ) < (((2 : ℤ) ^ 53 : ℤ) : ℚ) := by
    have : (m : ℚ) * (1 / 2 ^ 53) < 1 := by rw [hn]; exact h1
    have h2 : (0 : ℚ) < 2 ^ 53 := by positivity
    push_cast
    calc (m : ℚ) = (m : ℚ) * (1 / 2 ^ 53) * 2 ^ 53 := by field_simp
      _ < 1 * 2 ^ 53 := mul_lt_mul_of_pos_right this h2
      _ = 2 ^ 53 := one_mul _
  have hmle : m ≤ 2 ^ 53 - 1 := by
    have : m < 2 ^ 53 := by exact_mod_cast hmlt
    omega
  have hmle' : (m : ℚ) ≤ 2 ^ 53 - 1 := by exact_mod_cast hmle
  rw [← hn]
  have h2 : (0 : ℚ) < 1 / 2 ^ 53 := by positivity
  calc (m : ℚ) * (1 / 2 ^ 53) ≤ (2 ^ 53 - 1) * (1 / 2 ^ 53) :=
        mul_le_mul_of_nonneg_right hmle' (le_of_lt h2)
    _ = 1 - 1 / 2 ^ 53 := by field_simp

theorem F64.fin_lt_overflow {a b : ℚ} (hb : 0 < b) (h : a < b) :
    F64.fin a < F64.overflow b := by
  unfold F64.overflow
  split_ifs with c1 c2
  · exact F64.fin_lt_posInf a
  · exfalso
    have : (0 : ℚ) < 2 ^ 1024 := by positivity
    linarith
  · exact F64.fin_lt_fin.mpr h

/-- Above a positive normal value `v` of the format, the next value of the format is at most
`v * (1 + 2^-52)`: every exact result from there on rounds to more than `v`. -/
theorem F64.round_gt_of_normal {v x : ℚ} (hf : F64.isFloat v)
    (hn : 1 / 2 ^ 1022 ≤ v) (hx : v * (1 + 1 / 2 ^ 52) ≤ x) :
    F64.fin v < F64.round x := by
  have h2ne : (2 : ℚ) ≠ 0 := by norm_num
  have hpos : 0 < v := lt_of_lt_of_le (by positivity) hn
  obtain ⟨s1, s2⟩ := F64.ilog2_spec (ne_of_gt hpos)
  rw [abs_of_pos hpos] at s1 s2
  have hk : -1022 ≤ F64.ilog2 v := by
    have e : (2 : ℚ) ^ (-1022 : ℤ) = 1 / 2 ^ 1022 := by norm_num
    have : (2 : ℚ) ^ (-1022 : ℤ) < (2 : ℚ) ^ (F64.ilog2 v + 1) := by
      rw [e]; exact lt_of_le_of_lt hn s2
    have := (zpow_lt_zpow_iff_right₀ (by norm_num : (1 : ℚ) < 2)).mp this
    omega
  have hE : F64.ulpExp v = F64.ilog2 v - 52 := by
    unfold F64.ulpExp
    exact max_eq_left (by omega)
  have hnear := F64.nearest_of_isFloat hf
  unfold F64.nearest at hnear
  rw [hE] at hnear
  set E := F64.ilog2 v - 52 with hEdef
  set m := F64.rne (v / 2 ^ E) with hm
  have hEpos := F64.two_zpow_pos E
  have e52 : (2 : ℚ) ^ F64.ilog2 v = 2 ^ 52 * (2 : ℚ) ^ E := by
    have : (2 : ℚ) ^ (52 : ℤ) = 2 ^ 52 := by norm_num
    rw [← this, ← zpow_add₀ h2ne]
    congr 1
    omega
  have e53 : (2 : ℚ) ^ (F64.ilog2 v + 1) = 2 ^ 53 * (2 : ℚ) ^ E := by
    have : (2 : ℚ) ^ (53 : ℤ) = 2 ^ 53 := by norm_num
    rw [← this, ← zpow_add₀ h2ne]
    congr 1
    omega
  have hmlt : (m : ℚ) < 2 ^ 53 := by
    have : (m : ℚ) * (2 : ℚ) ^ E < 2 ^ 53 * (2 : ℚ) ^ E := by
      rw [hnear, ← e53]; exact s2
    exact lt_of_mul_lt_mul_right this (le_of_lt hEpos)
  have hmge : (2 : ℚ) ^ 52 ≤ (m : ℚ) := by
    have : 2 ^ 52 * (2 : ℚ) ^ E ≤ (m : ℚ) * (2 : ℚ) ^ E := by
      rw [hnear, ← e52]; exact s1
    exact le_of_mul_le_mul_right this hEpos
  have hmlt' : m < 2 ^ 53 := by exact_mod_cast hmlt
  have hmge' : (2 : ℤ) ^ 52 ≤ m := by exact_mod_cast hmge
  -- the next value of the format
  have hnext : F64.nearest (((m + 1 : ℤ) : ℚ) * (2 : ℚ) ^ E)
      = ((m + 1 : ℤ) : ℚ) * (2 : ℚ) ^ E := by
    by_cases htop : m + 1 < 2 ^ 53
    · exact F64.nearest_scaled (m + 1) E rfl (by rw [abs_lt]; constructor <;> omega)
        (by omega)
    · have hm1 : m + 1 = 2 ^ 53 := by omega
      apply F64.nearest_scaled 1 (E + 53) _ (by norm_num) (by omega)
      rw [hm1, zpow_add₀ h2ne]
      push_cast
      have : (2 : ℚ) ^ (53 : ℤ) = 2 ^ 53 := by norm_num
      rw [this]
      ring
  have hv' : v < ((m + 1 : ℤ) : ℚ) * (2 : ℚ) ^ E := by
    push_cast
    rw [add_mul, hnear]
    linarith
  have hle : ((m + 1 : ℤ) : ℚ) * (2 : ℚ) ^ E ≤ x := by
    refine le_trans ?_ hx
    push_cast
    rw [add_mul, hnear, one_mul, mul_add, mul_one]
    have : (2 : ℚ) ^ E ≤ v * (1 / 2 ^ 52) := by
      have h1 : 2 ^ 52 * (2 : ℚ) ^ E ≤ v := by rw [← e52]; exact s1
      have h2 : (0 : ℚ) < 2 ^ 52 := by positivity
      calc (2 : ℚ) ^ E = (2 ^ 52 * (2 : ℚ) ^ E) * (1 / 2 ^ 52) := by field_simp
        _ ≤ v * (1 / 2 ^ 52) := mul_le_mul_of_nonneg_right h1 (by positivity)
    linarith
  have hmono := F64.round_mono (le_of_lt (lt_trans hpos hv')) hle
  have hround : F64.round (((m + 1 : ℤ) : ℚ) * (2 : ℚ) ^ E)
      = F64.overflow (((m + 1 : ℤ) : ℚ) * (2 : ℚ) ^ E) := by
    unfold F64.round
    rw [hnext]
  rw [hround] at hmono
  exact F64.lt_le_trans (F64.fin_lt_overflow (lt_trans hpos hv') hv') hmono

/-- The factor `1 + increasePercent` of `UpdateMarketValue`, for a draw `r` of the format in
[0,1), fused or not: a finite value between the `float64` nearest to `1.10` and `2`, both
included. -/
theorem F64.factor_bounds (fused : Bool) {r : ℚ} (hf : F64.isFloat r) (h0 : 0 ≤ r)
    (h1 : r < 1) :
    ∃ y, (1 : F64) + increasePercent fused r = F64.fin y ∧
      F64.ofDecimal (11 / 10) = F64.fin (2476979795053773 / 2251799813685248) ∧
      2476979795053773 / 2251799813685248 ≤ y ∧ y ≤ 2 := by
  have hmax := F64.isFloat_lt_one hf h1
  have d10 : F64.ofDecimal (10 / 100) = F64.fin (3602879701896397 / 36028797018963968) := by
    decide!
  have d90 : F64.ofDecimal (90 / 100) = F64.fin (8106479329266893 / 9007199254740992) := by
    decide!
  have d11 : F64.ofDecimal (11 / 10) = F64.fin (2476979795053773 / 2251799813685248) := by
    decide!
  have one : (1 : F64) = F64.fin 1 := by rw [F64.ofNat_eq]; norm_num
  -- in both cases `increasePercent` is finite, between 0.10 and 1 - 2^-53
  have hip : ∃ y2, increasePercent fused r = F64.fin y2 ∧
      3602879701896397 / 36028797018963968 ≤ y2 ∧
      y2 ≤ 9007199254740991 / 9007199254740992 := by
    have hp0 : (0 : ℚ) ≤ r * (8106479329266893 / 9007199254740992) :=
      mul_nonneg h0 (by norm_num)
    have hp1 : r * (8106479329266893 / 9007199254740992)
        ≤ (1 - 1 / 2 ^ 53) * (8106479329266893 / 9007199254740992) :=
      mul_le_mul_of_nonneg_right hmax (by norm_num)
    have q0 : F64.round (3602879701896397 / 36028797018963968 + 0)
        = F64.fin (3602879701896397 / 36028797018963968) := by decide!
    cases fused with
    | true =>
      have e : increasePercent true r
          = F64.round (r * (8106479329266893 / 9007199254740992)
              + 3602879701896397 / 36028797018963968) := by
        simp only [increasePercent, if_true, d10, d90]
        rfl
      have q1 : F64.round ((1 - 1 / 2 ^ 53) * (8106479329266893 / 9007199254740992)
            + 3602879701896397 / 36028797018963968)
          = F64.fin (9007199254740991 / 9007199254740992) := by decide!
      rw [e]
      have lo : F64.fin (3602879701896397 / 36028797018963968)
          ≤ F64.round (r * (8106479329266893 / 9007199254740992)
              + 3602879701896397 / 36028797018963968) := by
        rw [← q0]; exact F64.round_mono (by norm_num) (by linarith)
      have hi : F64.round (r * (8106479329266893 / 9007199254740992)
              + 3602879701896397 / 36028797018963968)
          ≤ F64.fin (9007199254740991 / 9007199254740992) := by
        rw [← q1]; exact F64.round_mono (by linarith) (by linarith)
      exact F64.squeeze lo hi
    | false =>
      have e : increasePercent false r
          = F64.fin (3602879701896397 / 36028797018963968)
            + F64.round (r * (8106479329266893 / 9007199254740992)) := by
        simp only [increasePercent, Bool.false_eq_true, if_false, d10, d90]
        rfl
      rw [e]
      have p0 : F64.round 0 = F64.fin 0 := by decide!
      have p1 : F64.round ((1 - 1 / 2 ^ 53) * (8106479329266893 / 9007199254740992))
          = F64.fin (2026619832316723 / 2251799813685248) := by decide!
      have lo1 : F64.fin 0 ≤ F64.round (r * (8106479329266893 / 9007199254740992)) := by
        rw [← p0]; exact F64.round_mono le_rfl hp0
      have hi1 : F64.round (r * (8106479329266893 / 9007199254740992))
          ≤ F64.fin (2026619832316723 / 2251799813685248) := by
        rw [← p1]; exact F64.round_mono hp0 hp1
      obtain ⟨y1, e1, l1, u1⟩ := F64.squeeze lo1 hi1
      rw [e1, F64.fin_add_fin]
      have q1 : F64.round (3602879701896397 / 36028797018963968
            + 2026619832316723 / 2251799813685248)
          = F64.fin (9007199254740991 / 9007199254740992) := by decide!
      have lo2 : F64.fin (3602879701896397 / 36028797018963968)
          ≤ F64.round (3602879701896397 / 36028797018963968 + y1) := by
        rw [← q0]; exact F64.round_mono (by norm_num) (by linarith)
      have hi2 : F64.round (3602879701896397 / 36028797018963968 + y1)
          ≤ F64.fin (9007199254740991 / 9007199254740992) := by
        rw [← q1]; exact F64.round_mono (by linarith) (by linarith)
      exact F64.squeeze lo2 hi2
  obtain ⟨y2, e2, l2, u2⟩ := hip
  rw [e2, one, F64.fin_add_fin]
  -- the sum with 1
  have s0 : F64.round (1 + 3602879701896397 / 36028797018963968)
      = F64.fin (2476979795053773 / 2251799813685248) := by decide!
  have s1 : F64.round (1 + 9007199254740991 / 9007199254740992) = F64.fin 2 := by decide!
  have lo3 : F64.fin (2476979795053773 / 2251799813685248) ≤ F64.round (1 + y2) := by
    rw [← s0]; exact F64.round_mono (by norm_num) (by linarith)
  have hi3 : F64.round (1 + y2) ≤ F64.fin 2 := by
    rw [← s1]; exact F64.round_mono (by linarith) (by linarith)
  obtain ⟨y3, e3, l3, u3⟩ := F64.squeeze lo3 hi3
  exact ⟨y3, e3, d11, l3, u3⟩

/-- The raised value `v * (1 + increasePercent)`, for a finite `v ≥ 0` and a draw `r` of the
format in [0,1), lies between the `float64` products `v * 1.10` and `2 * v`. -/
theorem F64.raise_bounds (fused : Bool) {v r : ℚ} (hf : F64.isFloat r) (h0 : 0 ≤ r) (h1 : r < 1)
    (hv : 0 ≤ v) :
    F64.fin v * F64.ofDecimal (11 / 10)
      ≤ F64.fin v * (1 + increasePercent fused r) ∧
    F64.fin v * (1 + increasePercent fused r)
      ≤ 2 * F64.fin v := by
  obtain ⟨y, e, d11, l, u⟩ := F64.factor_bounds fused hf h0 h1
  have two : (2 : F64) = F64.fin 2 := by rw [F64.ofNat_eq]; norm_num
  rw [e, d11, two, F64.fin_mul_fin, F64.fin_mul_fin, F64.fin_mul_fin]
  constructor
  · exact F64.round_mono (mul_nonneg hv (by norm_num)) (mul_le_mul_of_nonneg_left l hv)
  · exact F64.round_mono (mul_nonneg hv (by linarith)) (by nlinarith)

/-- A positive normal value of the format is raised to a strictly greater value. -/
theorem F64.raise_gt (fused : Bool) {v r : ℚ} (hf : F64.isFloat r) (h0 : 0 ≤ r) (h1 : r < 1)
    (hv : F64.isFloat v) (hn : 1 / 2 ^ 1022 ≤ v) :
    F64.fin v
      < F64.fin v * (1 + increasePercent fused r) := by
  obtain ⟨y, e, -, l, -⟩ := F64.factor_bounds fused hf h0 h1
  rw [e, F64.fin_mul_fin]
  have hpos : 0 < v := lt_of_lt_of_le (by positivity) hn
  apply F64.round_gt_of_normal hv hn
  have : (1 : ℚ) + 1 / 2 ^ 52 ≤ y := le_trans (by norm_num) l
  exact mul_le_mul_of_nonneg_left this (le_of_lt hpos)

/-- No value of the format that is not negative is raised to a smaller one; an infinite value
stays infinite. -/
theorem F64.raise_ge (fused : Bool) {X : F64} {r : ℚ} (hf : F64.isFloat r) (h0 : 0 ≤ r) (h1 : r < 1)
    (hX : 0 ≤ X) (hfX : ∀ x, X = F64.fin x → F64.isFloat x) :
    X ≤ X * (1 + increasePercent fused r) := by
  obtain ⟨y, e, -, l, -⟩ := F64.factor_bounds fused hf h0 h1
  rw [e]
  cases X with
  | fin x =>
    rw [F64.zero_eq] at hX
    have hx : 0 ≤ x := F64.fin_le_fin.mp hX
    have hfx : F64.round x = F64.fin x := hfX x rfl
    rw [F64.fin_mul_fin]
    conv_lhs => rw [← hfx]
    exact F64.round_mono hx (by nlinarith)
  | posInf =>
    have hy : 0 < y := lt_of_lt_of_le (by norm_num) l
    show F64.posInf ≤ F64.infTimes true y
    unfold F64.infTimes
    rw [if_neg (ne_of_gt hy)]
    simp [hy, F64.posInf_le_posInf]
  | negInf => exact absurd hX Bool.false_ne_true
  | nan => exact absurd hX Bool.false_ne_true

theorem callRepo_ok {α : Type} {fault : Option Nat} {r : Except Err α} {a : α}
    (h : callRepo fault r = Except.ok a) : fault = none ∧ r = Except.ok a := by
  cases fault with
  | none => exact ⟨rfl, h⟩
  | some c => simp [callRepo] at h

theorem callRepo_none {α : Type} (r : Except Err α) : callRepo none r = r := rfl

theorem execRepo_none (s s' : Store) : execRepo none s s' = (s', Except.ok ()) := rfl

theorem execRepo_some (c : Nat) (s s' : Store) :
    execRepo (some c) s s' = (s, Except.error (infra c)) := rfl

/-- Inversion of the checks: what holds of the store when they all pass. -/
theorem buyPlayerChecks_ok {f : BuyFaults} {s : Store} {userID listingID : UUID}
    {v : BuyLocals} (h : buyPlayerChecks f s userID listingID = Except.ok v) :
    teamRepo.GetByUserID s userID = Except.ok v.buyerTeam ∧
    transferRepo.GetListingByID s listingID = Except.ok v.listing ∧
    v.listing.Status = TransferStatusActive ∧
    playerRepo.GetByID s v.listing.PlayerID = Except.ok v.player ∧
    v.player.TeamID = some v.sellerTeam.ID ∧
    v.sellerTeam.ID ≠ v.buyerTeam.ID ∧
    F64.fin v.listing.AskingPrice ≤ v.buyerTeam.Budget ∧
    teamRepo.GetPlayerCount s v.buyerTeam.ID < MaxPlayers ∧
    teamRepo.GetByID s v.sellerTeam.ID = Except.ok v.sellerTeam := by
  unfold buyPlayerChecks at h
  split at h
  · exact absurd h (by simp)
  · next buyerTeam hb =>
    split at h
    · exact absurd h (by simp)
    · next listing hl =>
      split at h
      · exact absurd h (by simp)
      · next hact =>
        split at h
        · exact absurd h (by simp)
        · next player hp =>
          split at h
          · exact absurd h (by simp)
          · next hown =>
            split at h
            · exact absurd h (by simp)
            · next haff =>
              split at h
              · exact absurd h (by simp)
              · next playerCount hc =>
                split at h
                · exact absurd h (by simp)
                · next hfull =>
                  split at h
                  · exact absurd h (by simp)
                  · next sellerID hsid =>
                    split at h
                    · exact absurd h (by simp)
                    · next sellerTeam hs =>
                      injection h with h
                      subst h
                      have hb2 := (callRepo_ok hb).2
                      have hl2 := (callRepo_ok hl).2
                      have hp2 := (callRepo_ok hp).2
                      have hc2 := (callRepo_ok hc).2
                      have hs2 := (callRepo_ok hs).2
                      have hsid2 : sellerTeam.ID = sellerID := by
                        unfold teamRepo.GetByID at hs2
                        split at hs2
                        · next t ht =>
                          have := List.find?_some ht
                          simp at hs2
                          subst hs2
                          simpa using this
                        · simp at hs2
                      simp only [Except.ok.injEq] at hc2
                      subst hc2
                      refine ⟨hb2, hl2, ?_, hp2, ?_, ?_, ?_, ?_, ?_⟩
                      · simpa [TransferListing.IsActive] using hact
                      · simp [hsid, hsid2]
                      · simp [Player.IsOwnedBy, hsid] at hown
                        rw [hsid2]; exact hown
                      · simpa [Team.CanAfford] using haff
                      · simpa using hfull
                      · rw [hsid2]; exact hs2

theorem buyPlayerWrites_none (env : BuyEnv) (f : BuyFaults) (s : Store) (v : BuyLocals)
    (h1 : f.updatePlayer = none) (h2 : f.updateBuyer = none) (h3 : f.updateSeller = none)
    (h4 : f.updateListing = none) (h5 : f.createTransfer = none) :
    buyPlayerWrites env f s v = (soldStore env s v, Except.ok (soldTransfer env v)) := by
  simp [buyPlayerWrites, h1, h2, h3, h4, h5, execRepo_none, soldStore, soldTransfer, soldPlayer,
    Player.Transfer, Player.UpdateMarketValue, Team.AddBudget, Team.DeductBudget,
    TransferListing.MarkAsSold]

/-- Inversion of the writes: a returned transfer means that no write failed. -/
theorem buyPlayerWrites_ok {env : BuyEnv} {f : BuyFaults} {s : Store} {v : BuyLocals}
    {t : Transfer} (h : (buyPlayerWrites env f s v).2 = Except.ok t) :
    (f.updatePlayer = none ∧ f.updateBuyer = none ∧ f.updateSeller = none ∧
      f.updateListing = none ∧ f.createTransfer = none) ∧
    (buyPlayerWrites env f s v).1 = soldStore env s v ∧ t = soldTransfer env v := by
  rcases f with ⟨a1, a2, a3, a4, a5, w1, w2, w3, w4, w5⟩
  cases w1 with
  | some c => simp [buyPlayerWrites, execRepo] at h
  | none =>
  cases w2 with
  | some c => simp [buyPlayerWrites, execRepo] at h
  | none =>
  cases w3 with
  | some c => simp [buyPlayerWrites, execRepo] at h
  | none =>
  cases w4 with
  | some c => simp [buyPlayerWrites, execRepo] at h
  | none =>
  cases w5 with
  | some c => simp [buyPlayerWrites, execRepo] at h
  | none =>
    have hw := buyPlayerWrites_none env ⟨a1, a2, a3, a4, a5, none, none, none, none, none⟩ s v
      rfl rfl rfl rfl rfl
    rw [hw] at h
    rw [hw]
    simp only [Except.ok.injEq] at h
    exact ⟨⟨rfl, rfl, rfl, rfl, rfl⟩, rfl, h.symm⟩

/-- Inversion of `BuyPlayer`: a returned transfer means that the checks passed with some
locals and that the store is the one with all five writes applied. -/
theorem BuyPlayer_ok {env : BuyEnv} {f : BuyFaults} {s : Store} {userID listingID : UUID}
    {t : Transfer} (h : (BuyPlayer env f s userID listingID).2 = Except.ok t) :
    ∃ v, buyPlayerChecks f s userID listingID = Except.ok v ∧
      (BuyPlayer env f s userID listingID).1 = soldStore env s v ∧ t = soldTransfer env v := by
  unfold BuyPlayer at h ⊢
  cases hc : buyPlayerChecks f s userID listingID with
  | error e => rw [hc] at h; simp at h
  | ok v =>
    rw [hc] at h
    simp only at h ⊢
    exact ⟨v, rfl, (buyPlayerWrites_ok h).2⟩

theorem BuyPlayer_of_checks_error {env : BuyEnv} {f : BuyFaults} {s : Store}
    {userID listingID : UUID} {e : Err}
    (h : buyPlayerChecks f s userID listingID = Except.error e) :
    BuyPlayer env f s userID listingID = (s, Except.error e) := by
  simp [BuyPlayer, h]

theorem BuyPlayer_of_checks_ok {env : BuyEnv} {f : BuyFaults} {s : Store}
    {userID listingID : UUID} {v : BuyLocals}
    (h : buyPlayerChecks f s userID listingID = Except.ok v) :
    BuyPlayer env f s userID listingID = buyPlayerWrites env f s v := by
  simp [BuyPlayer, h]

/-! ## Row updates on a table -/

theorem find?_map_of_key {α : Type} (l : List α) (g : α → α) (p : α → Bool)
    (hg : ∀ a, p (g a) = p a) : (l.map g).find? p = (l.find? p).map g := by
  induction l with
  | nil => rfl
  | cons x xs ih =>
    simp only [List.map_cons, List.find?_cons, hg]
    cases p x <;> simp [ih]

theorem teamRepo_Update_find (s : Store) (team : Team) (id : UUID) :
    (teamRepo.Update s team).teams.find? (fun t => t.ID == id) =
      (s.teams.find? (fun t => t.ID == id)).map (fun row =>
        if row.ID == team.ID then
          { row with Name := team.Name, Country := team.Country, Budget := team.Budget,
                     UpdatedAt := team.UpdatedAt }
        else row) := by
  unfold teamRepo.Update
  apply find?_map_of_key
  intro a
  split <;> rfl

theorem budgetOf_Update_same (s : Store) (team : Team) (id : UUID) (h : id = team.ID)
    (hex : (budgetOf s id).isSome) : budgetOf (teamRepo.Update s team) id = some team.Budget := by
  unfold budgetOf at hex ⊢
  rw [teamRepo_Update_find]
  cases hf : s.teams.find? (fun t => t.ID == id) with
  | none => simp [hf] at hex
  | some row =>
    have := List.find?_some hf
    simp only [beq_iff_eq] at this
    simp [this, h]

theorem budgetOf_Update_other (s : Store) (team : Team) (id : UUID) (h : id ≠ team.ID) :
    budgetOf (teamRepo.Update s team) id = budgetOf s id := by
  unfold budgetOf
  rw [teamRepo_Update_find]
  cases hf : s.teams.find? (fun t => t.ID == id) with
  | none => rfl
  | some row =>
    have := List.find?_some hf
    simp only [beq_iff_eq] at this
    simp [this, h]

theorem mem_of_GetByUserID {s : Store} {userID : UUID} {T : Team}
    (h : teamRepo.GetByUserID s userID = Except.ok T) : T ∈ s.teams ∧ T.UserID = userID := by
  unfold teamRepo.GetByUserID at h
  split at h
  · next t ht =>
    injection h with h
    subst h
    have := List.find?_some ht
    simp only [beq_iff_eq] at this
    exact ⟨List.mem_of_find?_eq_some ht, this⟩
  · simp at h

theorem mem_of_GetByID {s : Store} {id : UUID} {T : Team}
    (h : teamRepo.GetByID s id = Except.ok T) : T ∈ s.teams ∧ T.ID = id := by
  unfold teamRepo.GetByID at h
  split at h
  · next t ht =>
    injection h with h
    subst h
    have := List.find?_some ht
    simp only [beq_iff_eq] at this
    exact ⟨List.mem_of_find?_eq_some ht, this⟩
  · simp at h

/-- With unique team ids, the row found under an id is the only row carrying it. -/
theorem budgetOf_of_mem {s : Store} (hkey : (s.teams.map Team.ID).Nodup) {T : Team}
    (hT : T ∈ s.teams) : budgetOf s T.ID = some T.Budget := by
  unfold budgetOf
  generalize s.teams = l at hkey hT
  induction l with
  | nil => simp at hT
  | cons x xs ih =>
    simp only [List.map_cons, List.nodup_cons] at hkey
    rcases List.mem_cons.mp hT with h | h
    · subst h; simp
    · have hne : x.ID ≠ T.ID := by
        intro he
        exact hkey.1 (he ▸ List.mem_map_of_mem Team.ID h)
      simp [List.find?_cons, hne, ih hkey.2 h]

/-- With unique team ids, rewriting the row of `R` changes the total by the change of its
budget. -/
theorem totalBudget_Update {s : Store} (hkey : (s.teams.map Team.ID).Nodup) {R : Team}
    (hR : R ∈ s.teams) (team : Team) (hid : team.ID = R.ID) :
    totalBudget (teamRepo.Update s team)
      = totalBudget s - R.Budget.toRat + team.Budget.toRat := by
  unfold totalBudget teamRepo.Update
  simp only
  generalize s.teams = l at hkey hR
  induction l with
  | nil => simp at hR
  | cons x xs ih =>
    simp only [List.map_cons, List.nodup_cons] at hkey
    rcases List.mem_cons.mp hR with h | h
    · subst h
      have hrest : xs.map (fun row => if row.ID == team.ID then
          { row with Name := team.Name, Country := team.Country, Budget := team.Budget,
                     UpdatedAt := team.UpdatedAt } else row) = xs := by
        conv_rhs => rw [← List.map_id xs]
        apply List.map_congr_left
        intro a ha
        have : a.ID ≠ team.ID := by
          intro he
          exact hkey.1 ((hid ▸ he) ▸ List.mem_map_of_mem Team.ID ha)
        simp [this]
      rw [List.map_cons, hrest]
      simp only [List.map_cons, List.sum_cons, ← hid, beq_self_eq_true, if_true]
      ring
    · have hne : x.ID ≠ team.ID := by
        intro he
        exact hkey.1 ((hid ▸ he) ▸ List.mem_map_of_mem Team.ID h)
      simp only [List.map_cons, List.sum_cons]
      rw [ih hkey.2 h]
      simp [hne]
      ring

theorem teamRepo_Update_ids (s : Store) (team : Team) :
    (teamRepo.Update s team).teams.map Team.ID = s.teams.map Team.ID := by
  unfold teamRepo.Update
  simp only [List.map_map]
  apply List.map_congr_left
  intro a _
  simp only [Function.comp]
  split <;> rfl

theorem mem_teamRepo_Update_of_ne {s : Store} {team T : Team} (hT : T ∈ s.teams)
    (hne : T.ID ≠ team.ID) : T ∈ (teamRepo.Update s team).teams := by
  unfold teamRepo.Update
  simp only [List.mem_map]
  exact ⟨T, hT, by simp [hne]⟩

theorem team_eq_of_ID_eq {s : Store} (hkey : (s.teams.map Team.ID).Nodup) {a b : Team}
    (ha : a ∈ s.teams) (hb : b ∈ s.teams) (h : a.ID = b.ID) : a = b :=
  List.inj_on_of_nodup_map hkey ha hb h

theorem soldStore_teams (env : BuyEnv) (s : Store) (v : BuyLocals) :
    (soldStore env s v).teams =
      (teamRepo.Update (teamRepo.Update s (v.buyerTeam.DeductBudget v.listing.AskingPrice env.now))
        (v.sellerTeam.AddBudget v.listing.AskingPrice env.now)).teams := rfl

theorem soldStore_players (env : BuyEnv) (s : Store) (v : BuyLocals) :
    (soldStore env s v).players = (playerRepo.Update s (soldPlayer env v)).players := rfl

theorem soldStore_listings (env : BuyEnv) (s : Store) (v : BuyLocals) :
    (soldStore env s v).listings = (transferRepo.UpdateListing s v.listing.MarkAsSold).listings :=
  rfl

theorem soldStore_transfers (env : BuyEnv) (s : Store) (v : BuyLocals) :
    (soldStore env s v).transfers = s.transfers ++ [soldTransfer env v] := rfl

theorem soldStore_users (env : BuyEnv) (s : Store) (v : BuyLocals) :
    (soldStore env s v).users = s.users := rfl

theorem budgetOf_congr {s s' : Store} (h : s'.teams = s.teams) (id : UUID) :
    budgetOf s' id = budgetOf s id := by
  unfold budgetOf; rw [h]

theorem totalBudget_congr {s s' : Store} (h : s'.teams = s.teams) :
    totalBudget s' = totalBudget s := by
  unfold totalBudget; rw [h]

/-- Budgets after a sale, in terms of the locals the checks read. -/
theorem soldStore_budgets (env : BuyEnv) (s : Store) (v : BuyLocals)
    (hkey : (s.teams.map Team.ID).Nodup) (hB : v.buyerTeam ∈ s.teams)
    (hS : v.sellerTeam ∈ s.teams) (hne : v.sellerTeam.ID ≠ v.buyerTeam.ID) :
    budgetOf (soldStore env s v) v.buyerTeam.ID
      = some (v.buyerTeam.Budget - F64.fin v.listing.AskingPrice) ∧
    budgetOf (soldStore env s v) v.sellerTeam.ID
      = some (v.sellerTeam.Budget + F64.fin v.listing.AskingPrice) ∧
    (∀ id, id ≠ v.buyerTeam.ID → id ≠ v.sellerTeam.ID →
      budgetOf (soldStore env s v) id = budgetOf s id) ∧
    totalBudget (soldStore env s v)
      = totalBudget s
        - v.buyerTeam.Budget.toRat + (v.buyerTeam.Budget - F64.fin v.listing.AskingPrice).toRat
        - v.sellerTeam.Budget.toRat
        + (v.sellerTeam.Budget + F64.fin v.listing.AskingPrice).toRat := by
  have e1 := budgetOf_congr (soldStore_teams env s v)
  have e2 := totalBudget_congr (soldStore_teams env s v)
  set b' := v.buyerTeam.DeductBudget v.listing.AskingPrice env.now with hb'
  set s' := v.sellerTeam.AddBudget v.listing.AskingPrice env.now with hs'
  have hbid : b'.ID = v.buyerTeam.ID := rfl
  have hsid : s'.ID = v.sellerTeam.ID := rfl
  have hS1 : v.sellerTeam ∈ (teamRepo.Update s b').teams :=
    mem_teamRepo_Update_of_ne hS (by rw [hbid]; exact hne)
  have hkey1 : ((teamRepo.Update s b').teams.map Team.ID).Nodup := by
    rw [teamRepo_Update_ids]; exact hkey
  refine ⟨?_, ?_, ?_, ?_⟩
  · rw [e1, budgetOf_Update_other _ _ _ (by rw [hsid]; exact fun h => hne h.symm),
      budgetOf_Update_same _ _ _ hbid.symm (by rw [budgetOf_of_mem hkey hB]; rfl)]
    rfl
  · rw [e1, budgetOf_Update_same _ _ _ hsid.symm (by rw [budgetOf_of_mem hkey1 hS1]; rfl)]
    rfl
  · intro id h1 h2
    rw [e1, budgetOf_Update_other _ _ _ (by rw [hsid]; exact h2),
      budgetOf_Update_other _ _ _ (by rw [hbid]; exact h1)]
  · rw [e2, totalBudget_Update hkey1 hS1 s' hsid, totalBudget_Update hkey hB b' hbid]
    simp only [hb', hs', Team.DeductBudget, Team.AddBudget]

/-- C1, amended. Whenever `BuyPlayer` succeeds on a listing `l`, bought by the caller's team `B`
from the team `S` that owned the listed player, the stored budget of `B` is the `float64`
difference of its old budget and the asking price, the stored budget of `S` is the
`float64` sum of its old budget and the asking price, and no other team's budget changes.
When the exact difference and the exact sum are `float64` values, the two budgets are the
exact difference and sum and the sum of all budgets is the same as before; this is so in
particular for whole amounts below `2^53`.  Team ids are unique (they are the key of the
table). -/
theorem BuyPlayer_moves_price_between_budgets (env : BuyEnv) (f : BuyFaults) (s : Store)
    (userID listingID : UUID) (t : Transfer) (B S : Team) (l : TransferListing) (p : Player)
    (hkey : (s.teams.map Team.ID).Nodup)
    (hok : (BuyPlayer env f s userID listingID).2 = Except.ok t)
    (hB : teamRepo.GetByUserID s userID = Except.ok B)
    (hl : transferRepo.GetListingByID s listingID = Except.ok l)
    (hp : playerRepo.GetByID s l.PlayerID = Except.ok p)
    (hS : S ∈ s.teams) (hown : p.TeamID = some S.ID) :
    budgetOf s B.ID = some B.Budget ∧
    budgetOf s S.ID = some S.Budget ∧
    budgetOf (BuyPlayer env f s userID listingID).1 B.ID
      = some (B.Budget - F64.fin l.AskingPrice) ∧
    budgetOf (BuyPlayer env f s userID listingID).1 S.ID
      = some (S.Budget + F64.fin l.AskingPrice) ∧
    (∀ id, id ≠ B.ID → id ≠ S.ID →
      budgetOf (BuyPlayer env f s userID listingID).1 id = budgetOf s id) ∧
    (∀ b c : ℚ, B.Budget = F64.fin b → S.Budget = F64.fin c →
      F64.isFloat (b - l.AskingPrice) → F64.isFloat (c + l.AskingPrice) →
      budgetOf (BuyPlayer env f s userID listingID).1 B.ID
        = some (F64.fin (b - l.AskingPrice)) ∧
      budgetOf (BuyPlayer env f s userID listingID).1 S.ID
        = some (F64.fin (c + l.AskingPrice)) ∧
      totalBudget (BuyPlayer env f s userID listingID).1 = totalBudget s) ∧
    (∀ b c x : Nat, B.Budget = F64.fin b → S.Budget = F64.fin c → l.AskingPrice = x →
      b < 2 ^ 53 → c + x < 2 ^ 53 →
      budgetOf (BuyPlayer env f s userID listingID).1 B.ID
        = some (F64.fin ((b : ℚ) - x)) ∧
      budgetOf (BuyPlayer env f s userID listingID).1 S.ID
        = some (F64.fin ((c : ℚ) + x)) ∧
      totalBudget (BuyPlayer env f s userID listingID).1 = totalBudget s) := by
  obtain ⟨v, hv, hs', -⟩ := BuyPlayer_ok hok
  obtain ⟨c1, c2, -, c4, c5, c6, -, -, c9⟩ := buyPlayerChecks_ok hv
  have eB : v.buyerTeam = B := by rw [hB] at c1; injection c1 with c1; exact c1.symm
  have el : v.listing = l := by rw [hl] at c2; injection c2 with c2; exact c2.symm
  have ep : v.player = p := by rw [el, hp] at c4; injection c4 with c4; exact c4.symm
  have hBmem : B ∈ s.teams := (mem_of_GetByUserID hB).1
  have eS : v.sellerTeam = S := by
    apply team_eq_of_ID_eq hkey (mem_of_GetByID c9).1 hS
    rw [ep, hown] at c5
    injection c5 with c5
    exact c5.symm
  have hb := soldStore_budgets env s v hkey (eB ▸ hBmem) (eS ▸ hS) c6
  rw [hs']
  rw [eB, eS, el] at hb
  obtain ⟨hb1, hb2, hb3, hb4⟩ := hb
  have hexact : ∀ b c : ℚ, B.Budget = F64.fin b → S.Budget = F64.fin c →
      F64.isFloat (b - l.AskingPrice) → F64.isFloat (c + l.AskingPrice) →
      budgetOf (soldStore env s v) B.ID = some (F64.fin (b - l.AskingPrice)) ∧
      budgetOf (soldStore env s v) S.ID = some (F64.fin (c + l.AskingPrice)) ∧
      totalBudget (soldStore env s v) = totalBudget s := by
    intro b c hb hc fb fc
    have e1 : B.Budget - F64.fin l.AskingPrice = F64.fin (b - l.AskingPrice) := by
      rw [hb, F64.fin_sub_fin]; exact fb
    have e2 : S.Budget + F64.fin l.AskingPrice = F64.fin (c + l.AskingPrice) := by
      rw [hc, F64.fin_add_fin]; exact fc
    refine ⟨by rw [hb1, e1], by rw [hb2, e2], ?_⟩
    rw [hb4, e1, e2, hb, hc]
    simp only [F64.toRat]
    ring
  refine ⟨budgetOf_of_mem hkey hBmem, budgetOf_of_mem hkey hS, hb1, hb2, hb3, hexact, ?_⟩
  intro b c x hb hc hx hlt1 hlt2
  have fb : F64.isFloat ((b : ℚ) - l.AskingPrice) := by
    rw [hx]
    have := F64.isFloat_int ((b : ℤ) - (x : ℤ)) (by rw [abs_lt]; constructor <;> omega)
    push_cast at this
    exact this
  have fc : F64.isFloat ((c : ℚ) + l.AskingPrice) := by
    rw [hx]
    have := F64.isFloat_int ((c : ℤ) + (x : ℤ)) (by rw [abs_lt]; constructor <;> omega)
    push_cast at this
    exact this
  have := hexact b c hb hc fb fc
  rw [hx] at this
  exact this

theorem playerRepo_Update_find (s : Store) (player : Player) (id : UUID) :
    (playerRepo.Update s player).players.find? (fun p => p.ID == id) =
      (s.players.find? (fun p => p.ID == id)).map (fun row =>
        if row.ID == player.ID then
          { row with TeamID := player.TeamID, FirstName := player.FirstName,
                     LastName := player.LastName, Country := player.Country, Age := player.Age,
                     Position := player.Position, MarketValue := player.MarketValue,
                     UpdatedAt := player.UpdatedAt }
        else row) := by
  unfold playerRepo.Update
  apply find?_map_of_key
  intro a
  split <;> rfl

theorem mem_of_playerGetByID {s : Store} {id : UUID} {P : Player}
    (h : playerRepo.GetByID s id = Except.ok P) :
    P ∈ s.players ∧ P.ID = id ∧ s.players.find? (fun p => p.ID == id) = some P := by
  unfold playerRepo.GetByID at h
  split at h
  · next t ht =>
    injection h with h
    subst h
    have := List.find?_some ht
    simp only [beq_iff_eq] at this
    exact ⟨List.mem_of_find?_eq_some ht, this, ht⟩
  · simp at h

theorem mem_of_GetListingByID {s : Store} {id : UUID} {l : TransferListing}
    (h : transferRepo.GetListingByID s id = Except.ok l) :
    l ∈ s.listings ∧ l.ID = id ∧ s.listings.find? (fun r => r.ID == id) = some l := by
  unfold transferRepo.GetListingByID at h
  split at h
  · next t ht =>
    injection h with h
    subst h
    have := List.find?_some ht
    simp only [beq_iff_eq] at this
    exact ⟨List.mem_of_find?_eq_some ht, this, ht⟩
  · simp at h

/-- The owner stored under the id of the row that `playerRepo.Update` was given. -/
theorem ownerOf_Update_same (s : Store) (player : Player)
    (hex : (ownerOf s player.ID).isSome) :
    ownerOf (playerRepo.Update s player) player.ID = some player.TeamID := by
  unfold ownerOf at hex ⊢
  rw [playerRepo_Update_find]
  cases hf : s.players.find? (fun p => p.ID == player.ID) with
  | none => simp [hf] at hex
  | some row =>
    have := List.find?_some hf
    simp only [beq_iff_eq] at this
    simp [this]

/-- With unique player ids, rewriting the row of `P` moves one unit of the head count from
the old owner to the new one. -/
theorem GetPlayerCount_Update {s : Store} (hkey : (s.players.map Player.ID).Nodup)
    {P : Player} (hP : P ∈ s.players) (player : Player) (hid : player.ID = P.ID)
    (T : UUID) :
    teamRepo.GetPlayerCount (playerRepo.Update s player) T
        + (if P.TeamID = some T then 1 else 0)
      = teamRepo.GetPlayerCount s T + (if player.TeamID = some T then 1 else 0) := by
  unfold teamRepo.GetPlayerCount playerRepo.Update
  simp only
  generalize s.players = l at hkey hP
  induction l with
  | nil => simp at hP
  | cons x xs ih =>
    simp only [List.map_cons, List.nodup_cons] at hkey
    rcases List.mem_cons.mp hP with h | h
    · subst h
      have hrest : xs.map (fun row => if row.ID == player.ID then
          { row with TeamID := player.TeamID, FirstName := player.FirstName,
                     LastName := player.LastName, Country := player.Country,
                     Age := player.Age, Position := player.Position,
                     MarketValue := player.MarketValue, UpdatedAt := player.UpdatedAt }
          else row) = xs := by
        conv_rhs => rw [← List.map_id xs]
        apply List.map_congr_left
        intro a ha
        have : a.ID ≠ player.ID := by
          intro he
          exact hkey.1 ((hid ▸ he) ▸ List.mem_map_of_mem Player.ID ha)
        simp [this]
      rw [List.map_cons, hrest]
      simp only [List.countP_cons, ← hid, beq_self_eq_true, if_true, beq_iff_eq]
      omega
    · have hne : x.ID ≠ player.ID := by
        intro he
        exact hkey.1 ((hid ▸ he) ▸ List.mem_map_of_mem Player.ID h)
      have := ih hkey.2 h
      simp only [List.map_cons, List.countP_cons, beq_iff_eq] at this ⊢
      simp only [hne, if_false]
      omega

theorem UpdateListing_find (s : Store) (listing : TransferListing) (id : UUID) :
    (transferRepo.UpdateListing s listing).listings.find? (fun l => l.ID == id) =
      (s.listings.find? (fun l => l.ID == id)).map (fun row =>
        if row.ID == listing.ID then
          { row with AskingPrice := listing.AskingPrice, Status := listing.Status }
        else row) := by
  unfold transferRepo.UpdateListing
  apply find?_map_of_key
  intro a
  split <;> rfl

theorem statusOf_UpdateListing_same (s : Store) (listing : TransferListing)
    (hex : (statusOf s listing.ID).isSome) :
    statusOf (transferRepo.UpdateListing s listing) listing.ID = some listing.Status := by
  unfold statusOf at hex ⊢
  rw [UpdateListing_find]
  cases hf : s.listings.find? (fun l => l.ID == listing.ID) with
  | none => simp [hf] at hex
  | some row =>
    have := List.find?_some hf
    simp only [beq_iff_eq] at this
    simp [this]

/-- C2. Whenever `BuyPlayer` succeeds on a listing `l` of a player owned by team `sid`, bought by
the caller's team `B`: the stored owner of the listed player is `B`, the head count of `B` is
one more and that of `sid` one less than before, the listing is stored as Sold, and the
transfers table is the old one followed by exactly the returned record, which carries the
listed player, the old owner as seller, `B` as buyer and the asking price.  Player ids are
unique (they are the key of the table). -/
theorem BuyPlayer_transfers_ownership (env : BuyEnv) (f : BuyFaults) (s : Store)
    (userID listingID : UUID) (t : Transfer) (B : Team) (l : TransferListing) (p : Player)
    (sid : UUID)
    (hkey : (s.players.map Player.ID).Nodup)
    (hok : (BuyPlayer env f s userID listingID).2 = Except.ok t)
    (hB : teamRepo.GetByUserID s userID = Except.ok B)
    (hl : transferRepo.GetListingByID s listingID = Except.ok l)
    (hp : playerRepo.GetByID s l.PlayerID = Except.ok p)
    (hown : p.TeamID = some sid) :
    ownerOf (BuyPlayer env f s userID listingID).1 l.PlayerID = some (some B.ID) ∧
    teamRepo.GetPlayerCount (BuyPlayer env f s userID listingID).1 B.ID
      = teamRepo.GetPlayerCount s B.ID + 1 ∧
    teamRepo.GetPlayerCount (BuyPlayer env f s userID listingID).1 sid + 1
      = teamRepo.GetPlayerCount s sid ∧
    statusOf (BuyPlayer env f s userID listingID).1 listingID = some TransferStatusSold ∧
    (BuyPlayer env f s userID listingID).1.transfers = s.transfers ++ [t] ∧
    t.PlayerID = l.PlayerID ∧ t.SellerTeamID = sid ∧ t.BuyerTeamID = B.ID ∧
    t.TransferPrice = l.AskingPrice := by
  obtain ⟨v, hv, hs', ht⟩ := BuyPlayer_ok hok
  obtain ⟨c1, c2, -, c4, c5, c6, -, -, -⟩ := buyPlayerChecks_ok hv
  have eB : v.buyerTeam = B := by rw [hB] at c1; injection c1 with c1; exact c1.symm
  have el : v.listing = l := by rw [hl] at c2; injection c2 with c2; exact c2.symm
  have ep : v.player = p := by rw [el, hp] at c4; injection c4 with c4; exact c4.symm
  have eS : v.sellerTeam.ID = sid := by
    rw [ep, hown] at c5; injection c5 with c5; exact c5.symm
  obtain ⟨hpmem, hpid, hpfind⟩ := mem_of_playerGetByID hp
  obtain ⟨-, hlid, hlfind⟩ := mem_of_GetListingByID hl
  have hspid : (soldPlayer env v).ID = p.ID := by rw [← ep]; rfl
  have hspteam : (soldPlayer env v).TeamID = some B.ID := by rw [← eB]; rfl
  have hne : sid ≠ B.ID := by rw [← eS, ← eB]; exact c6
  rw [hs']
  refine ⟨?_, ?_, ?_, ?_, ?_, ?_, ?_, ?_, ?_⟩
  · show ownerOf (playerRepo.Update s (soldPlayer env v)) l.PlayerID = some (some B.ID)
    rw [← hpid, ← hspid, ownerOf_Update_same, hspteam]
    rw [hspid, hpid]
    simp [ownerOf, hpfind]
  · show teamRepo.GetPlayerCount (playerRepo.Update s (soldPlayer env v)) B.ID = _
    have := GetPlayerCount_Update hkey hpmem (soldPlayer env v) hspid B.ID
    rw [hspteam, hown] at this
    simp only [Option.some.injEq, hne, if_false, if_true] at this
    omega
  · show teamRepo.GetPlayerCount (playerRepo.Update s (soldPlayer env v)) sid + 1 = _
    have := GetPlayerCount_Update hkey hpmem (soldPlayer env v) hspid sid
    rw [hspteam, hown] at this
    simp only [Option.some.injEq, Ne.symm hne, if_false, if_true] at this
    omega
  · show statusOf (transferRepo.UpdateListing s v.listing.MarkAsSold) listingID = _
    have hid : v.listing.MarkAsSold.ID = listingID := by rw [el]; exact hlid
    rw [← hid, statusOf_UpdateListing_same]
    · rfl
    · rw [hid]; simp [statusOf, hlfind]
  · rw [soldStore_transfers, ht]
  · rw [ht, ← hpid, ← ep]; rfl
  · rw [ht, ← eS]; rfl
  · rw [ht, ← eB]; rfl
  · rw [ht, ← el]; rfl

/-- Converse of `buyPlayerChecks_ok`: when the reads answer and every check holds, the
checks return the rows that were read. -/
theorem buyPlayerChecks_pass {f : BuyFaults} {s : Store} {userID listingID : UUID}
    {B S : Team} {l : TransferListing} {p : Player} {sid : UUID}
    (hf1 : f.getByUserID = none) (hf2 : f.getListingByID = none) (hf3 : f.getPlayerByID = none)
    (hf4 : f.getPlayerCount = none) (hf5 : f.getTeamByID = none)
    (hB : teamRepo.GetByUserID s userID = Except.ok B)
    (hl : transferRepo.GetListingByID s listingID = Except.ok l)
    (hact : l.Status = TransferStatusActive)
    (hp : playerRepo.GetByID s l.PlayerID = Except.ok p)
    (hown : p.TeamID = some sid) (hne : sid ≠ B.ID)
    (haff : F64.fin l.AskingPrice ≤ B.Budget)
    (hcnt : teamRepo.GetPlayerCount s B.ID < MaxPlayers)
    (hS : teamRepo.GetByID s sid = Except.ok S) :
    buyPlayerChecks f s userID listingID
      = Except.ok { buyerTeam := B, listing := l, player := p, sellerTeam := S } := by
  unfold buyPlayerChecks
  simp only [hf1, hf2, hf3, hf4, hf5, callRepo_none, hB, hl, hp]
  have h1 : (!l.IsActive) = false := by simp [TransferListing.IsActive, hact]
  have h2 : p.IsOwnedBy B.ID = false := by
    simp [Player.IsOwnedBy, hown, hne]
  have h3 : (!B.CanAfford l.AskingPrice) = false := by simp [Team.CanAfford, haff]
  have h4 : ¬ (teamRepo.GetPlayerCount s B.ID ≥ MaxPlayers) := by omega
  simp [h1, h2, h3, h4, hown, hS]

theorem market_checks :
    buyPlayerChecks BuyFaults.none market 102 50 = Except.ok marketLocals :=
  buyPlayerChecks_pass rfl rfl rfl rfl rfl (B := buyerTeam) (S := sellerTeam)
    (l := activeListing) (p := listedPlayer) rfl rfl rfl rfl rfl (by decide)
    (by decide!) (by decide) rfl

theorem market_buy :
    BuyPlayer marketEnv BuyFaults.none market 102 50
      = (soldStore marketEnv market marketLocals, Except.ok (soldTransfer marketEnv marketLocals)) := by
  rw [BuyPlayer_of_checks_ok market_checks]
  exact buyPlayerWrites_none _ _ _ _ rfl rfl rfl rfl rfl

theorem centsMarket_buy :
    BuyPlayer marketEnv BuyFaults.none centsMarket 102 50
      = (soldStore marketEnv centsMarket centsLocals,
         Except.ok (soldTransfer marketEnv centsLocals)) := by
  have hchecks : buyPlayerChecks BuyFaults.none centsMarket 102 50 = Except.ok centsLocals :=
    buyPlayerChecks_pass rfl rfl rfl rfl rfl (B := buyerTeam) (S := richSeller)
      (l := centsListing) (p := listedPlayer) rfl rfl rfl rfl rfl (by decide)
      (by decide!) (by decide) rfl
  rw [BuyPlayer_of_checks_ok hchecks]
  exact buyPlayerWrites_none _ _ _ _ rfl rfl rfl rfl rfl

/-- C1, counterexample. In a market where the first team holds 9,000,000 and the second team
5,000,000, the second team buys player 10 for 1234567.89 (as a `float64`,
5302428712241725 / 2^32).  The purchase succeeds.  The budget stored for the buyer is
4043101941939569 / 2^30, which is not 5,000,000 minus the price; the budget stored for
the seller is 686830224628777 / 2^26, which is not 9,000,000 plus the price; and the sum
of all stored budgets is not the sum before the purchase. -/
theorem BuyPlayer_budgets_are_rounded :
    F64.isFloat centsListing.AskingPrice ∧
    (BuyPlayer marketEnv BuyFaults.none centsMarket 102 50).2
      = Except.ok (soldTransfer marketEnv centsLocals) ∧
    budgetOf centsMarket 2 = some 5000000 ∧
    budgetOf centsMarket 1 = some 9000000 ∧
    budgetOf (BuyPlayer marketEnv BuyFaults.none centsMarket 102 50).1 2
      = some (F64.fin (4043101941939569 / 1073741824)) ∧
    (4043101941939569 / 1073741824 : ℚ) ≠ 5000000 - centsListing.AskingPrice ∧
    budgetOf (BuyPlayer marketEnv BuyFaults.none centsMarket 102 50).1 1
      = some (F64.fin (686830224628777 / 67108864)) ∧
    (686830224628777 / 67108864 : ℚ) ≠ 9000000 + centsListing.AskingPrice ∧
    totalBudget (BuyPlayer marketEnv BuyFaults.none centsMarket 102 50).1
      ≠ totalBudget centsMarket := by
  rw [centsMarket_buy]
  refine ⟨by decide!, rfl, rfl, rfl, by decide!, by decide!, by decide!, by decide!,
    by decide!⟩

/-- Witness for C1 as amended: in the market, the second team buys the listed player for 1,000,000; it
ends with 4,000,000, the seller with 6,000,000, and the total is unchanged. -/
theorem BuyPlayer_moves_price_between_budgets_witness :
    (BuyPlayer marketEnv BuyFaults.none market 102 50).2
      = Except.ok (soldTransfer marketEnv marketLocals) ∧
    budgetOf (BuyPlayer marketEnv BuyFaults.none market 102 50).1 2 = some 4000000 ∧
    budgetOf (BuyPlayer marketEnv BuyFaults.none market 102 50).1 1 = some 6000000 ∧
    budgetOf (BuyPlayer marketEnv BuyFaults.none market 102 50).1 3 = budgetOf market 3 ∧
    totalBudget (BuyPlayer marketEnv BuyFaults.none market 102 50).1 = totalBudget market := by
  have hok : (BuyPlayer marketEnv BuyFaults.none market 102 50).2
      = Except.ok (soldTransfer marketEnv marketLocals) := by rw [market_buy]
  have h := BuyPlayer_moves_price_between_budgets marketEnv BuyFaults.none market 102 50
    (soldTransfer marketEnv marketLocals) buyerTeam sellerTeam activeListing listedPlayer
    (by decide) hok rfl rfl rfl (by simp [market]) rfl
  have h7 := h.2.2.2.2.2.2 5000000 5000000 1000000
    (by simp [buyerTeam, F64.ofNat_eq]) (by simp [sellerTeam, F64.ofNat_eq])
    (by simp [activeListing]) (by norm_num) (by norm_num)
  have e1 : F64.fin (((5000000 : Nat) : ℚ) - ((1000000 : Nat) : ℚ)) = (4000000 : F64) := by
    rw [F64.ofNat_eq]; norm_num
  have e2 : F64.fin (((5000000 : Nat) : ℚ) + ((1000000 : Nat) : ℚ)) = (6000000 : F64) := by
    rw [F64.ofNat_eq]; norm_num
  rw [e1, e2] at h7
  exact ⟨hok, h7.1, h7.2.1, h.2.2.2.2.1 3 (by decide) (by decide), h7.2.2⟩

/-- Witness for C2: the same purchase moves the player to team 2, marks listing 50 as Sold
and appends the returned record. -/
theorem BuyPlayer_transfers_ownership_witness :
    ownerOf (BuyPlayer marketEnv BuyFaults.none market 102 50).1 10 = some (some 2) ∧
    teamRepo.GetPlayerCount (BuyPlayer marketEnv BuyFaults.none market 102 50).1 2
      = teamRepo.GetPlayerCount market 2 + 1 ∧
    teamRepo.GetPlayerCount (BuyPlayer marketEnv BuyFaults.none market 102 50).1 1 + 1
      = teamRepo.GetPlayerCount market 1 ∧
    statusOf (BuyPlayer marketEnv BuyFaults.none market 102 50).1 50
      = some TransferStatusSold ∧
    (BuyPlayer marketEnv BuyFaults.none market 102 50).1.transfers
      = market.transfers ++ [soldTransfer marketEnv marketLocals] := by
  have hok : (BuyPlayer marketEnv BuyFaults.none market 102 50).2
      = Except.ok (soldTransfer marketEnv marketLocals) := by rw [market_buy]
  have h := BuyPlayer_transfers_ownership marketEnv BuyFaults.none market 102 50
    (soldTransfer marketEnv marketLocals) buyerTeam activeListing listedPlayer 1
    (by decide) hok rfl rfl rfl rfl
  exact ⟨h.1, h.2.1, h.2.2.1, h.2.2.2.1, h.2.2.2.2.1⟩

/-! ## Failing writes -/

theorem buyPlayerWrites_fail_player (env : BuyEnv) (f : BuyFaults) (s : Store) (v : BuyLocals)
    (c : Nat) (h1 : f.updatePlayer = some c) :
    buyPlayerWrites env f s v = (s, Except.error (infra c)) := by
  simp [buyPlayerWrites, h1, execRepo_some]

theorem buyPlayerWrites_fail_buyer (env : BuyEnv) (f : BuyFaults) (s : Store) (v : BuyLocals)
    (c : Nat) (h1 : f.updatePlayer = none) (h2 : f.updateBuyer = some c) :
    buyPlayerWrites env f s v = (afterPlayerUpdate env s v, Except.error (infra c)) := by
  simp [buyPlayerWrites, h1, h2, execRepo_some, execRepo_none, afterPlayerUpdate, soldPlayer]

theorem buyPlayerWrites_fail_seller (env : BuyEnv) (f : BuyFaults) (s : Store) (v : BuyLocals)
    (c : Nat) (h1 : f.updatePlayer = none) (h2 : f.updateBuyer = none)
    (h3 : f.updateSeller = some c) :
    buyPlayerWrites env f s v = (afterBuyerUpdate env s v, Except.error (infra c)) := by
  simp [buyPlayerWrites, h1, h2, h3, execRepo_some, execRepo_none, afterBuyerUpdate,
    afterPlayerUpdate, soldPlayer]

theorem buyPlayerWrites_fail_listing (env : BuyEnv) (f : BuyFaults) (s : Store)
    (v : BuyLocals) (c : Nat) (h1 : f.updatePlayer = none) (h2 : f.updateBuyer = none)
    (h3 : f.updateSeller = none) (h4 : f.updateListing = some c) :
    buyPlayerWrites env f s v = (afterSellerUpdate env s v, Except.error (infra c)) := by
  simp [buyPlayerWrites, h1, h2, h3, h4, execRepo_some, execRepo_none, afterSellerUpdate,
    afterBuyerUpdate, afterPlayerUpdate, soldPlayer]

theorem buyPlayerWrites_fail_transfer (env : BuyEnv) (f : BuyFaults) (s : Store)
    (v : BuyLocals) (c : Nat) (h1 : f.updatePlayer = none) (h2 : f.updateBuyer = none)
    (h3 : f.updateSeller = none) (h4 : f.updateListing = none)
    (h5 : f.createTransfer = some c) :
    buyPlayerWrites env f s v = (afterListingUpdate env s v, Except.error (infra c)) := by
  simp [buyPlayerWrites, h1, h2, h3, h4, h5, execRepo_some, execRepo_none, afterListingUpdate,
    afterSellerUpdate, afterBuyerUpdate, afterPlayerUpdate, soldPlayer]

/-- Every outcome of the writes: the first failing write decides the store left behind. -/
theorem buyPlayerWrites_cases (env : BuyEnv) (f : BuyFaults) (s : Store) (v : BuyLocals) :
    (∃ c, f.updatePlayer = some c ∧
      buyPlayerWrites env f s v = (s, Except.error (infra c))) ∨
    (∃ c, f.updatePlayer = none ∧ f.updateBuyer = some c ∧
      buyPlayerWrites env f s v = (afterPlayerUpdate env s v, Except.error (infra c))) ∨
    (∃ c, f.updatePlayer = none ∧ f.updateBuyer = none ∧ f.updateSeller = some c ∧
      buyPlayerWrites env f s v = (afterBuyerUpdate env s v, Except.error (infra c))) ∨
    (∃ c, f.updatePlayer = none ∧ f.updateBuyer = none ∧ f.updateSeller = none ∧
      f.updateListing = some c ∧
      buyPlayerWrites env f s v = (afterSellerUpdate env s v, Except.error (infra c))) ∨
    (∃ c, f.updatePlayer = none ∧ f.updateBuyer = none ∧ f.updateSeller = none ∧
      f.updateListing = none ∧ f.createTransfer = some c ∧
      buyPlayerWrites env f s v = (afterListingUpdate env s v, Except.error (infra c))) ∨
    (f.updatePlayer = none ∧ f.updateBuyer = none ∧ f.updateSeller = none ∧
      f.updateListing = none ∧ f.createTransfer = none ∧
      buyPlayerWrites env f s v = (soldStore env s v, Except.ok (soldTransfer env v))) := by
  cases h1 : f.updatePlayer with
  | some c => exact Or.inl ⟨c, rfl, buyPlayerWrites_fail_player env f s v c h1⟩
  | none =>
  cases h2 : f.updateBuyer with
  | some c => exact Or.inr (Or.inl ⟨c, rfl, rfl, buyPlayerWrites_fail_buyer env f s v c h1 h2⟩)
  | none =>
  cases h3 : f.updateSeller with
  | some c =>
    exact Or.inr (Or.inr (Or.inl ⟨c, rfl, rfl, rfl,
      buyPlayerWrites_fail_seller env f s v c h1 h2 h3⟩))
  | none =>
  cases h4 : f.updateListing with
  | some c =>
    exact Or.inr (Or.inr (Or.inr (Or.inl ⟨c, rfl, rfl, rfl, rfl,
      buyPlayerWrites_fail_listing env f s v c h1 h2 h3 h4⟩)))
  | none =>
  cases h5 : f.createTransfer with
  | some c =>
    exact Or.inr (Or.inr (Or.inr (Or.inr (Or.inl ⟨c, rfl, rfl, rfl, rfl, rfl,
      buyPlayerWrites_fail_transfer env f s v c h1 h2 h3 h4 h5⟩))))
  | none =>
    exact Or.inr (Or.inr (Or.inr (Or.inr (Or.inr ⟨rfl, rfl, rfl, rfl, rfl,
      buyPlayerWrites_none env f s v h1 h2 h3 h4 h5⟩))))

theorem market_checks_buyerUpdateFails :
    buyPlayerChecks buyerUpdateFails market 102 50 = Except.ok marketLocals :=
  buyPlayerChecks_pass rfl rfl rfl rfl rfl (B := buyerTeam) (S := sellerTeam)
    (l := activeListing) (p := listedPlayer) rfl rfl rfl rfl rfl (by decide)
    (by decide!) (by decide) rfl

/-- C3, counterexample. In the market, let the buyer update fail after the player update went
through: `BuyPlayer` returns the error, yet the stored owner of player 10 has changed from
team 1 to team 2, while team 2 still holds its full budget and no transfer is recorded. -/
theorem BuyPlayer_error_after_player_update :
    (BuyPlayer marketEnv buyerUpdateFails market 102 50).2 = Except.error (infra 7) ∧
    ownerOf market 10 = some (some 1) ∧
    ownerOf (BuyPlayer marketEnv buyerUpdateFails market 102 50).1 10 = some (some 2) ∧
    budgetOf (BuyPlayer marketEnv buyerUpdateFails market 102 50).1 2 = budgetOf market 2 ∧
    (BuyPlayer marketEnv buyerUpdateFails market 102 50).1.transfers = market.transfers := by
  have h : BuyPlayer marketEnv buyerUpdateFails market 102 50
      = (afterPlayerUpdate marketEnv market marketLocals, Except.error (infra 7)) := by
    rw [BuyPlayer_of_checks_ok market_checks_buyerUpdateFails]
    exact buyPlayerWrites_fail_buyer _ _ _ _ 7 rfl rfl
  rw [h]
  exact ⟨rfl, rfl, rfl, rfl, rfl⟩

/-- C3, amended. When `BuyPlayer` returns an error, the store is untouched unless the error is
that of a write made after the player update: if none of the buyer update, seller update,
listing update and transfer insert fails, the store is exactly as before the call.
Otherwise the checks had passed with some locals `v`, the error is that of the first failing
write, and the store holds exactly the writes made before it.  Conversely, once the checks
have passed and the player update has gone through, a failure of the buyer update, seller
update, listing update or transfer insert returns that failure and leaves every write made
before it in the store. -/
theorem BuyPlayer_error_keeps_earlier_writes (env : BuyEnv) (f : BuyFaults) (s : Store)
    (userID listingID : UUID) (e : Err)
    (herr : (BuyPlayer env f s userID listingID).2 = Except.error e) :
    (f.updateBuyer = none → f.updateSeller = none → f.updateListing = none →
      f.createTransfer = none → (BuyPlayer env f s userID listingID).1 = s) ∧
    ((BuyPlayer env f s userID listingID).1 = s ∨
      ∃ v c, buyPlayerChecks f s userID listingID = Except.ok v ∧ e = infra c ∧
        f.updatePlayer = none ∧
        ((f.updateBuyer = some c ∧
            (BuyPlayer env f s userID listingID).1 = afterPlayerUpdate env s v) ∨
         (f.updateBuyer = none ∧ f.updateSeller = some c ∧
            (BuyPlayer env f s userID listingID).1 = afterBuyerUpdate env s v) ∨
         (f.updateBuyer = none ∧ f.updateSeller = none ∧ f.updateListing = some c ∧
            (BuyPlayer env f s userID listingID).1 = afterSellerUpdate env s v) ∨
         (f.updateBuyer = none ∧ f.updateSeller = none ∧ f.updateListing = none ∧
            f.createTransfer = some c ∧
            (BuyPlayer env f s userID listingID).1 = afterListingUpdate env s v))) ∧
    (∀ v, buyPlayerChecks f s userID listingID = Except.ok v → f.updatePlayer = none →
      (∀ c, f.updateBuyer = some c →
        BuyPlayer env f s userID listingID
          = (afterPlayerUpdate env s v, Except.error (infra c))) ∧
      (f.updateBuyer = none → ∀ c, f.updateSeller = some c →
        BuyPlayer env f s userID listingID
          = (afterBuyerUpdate env s v, Except.error (infra c))) ∧
      (f.updateBuyer = none → f.updateSeller = none → ∀ c, f.updateListing = some c →
        BuyPlayer env f s userID listingID
          = (afterSellerUpdate env s v, Except.error (infra c))) ∧
      (f.updateBuyer = none → f.updateSeller = none → f.updateListing = none →
        ∀ c, f.createTransfer = some c →
        BuyPlayer env f s userID listingID
          = (afterListingUpdate env s v, Except.error (infra c)))) := by
  refine and_assoc.mp ⟨?_, ?_⟩
  · cases hc : buyPlayerChecks f s userID listingID with
    | error e' =>
      rw [BuyPlayer_of_checks_error hc]
      exact ⟨fun _ _ _ _ => rfl, Or.inl rfl⟩
    | ok v =>
      rw [BuyPlayer_of_checks_ok hc] at herr ⊢
      rcases buyPlayerWrites_cases env f s v with
        ⟨c, h1, hw⟩ | ⟨c, h1, h2, hw⟩ | ⟨c, h1, h2, h3, hw⟩ | ⟨c, h1, h2, h3, h4, hw⟩ |
        ⟨c, h1, h2, h3, h4, h5, hw⟩ | ⟨h1, h2, h3, h4, h5, hw⟩
      · rw [hw]
        exact ⟨fun _ _ _ _ => rfl, Or.inl rfl⟩
      · rw [hw] at herr ⊢
        injection herr with herr
        refine ⟨fun g _ _ _ => ?_, Or.inr ⟨v, c, rfl, herr.symm, h1, Or.inl ⟨h2, rfl⟩⟩⟩
        rw [h2] at g; exact absurd g (by simp)
      · rw [hw] at herr ⊢
        injection herr with herr
        refine ⟨fun _ g _ _ => ?_,
          Or.inr ⟨v, c, rfl, herr.symm, h1, Or.inr (Or.inl ⟨h2, h3, rfl⟩)⟩⟩
        rw [h3] at g; exact absurd g (by simp)
      · rw [hw] at herr ⊢
        injection herr with herr
        refine ⟨fun _ _ g _ => ?_,
          Or.inr ⟨v, c, rfl, herr.symm, h1, Or.inr (Or.inr (Or.inl ⟨h2, h3, h4, rfl⟩))⟩⟩
        rw [h4] at g; exact absurd g (by simp)
      · rw [hw] at herr ⊢
        injection herr with herr
        refine ⟨fun _ _ _ g => ?_,
          Or.inr ⟨v, c, rfl, herr.symm, h1, Or.inr (Or.inr (Or.inr ⟨h2, h3, h4, h5, rfl⟩))⟩⟩
        rw [h5] at g; exact absurd g (by simp)
      · rw [hw] at herr
        exact absurd herr (by simp)
  · intro v hc h1
    rw [BuyPlayer_of_checks_ok hc]
    exact ⟨fun c h2 => buyPlayerWrites_fail_buyer env f s v c h1 h2,
      fun h2 c h3 => buyPlayerWrites_fail_seller env f s v c h1 h2 h3,
      fun h2 h3 c h4 => buyPlayerWrites_fail_listing env f s v c h1 h2 h3 h4,
      fun h2 h3 h4 c h5 => buyPlayerWrites_fail_transfer env f s v c h1 h2 h3 h4 h5⟩

/-! ## Rejections -/

/-- The checks up to the point where the listed player has been loaded. -/
theorem buyPlayerChecks_after_loads {f : BuyFaults} {s : Store} {userID listingID : UUID}
    {B : Team} {l : TransferListing} {p : Player}
    (hf1 : f.getByUserID = none) (hf2 : f.getListingByID = none) (hf3 : f.getPlayerByID = none)
    (hB : teamRepo.GetByUserID s userID = Except.ok B)
    (hl : transferRepo.GetListingByID s listingID = Except.ok l)
    (hact : l.Status = TransferStatusActive)
    (hp : playerRepo.GetByID s l.PlayerID = Except.ok p) :
    buyPlayerChecks f s userID listingID =
      if p.TeamID.isSome && p.IsOwnedBy B.ID then Except.error ErrCannotBuyOwnPlayer else
      if !B.CanAfford l.AskingPrice then Except.error ErrInsufficientBudget else
      match callRepo f.getPlayerCount (Except.ok (teamRepo.GetPlayerCount s B.ID)) with
      | Except.error e => Except.error e
      | Except.ok playerCount =>
      if playerCount ≥ MaxPlayers then Except.error ErrTeamFull else
      match p.TeamID with
      | Option.none => Except.error ErrTeamNotFound
      | some sellerID =>
      match callRepo f.getTeamByID (teamRepo.GetByID s sellerID) with
      | Except.error e => Except.error e
      | Except.ok S =>
      Except.ok { buyerTeam := B, listing := l, player := p, sellerTeam := S } := by
  unfold buyPlayerChecks
  simp only [hf1, hf2, hf3, callRepo_none, hB, hl, hp]
  simp [TransferListing.IsActive, hact]

/-- C6. For an Active listing `l` and a buyer team `B` that does not own the listed player and
holds strictly less than the asking price, `BuyPlayer` fails with `ErrInsufficientBudget`
and returns the store it was given. -/
theorem BuyPlayer_insufficient_budget (env : BuyEnv) (f : BuyFaults) (s : Store)
    (userID listingID : UUID) (B : Team) (l : TransferListing) (p : Player)
    (hf1 : f.getByUserID = none) (hf2 : f.getListingByID = none) (hf3 : f.getPlayerByID = none)
    (hB : teamRepo.GetByUserID s userID = Except.ok B)
    (hl : transferRepo.GetListingByID s listingID = Except.ok l)
    (hact : l.Status = TransferStatusActive)
    (hp : playerRepo.GetByID s l.PlayerID = Except.ok p)
    (hown : p.IsOwnedBy B.ID = false)
    (hlt : B.Budget < F64.fin l.AskingPrice) :
    BuyPlayer env f s userID listingID = (s, Except.error ErrInsufficientBudget) := by
  apply BuyPlayer_of_checks_error
  rw [buyPlayerChecks_after_loads hf1 hf2 hf3 hB hl hact hp]
  have : ¬ F64.fin l.AskingPrice ≤ B.Budget := F64.lt_imp_not_ge hlt
  simp [hown, Team.CanAfford, this]

/-- Witness for C6: the second team holds 500,000 and the listing asks 1,000,000. -/
theorem BuyPlayer_insufficient_budget_witness :
    BuyPlayer marketEnv BuyFaults.none poorMarket 102 50
      = (poorMarket, Except.error ErrInsufficientBudget) :=
  BuyPlayer_insufficient_budget marketEnv BuyFaults.none poorMarket 102 50 poorTeam
    activeListing listedPlayer rfl rfl rfl rfl rfl rfl rfl rfl
    (by decide!)

/-- C7. For an Active listing and a buyer team `B` that does not own the listed player and can
afford the asking price: with `MaxPlayers` (20) or more players stored for `B`, `BuyPlayer`
fails with `ErrTeamFull` and returns the store it was given; with 19 or fewer it does not
fail with `ErrTeamFull`. -/
theorem BuyPlayer_team_full (env : BuyEnv) (f : BuyFaults) (s : Store)
    (userID listingID : UUID) (B : Team) (l : TransferListing) (p : Player)
    (hf1 : f.getByUserID = none) (hf2 : f.getListingByID = none) (hf3 : f.getPlayerByID = none)
    (hf4 : f.getPlayerCount = none)
    (hB : teamRepo.GetByUserID s userID = Except.ok B)
    (hl : transferRepo.GetListingByID s listingID = Except.ok l)
    (hact : l.Status = TransferStatusActive)
    (hp : playerRepo.GetByID s l.PlayerID = Except.ok p)
    (hown : p.IsOwnedBy B.ID = false)
    (haff : F64.fin l.AskingPrice ≤ B.Budget) :
    (MaxPlayers ≤ teamRepo.GetPlayerCount s B.ID →
      BuyPlayer env f s userID listingID = (s, Except.error ErrTeamFull)) ∧
    (teamRepo.GetPlayerCount s B.ID ≤ 19 →
      (BuyPlayer env f s userID listingID).2 ≠ Except.error ErrTeamFull) := by
  have hc := buyPlayerChecks_after_loads hf1 hf2 hf3 hB hl hact hp
  simp only [hown, Bool.and_false, Team.CanAfford, haff, ge_iff_le, decide_True, Bool.not_true,
    hf4, callRepo_none] at hc
  constructor
  · intro hfull
    apply BuyPlayer_of_checks_error
    rw [hc]
    simp [hfull]
  · intro hfew hres
    have hnot : ¬ MaxPlayers ≤ teamRepo.GetPlayerCount s B.ID := by
      unfold MaxPlayers; omega
    simp only [Bool.false_eq_true, if_false, hnot] at hc
    cases hteam : p.TeamID with
    | none =>
      rw [hteam] at hc
      rw [BuyPlayer_of_checks_error hc] at hres
      simp at hres
    | some sellerID =>
      rw [hteam] at hc
      simp only at hc
      cases hsel : callRepo f.getTeamByID (teamRepo.GetByID s sellerID) with
      | error e =>
        rw [hsel] at hc
        rw [BuyPlayer_of_checks_error hc] at hres
        injection hres with hres
        subst hres
        cases hflt : f.getTeamByID with
        | some c => rw [hflt] at hsel; simp [callRepo] at hsel
        | none =>
          rw [hflt, callRepo_none] at hsel
          unfold teamRepo.GetByID at hsel
          split at hsel <;> simp at hsel
      | ok S =>
        rw [hsel] at hc
        rw [BuyPlayer_of_checks_ok hc] at hres
        rcases buyPlayerWrites_cases env f s ⟨B, l, p, S⟩ with
          ⟨c, -, hw⟩ | ⟨c, -, -, hw⟩ | ⟨c, -, -, -, hw⟩ | ⟨c, -, -, -, -, hw⟩ |
          ⟨c, -, -, -, -, -, hw⟩ | ⟨-, -, -, -, -, hw⟩ <;>
        · rw [hw] at hres
          simp at hres

/-- Witness for C7: with twenty players stored for the second team the purchase is rejected
with `ErrTeamFull`; with none stored it is not. -/
theorem BuyPlayer_team_full_witness :
    BuyPlayer marketEnv BuyFaults.none fullMarket 102 50
      = (fullMarket, Except.error ErrTeamFull) ∧
    (BuyPlayer marketEnv BuyFaults.none market 102 50).2 ≠ Except.error ErrTeamFull :=
  ⟨(BuyPlayer_team_full marketEnv BuyFaults.none fullMarket 102 50 buyerTeam activeListing
      listedPlayer rfl rfl rfl rfl rfl rfl rfl rfl rfl
      (by decide!)).1 (by decide),
   (BuyPlayer_team_full marketEnv BuyFaults.none market 102 50 buyerTeam activeListing
      listedPlayer rfl rfl rfl rfl rfl rfl rfl rfl rfl
      (by decide!)).2 (by decide)⟩

/-- C8. For an Active listing whose player is owned by the buyer's own team `B`, `BuyPlayer`
fails with `ErrCannotBuyOwnPlayer` and returns the store it was given, whatever the budget
of `B` and the number of its players. -/
theorem BuyPlayer_own_player (env : BuyEnv) (f : BuyFaults) (s : Store)
    (userID listingID : UUID) (B : Team) (l : TransferListing) (p : Player)
    (hf1 : f.getByUserID = none) (hf2 : f.getListingByID = none) (hf3 : f.getPlayerByID = none)
    (hB : teamRepo.GetByUserID s userID = Except.ok B)
    (hl : transferRepo.GetListingByID s listingID = Except.ok l)
    (hact : l.Status = TransferStatusActive)
    (hp : playerRepo.GetByID s l.PlayerID = Except.ok p)
    (hown : p.IsOwnedBy B.ID = true) :
    BuyPlayer env f s userID listingID = (s, Except.error ErrCannotBuyOwnPlayer) := by
  apply BuyPlayer_of_checks_error
  rw [buyPlayerChecks_after_loads hf1 hf2 hf3 hB hl hact hp]
  have hsome : p.TeamID.isSome = true := by
    unfold Player.IsOwnedBy at hown
    cases ht : p.TeamID with
    | none => rw [ht] at hown; simp at hown
    | some t => rfl
  simp [hown, hsome]

/-- Witness for C8: the listed player belongs to the second team, which tries to buy it. -/
theorem BuyPlayer_own_player_witness :
    BuyPlayer marketEnv BuyFaults.none ownMarket 102 50
      = (ownMarket, Except.error ErrCannotBuyOwnPlayer) :=
  BuyPlayer_own_player marketEnv BuyFaults.none ownMarket 102 50 buyerTeam activeListing
    { listedPlayer with TeamID := some 2 } rfl rfl rfl rfl rfl rfl rfl rfl

theorem poorMarket_checks :
    buyPlayerChecks BuyFaults.none poorMarket 102 50 = Except.error ErrInsufficientBudget := by
  rw [@buyPlayerChecks_after_loads BuyFaults.none poorMarket 102 50 poorTeam activeListing
    listedPlayer rfl rfl rfl rfl rfl rfl rfl]
  have h1 : listedPlayer.IsOwnedBy poorTeam.ID = false := rfl
  have h2 : ¬ F64.fin activeListing.AskingPrice ≤ poorTeam.Budget := by
    decide!
  simp [h1, Team.CanAfford, h2]

/-- Witness for C3 as amended: a rejected purchase leaves the store as it was, and the failed
buyer update leaves exactly the player update behind. -/
theorem BuyPlayer_error_keeps_earlier_writes_witness :
    (BuyPlayer marketEnv BuyFaults.none poorMarket 102 50).1 = poorMarket ∧
    ((BuyPlayer marketEnv buyerUpdateFails market 102 50).1 = market ∨
      ∃ v c, buyPlayerChecks buyerUpdateFails market 102 50 = Except.ok v ∧
        infra 7 = infra c ∧ buyerUpdateFails.updatePlayer = none ∧
        ((buyerUpdateFails.updateBuyer = some c ∧
            (BuyPlayer marketEnv buyerUpdateFails market 102 50).1
              = afterPlayerUpdate marketEnv market v) ∨
         (buyerUpdateFails.updateBuyer = none ∧ buyerUpdateFails.updateSeller = some c ∧
            (BuyPlayer marketEnv buyerUpdateFails market 102 50).1
              = afterBuyerUpdate marketEnv market v) ∨
         (buyerUpdateFails.updateBuyer = none ∧ buyerUpdateFails.updateSeller = none ∧
            buyerUpdateFails.updateListing = some c ∧
            (BuyPlayer marketEnv buyerUpdateFails market 102 50).1
              = afterSellerUpdate marketEnv market v) ∨
         (buyerUpdateFails.updateBuyer = none ∧ buyerUpdateFails.updateSeller = none ∧
            buyerUpdateFails.updateListing = none ∧
            buyerUpdateFails.createTransfer = some c ∧
            (BuyPlayer marketEnv buyerUpdateFails market 102 50).1
              = afterListingUpdate marketEnv market v))) :=
  ⟨(BuyPlayer_error_keeps_earlier_writes marketEnv BuyFaults.none poorMarket 102 50
      ErrInsufficientBudget (by rw [BuyPlayer_of_checks_error poorMarket_checks])).1
      rfl rfl rfl rfl,
   (BuyPlayer_error_keeps_earlier_writes marketEnv buyerUpdateFails market 102 50 (infra 7)
      (by rw [BuyPlayer_of_checks_ok market_checks_buyerUpdateFails,
            buyPlayerWrites_fail_buyer _ _ _ _ 7 rfl rfl])).2.1⟩

/-- C9, counterexample. In the market whose listing 50 is stored as Sold, a purchase of
listing 50 and a purchase of the absent listing 999 fail with one and the same error,
`ErrTransferListingNotFound`. -/
theorem BuyPlayer_sold_listing_reported_as_missing :
    statusOf closedMarket 50 = some TransferStatusSold ∧
    statusOf closedMarket 999 = none ∧
    (BuyPlayer marketEnv BuyFaults.none closedMarket 102 50).2
      = Except.error ErrTransferListingNotFound ∧
    (BuyPlayer marketEnv BuyFaults.none closedMarket 102 999).2
      = Except.error ErrTransferListingNotFound ∧
    (BuyPlayer marketEnv BuyFaults.none closedMarket 102 50).2
      = (BuyPlayer marketEnv BuyFaults.none closedMarket 102 999).2 :=
  ⟨rfl, rfl, rfl, rfl, rfl⟩

/-- C9, amended. For a caller with a team: a listing id that no stored listing carries, and a
listing that is stored with a status other than Active (Sold or Cancelled), are both turned
away with the same error `ErrTransferListingNotFound`; in both cases `BuyPlayer` returns
the store it was given. -/
theorem BuyPlayer_missing_or_inactive_listing (env : BuyEnv) (f : BuyFaults) (s : Store)
    (userID listingID : UUID) (B : Team)
    (hf1 : f.getByUserID = none) (hf2 : f.getListingByID = none)
    (hB : teamRepo.GetByUserID s userID = Except.ok B) :
    ((∀ l ∈ s.listings, l.ID ≠ listingID) →
      BuyPlayer env f s userID listingID = (s, Except.error ErrTransferListingNotFound)) ∧
    (∀ l, transferRepo.GetListingByID s listingID = Except.ok l →
      l.Status ≠ TransferStatusActive →
      BuyPlayer env f s userID listingID = (s, Except.error ErrTransferListingNotFound)) := by
  constructor
  · intro habs
    apply BuyPlayer_of_checks_error
    have hnone : s.listings.find? (fun l => l.ID == listingID) = none := by
      rw [List.find?_eq_none]
      intro l hl
      simpa using habs l hl
    unfold buyPlayerChecks
    simp [hf1, hf2, callRepo_none, hB, transferRepo.GetListingByID, hnone]
  · intro l hl hst
    apply BuyPlayer_of_checks_error
    unfold buyPlayerChecks
    simp [hf1, hf2, callRepo_none, hB, hl, TransferListing.IsActive, hst]

/-- Witness for C9 as amended, on the market whose listing 50 is stored as Sold. -/
theorem BuyPlayer_missing_or_inactive_listing_witness :
    BuyPlayer marketEnv BuyFaults.none closedMarket 102 999
      = (closedMarket, Except.error ErrTransferListingNotFound) ∧
    BuyPlayer marketEnv BuyFaults.none closedMarket 102 50
      = (closedMarket, Except.error ErrTransferListingNotFound) :=
  ⟨(BuyPlayer_missing_or_inactive_listing marketEnv BuyFaults.none closedMarket 102 999
      buyerTeam rfl rfl rfl).1 (by decide),
   (BuyPlayer_missing_or_inactive_listing marketEnv BuyFaults.none closedMarket 102 50
      buyerTeam rfl rfl rfl).2 activeListing.MarkAsSold rfl (by decide)⟩

/-! ## The stores a call can leave behind -/

theorem BuyPlayer_store_cases (env : BuyEnv) (f : BuyFaults) (s : Store)
    (userID listingID : UUID) :
    (BuyPlayer env f s userID listingID).1 = s ∨
    ∃ v, buyPlayerChecks f s userID listingID = Except.ok v ∧
      ((BuyPlayer env f s userID listingID).1 = afterPlayerUpdate env s v ∨
       (BuyPlayer env f s userID listingID).1 = afterBuyerUpdate env s v ∨
       (BuyPlayer env f s userID listingID).1 = afterSellerUpdate env s v ∨
       (BuyPlayer env f s userID listingID).1 = afterListingUpdate env s v ∨
       (BuyPlayer env f s userID listingID).1 = soldStore env s v) := by
  cases hc : buyPlayerChecks f s userID listingID with
  | error e => rw [BuyPlayer_of_checks_error hc]; exact Or.inl rfl
  | ok v =>
    rw [BuyPlayer_of_checks_ok hc]
    rcases buyPlayerWrites_cases env f s v with
      ⟨c, -, hw⟩ | ⟨c, -, -, hw⟩ | ⟨c, -, -, -, hw⟩ | ⟨c, -, -, -, -, hw⟩ |
      ⟨c, -, -, -, -, -, hw⟩ | ⟨-, -, -, -, -, hw⟩ <;> rw [hw]
    · exact Or.inl rfl
    · exact Or.inr ⟨v, rfl, Or.inl rfl⟩
    · exact Or.inr ⟨v, rfl, Or.inr (Or.inl rfl)⟩
    · exact Or.inr ⟨v, rfl, Or.inr (Or.inr (Or.inl rfl))⟩
    · exact Or.inr ⟨v, rfl, Or.inr (Or.inr (Or.inr (Or.inl rfl)))⟩
    · exact Or.inr ⟨v, rfl, Or.inr (Or.inr (Or.inr (Or.inr rfl)))⟩

theorem ListPlayer_store_cases (env : ListEnv) (f : ListFaults) (s : Store)
    (userID playerID : UUID) (askingPrice : ℚ) :
    (ListPlayer env f s userID playerID askingPrice).1 = s ∨
    ∃ pid, 0 < askingPrice ∧
      (ListPlayer env f s userID playerID askingPrice).1
        = transferRepo.CreateListing s (NewTransferListing env.listingID env.now pid askingPrice)
      := by
  unfold ListPlayer
  split
  · exact Or.inl rfl
  · split
    · exact Or.inl rfl
    · next player _ =>
      split
      · exact Or.inl rfl
      · simp only
        split
        · exact Or.inl rfl
        · split
          · exact Or.inl rfl
          · next hprice =>
            cases hflt : f.createListing with
            | some c => simp [execRepo_some]
            | none =>
              right
              exact ⟨player.ID, not_le.mp hprice, by simp [execRepo_none]⟩

theorem RemoveFromTransferList_store_cases (f : RemoveFaults) (s : Store)
    (userID playerID : UUID) :
    (RemoveFromTransferList f s userID playerID).1 = s ∨
    ∃ listing : TransferListing, (RemoveFromTransferList f s userID playerID).1
      = transferRepo.UpdateListing s listing.Cancel := by
  unfold RemoveFromTransferList
  split
  · exact Or.inl rfl
  · split
    · exact Or.inl rfl
    · split
      · exact Or.inl rfl
      · split
        · exact Or.inl rfl
        · next listing _ =>
          cases hflt : f.updateListing with
          | some c => simp [execRepo_some]
          | none => exact Or.inr ⟨listing, by simp [execRepo_none]⟩

theorem UpdateTeam_store_cases (f : UpdateTeamFaults) (s : Store) (userID : UUID)
    (name country : String) :
    (UpdateTeam f s userID name country).1 = s ∨
    ∃ team, team ∈ s.teams ∧
      (UpdateTeam f s userID name country).1
        = teamRepo.Update s { team with Name := name, Country := country } := by
  unfold UpdateTeam
  split
  · exact Or.inl rfl
  · next team hteam =>
    cases hflt : f.update with
    | some c => simp [execRepo_some]
    | none =>
      exact Or.inr ⟨team, (mem_of_GetByUserID (callRepo_ok hteam).2).1, by simp [execRepo_none]⟩

theorem UpdatePlayer_store_cases (f : UpdatePlayerFaults) (s : Store) (userID playerID : UUID)
    (firstName lastName country : String) :
    (UpdatePlayer f s userID playerID firstName lastName country).1 = s ∨
    ∃ player, (UpdatePlayer f s userID playerID firstName lastName country).1
      = playerRepo.Update s player := by
  unfold UpdatePlayer
  split
  · exact Or.inl rfl
  · split
    · exact Or.inl rfl
    · next player _ =>
      split
      · exact Or.inl rfl
      · cases hflt : f.update with
        | some c => simp [execRepo_some]
        | none =>
          right
          refine ⟨Player.mk player.ID player.TeamID firstName lastName country player.Age
            player.Position player.MarketValue player.CreatedAt player.UpdatedAt, ?_⟩
          simp only [execRepo_none]

theorem Register_store_cases (env : RegisterEnv) (f : RegisterFaults) (s : Store)
    (email password : String) :
    (Register env f s email password).1 = s ∨
    ∃ user name,
      ((Register env f s email password).1 = userRepo.Create s user ∨
       (Register env f s email password).1
         = teamRepo.Create (userRepo.Create s user)
             (NewTeam env.teamID env.now user.ID name "Unknown") ∨
       (Register env f s email password).1
         = playerRepo.CreateBatch
             (teamRepo.Create (userRepo.Create s user)
               (NewTeam env.teamID env.now user.ID name "Unknown"))
             (generateInitialPlayers env env.teamID)) := by
  unfold Register
  simp only
  split
  · exact Or.inl rfl
  · split
    · exact Or.inl rfl
    · next passwordHash _ =>
      cases h1 : f.createUser with
      | some c => simp [execRepo_some]
      | none =>
      cases h2 : f.createTeam with
      | some c =>
        right
        exact ⟨NewUser env.userID env.now email passwordHash, "", Or.inl
          (by simp [execRepo_some, execRepo_none])⟩
      | none =>
      cases h3 : f.createBatch with
      | some c =>
        right
        exact ⟨NewUser env.userID env.now email passwordHash,
          generateDefaultTeamName env.teamName, Or.inr (Or.inl
          (by simp [execRepo_some, execRepo_none]))⟩
      | none =>
        right
        refine ⟨NewUser env.userID env.now email passwordHash,
          generateDefaultTeamName env.teamName, Or.inr (Or.inr ?_)⟩
        simp only [execRepo_none]
        split <;> rfl

/-! ## A listing that is not Active stays so -/

theorem closedListing_congr {s s' : Store} (h : s'.listings = s.listings) {L : UUID}
    (hc : closedListing s L) : closedListing s' L := by
  unfold closedListing statusOf at hc ⊢
  rw [h]; exact hc

theorem closedListing_UpdateListing {s : Store} {L : UUID} (listing : TransferListing)
    (hst : listing.Status ≠ TransferStatusActive) (hc : closedListing s L) :
    closedListing (transferRepo.UpdateListing s listing) L := by
  obtain ⟨st, hfind, hne⟩ := hc
  unfold closedListing
  unfold statusOf at hfind ⊢
  rw [UpdateListing_find]
  cases hf : s.listings.find? (fun l => l.ID == L) with
  | none => rw [hf] at hfind; simp at hfind
  | some row =>
    rw [hf] at hfind
    simp only [Option.map_some', Option.some.injEq] at hfind
    by_cases hid : row.ID = listing.ID
    · exact ⟨listing.Status, by simp [hid], hst⟩
    · exact ⟨st, by simp [hid, hfind], hne⟩

theorem closedListing_CreateListing {s : Store} {L : UUID} (listing : TransferListing)
    (hc : closedListing s L) : closedListing (transferRepo.CreateListing s listing) L := by
  obtain ⟨st, hfind, hne⟩ := hc
  refine ⟨st, ?_, hne⟩
  unfold statusOf transferRepo.CreateListing at *
  cases hf : s.listings.find? (fun l => l.ID == L) with
  | none => rw [hf] at hfind; simp at hfind
  | some row =>
    rw [hf] at hfind
    simp only [List.find?_append, hf]
    exact hfind

theorem closedListing_BuyPlayer (env : BuyEnv) (f : BuyFaults) {s : Store}
    (userID listingID : UUID) {L : UUID} (hc : closedListing s L) :
    closedListing (BuyPlayer env f s userID listingID).1 L := by
  rcases BuyPlayer_store_cases env f s userID listingID with h | ⟨v, -, h | h | h | h | h⟩ <;>
    rw [h]
  · exact hc
  · exact closedListing_congr rfl hc
  · exact closedListing_congr rfl hc
  · exact closedListing_congr rfl hc
  · exact closedListing_congr (s := transferRepo.UpdateListing s v.listing.MarkAsSold) rfl
      (closedListing_UpdateListing _ (by simp [TransferListing.MarkAsSold]) hc)
  · exact closedListing_congr (s := transferRepo.UpdateListing s v.listing.MarkAsSold) rfl
      (closedListing_UpdateListing _ (by simp [TransferListing.MarkAsSold]) hc)

theorem closedListing_step {s : Store} {L : UUID} (op : Op) (hc : closedListing s L) :
    closedListing (step s op) L := by
  cases op with
  | register env f email password =>
    rcases Register_store_cases env f s email password with h | ⟨u, n, h | h | h⟩ <;>
      simp only [step, h]
    · exact hc
    · exact closedListing_congr rfl hc
    · exact closedListing_congr rfl hc
    · exact closedListing_congr rfl hc
  | listPlayer env f userID playerID askingPrice =>
    rcases ListPlayer_store_cases env f s userID playerID askingPrice with h | ⟨pid, -, h⟩ <;>
      simp only [step, h]
    · exact hc
    · exact closedListing_CreateListing _ hc
  | removeFromTransferList f userID playerID =>
    rcases RemoveFromTransferList_store_cases f s userID playerID with h | ⟨l, h⟩ <;>
      simp only [step, h]
    · exact hc
    · exact closedListing_UpdateListing _ (by simp [TransferListing.Cancel]) hc
  | buyPlayer env f userID listingID => exact closedListing_BuyPlayer env f userID listingID hc
  | updateTeam f userID name country =>
    rcases UpdateTeam_store_cases f s userID name country with h | ⟨t, -, h⟩ <;>
      simp only [step, h]
    · exact hc
    · exact closedListing_congr rfl hc
  | updatePlayer f userID playerID firstName lastName country =>
    rcases UpdatePlayer_store_cases f s userID playerID firstName lastName country with
      h | ⟨q, h⟩ <;> simp only [step, h]
    · exact hc
    · exact closedListing_congr rfl hc

theorem closedListing_run {L : UUID} (ops : List Op) :
    ∀ {s : Store}, closedListing s L → closedListing (run s ops) L := by
  induction ops with
  | nil => intro s hc; exact hc
  | cons op ops ih => intro s hc; exact ih (closedListing_step op hc)

/-- A successful purchase stores its listing as Sold. -/
theorem closedListing_of_BuyPlayer_ok {env : BuyEnv} {f : BuyFaults} {s : Store}
    {userID listingID : UUID} {t : Transfer}
    (hok : (BuyPlayer env f s userID listingID).2 = Except.ok t) :
    closedListing (BuyPlayer env f s userID listingID).1 listingID := by
  obtain ⟨v, hv, hs', -⟩ := BuyPlayer_ok hok
  obtain ⟨-, c2, -, -, -, -, -, -, -⟩ := buyPlayerChecks_ok hv
  obtain ⟨-, hlid, hlfind⟩ := mem_of_GetListingByID c2
  rw [hs']
  refine ⟨TransferStatusSold, ?_, by decide⟩
  show statusOf (transferRepo.UpdateListing s v.listing.MarkAsSold) listingID = _
  have hid : v.listing.MarkAsSold.ID = listingID := hlid
  rw [← hid, statusOf_UpdateListing_same]
  · rfl
  · rw [hid]; simp [statusOf, hlfind]

/-- On a listing that is not Active, the checks fail; the error is
`ErrTransferListingNotFound` as soon as the caller's team and the listing are loaded. -/
theorem buyPlayerChecks_closed (f : BuyFaults) {s : Store} (userID : UUID) {L : UUID}
    (hc : closedListing s L) :
    ∃ e, buyPlayerChecks f s userID L = Except.error e ∧
      (f.getByUserID = none → f.getListingByID = none →
        (∃ T, teamRepo.GetByUserID s userID = Except.ok T) →
        e = ErrTransferListingNotFound) := by
  obtain ⟨st, hfind, hne⟩ := hc
  unfold statusOf at hfind
  cases hf : s.listings.find? (fun l => l.ID == L) with
  | none => rw [hf] at hfind; simp at hfind
  | some row =>
    rw [hf] at hfind
    simp only [Option.map_some', Option.some.injEq] at hfind
    have hl : transferRepo.GetListingByID s L = Except.ok row := by
      simp [transferRepo.GetListingByID, hf]
    have hrow : row.Status ≠ TransferStatusActive := by rw [hfind]; exact hne
    unfold buyPlayerChecks
    cases hb : callRepo f.getByUserID (teamRepo.GetByUserID s userID) with
    | error e =>
      refine ⟨e, rfl, ?_⟩
      intro h1 _ hT
      obtain ⟨T, hT⟩ := hT
      rw [h1, callRepo_none, hT] at hb
      simp at hb
    | ok B =>
      cases hg : callRepo f.getListingByID (transferRepo.GetListingByID s L) with
      | error e =>
        refine ⟨e, rfl, ?_⟩
        intro _ h2 _
        rw [h2, callRepo_none, hl] at hg
        simp at hg
      | ok l =>
        have hl' := (callRepo_ok hg).2
        rw [hl] at hl'
        injection hl' with hl'
        subst hl'
        exact ⟨ErrTransferListingNotFound, by simp [TransferListing.IsActive, hrow],
          fun _ _ _ => rfl⟩

/-- A caller without a team is turned away with `ErrTeamNotFound`, whatever the listing. -/
theorem BuyPlayer_without_team (env : BuyEnv) (f : BuyFaults) (s : Store)
    (userID listingID : UUID) (hf : f.getByUserID = none)
    (hnone : ∀ t ∈ s.teams, t.UserID ≠ userID) :
    BuyPlayer env f s userID listingID = (s, Except.error ErrTeamNotFound) := by
  apply BuyPlayer_of_checks_error
  have hfind : s.teams.find? (fun t => t.UserID == userID) = none := by
    rw [List.find?_eq_none]
    intro t ht
    simpa using hnone t ht
  unfold buyPlayerChecks
  simp [hf, callRepo_none, teamRepo.GetByUserID, hfind]

/-- C4, counterexample. In the market the second team buys listing 50.  A later purchase of
listing 50 by user 999, who has no team, fails with `ErrTeamNotFound`, which is not the
listing-not-found error; the store is left as it was. -/
theorem BuyPlayer_on_sold_listing_without_team :
    (BuyPlayer marketEnv BuyFaults.none market 102 50).2
      = Except.ok (soldTransfer marketEnv marketLocals) ∧
    BuyPlayer rivalEnv BuyFaults.none (BuyPlayer marketEnv BuyFaults.none market 102 50).1
        999 50
      = ((BuyPlayer marketEnv BuyFaults.none market 102 50).1,
         Except.error ErrTeamNotFound) ∧
    ErrTeamNotFound ≠ ErrTransferListingNotFound := by
  rw [market_buy]
  exact ⟨rfl, rfl, by decide⟩

/-- C4, amended. Once a `BuyPlayer` call on listing `L` has succeeded, then after any further
sequence of calls of the use cases, every `BuyPlayer` call on `L`, by any caller and with
any repository failures, returns an error and the store it was given, so that no budget,
no owner and no Transfer record changes.  With the team and listing loads answering, the
error is `ErrTransferListingNotFound` for a caller who has a team and `ErrTeamNotFound`
for a caller who has none. -/
theorem BuyPlayer_sold_at_most_once (env : BuyEnv) (f : BuyFaults) (s : Store)
    (userID listingID : UUID) (t : Transfer)
    (hok : (BuyPlayer env f s userID listingID).2 = Except.ok t)
    (ops : List Op) (env' : BuyEnv) (f' : BuyFaults) (userID' : UUID) :
    (BuyPlayer env' f' (run (BuyPlayer env f s userID listingID).1 ops) userID' listingID).1
      = run (BuyPlayer env f s userID listingID).1 ops ∧
    (∃ e, (BuyPlayer env' f' (run (BuyPlayer env f s userID listingID).1 ops) userID'
        listingID).2 = Except.error e) ∧
    (f'.getByUserID = none → f'.getListingByID = none →
      (∃ T, teamRepo.GetByUserID (run (BuyPlayer env f s userID listingID).1 ops) userID'
        = Except.ok T) →
      (BuyPlayer env' f' (run (BuyPlayer env f s userID listingID).1 ops) userID'
        listingID).2 = Except.error ErrTransferListingNotFound) ∧
    (f'.getByUserID = none →
      (∀ T ∈ (run (BuyPlayer env f s userID listingID).1 ops).teams, T.UserID ≠ userID') →
      (BuyPlayer env' f' (run (BuyPlayer env f s userID listingID).1 ops) userID'
        listingID).2 = Except.error ErrTeamNotFound) := by
  have hc := closedListing_run ops (closedListing_of_BuyPlayer_ok hok)
  obtain ⟨e, he, hwhich⟩ := buyPlayerChecks_closed f' userID' hc
  refine ⟨?_, ?_, ?_, ?_⟩
  · rw [BuyPlayer_of_checks_error he]
  · rw [BuyPlayer_of_checks_error he]
    exact ⟨e, rfl⟩
  · intro h1 h2 h3
    rw [BuyPlayer_of_checks_error he, hwhich h1 h2 h3]
  · intro h1 hnone
    rw [BuyPlayer_without_team env' f' _ userID' listingID h1 hnone]

theorem market_later_team :
    ∃ T, teamRepo.GetByUserID
      (run (BuyPlayer marketEnv BuyFaults.none market 102 50).1 laterCalls) 103
        = Except.ok T := by
  rw [market_buy]
  exact ⟨_, rfl⟩

/-- Witness for C4 as amended: after the second team bought listing 50 and two more calls
were made, the third team's purchase of listing 50 is turned away and nothing is
written. -/
theorem BuyPlayer_sold_at_most_once_witness :
    (BuyPlayer marketEnv BuyFaults.none
        (run (BuyPlayer marketEnv BuyFaults.none market 102 50).1 laterCalls) 103 50).1
      = run (BuyPlayer marketEnv BuyFaults.none market 102 50).1 laterCalls ∧
    (BuyPlayer marketEnv BuyFaults.none
        (run (BuyPlayer marketEnv BuyFaults.none market 102 50).1 laterCalls) 103 50).2
      = Except.error ErrTransferListingNotFound :=
  have h := BuyPlayer_sold_at_most_once marketEnv BuyFaults.none market 102 50
    (soldTransfer marketEnv marketLocals) (by rw [market_buy]) laterCalls marketEnv
    BuyFaults.none 103
  ⟨h.1, h.2.2.1 rfl rfl market_later_team⟩

/-! ## Two purchases of one listing -/

theorem market_checks_rival :
    buyPlayerChecks BuyFaults.none market 103 50 = Except.ok rivalLocals :=
  buyPlayerChecks_pass rfl rfl rfl rfl rfl (B := rivalTeam) (S := sellerTeam)
    (l := activeListing) (p := listedPlayer) rfl rfl rfl rfl rfl (by decide)
    (by decide!) (by decide) rfl

theorem market_overlapping :
    BuyPlayerOverlapping marketEnv rivalEnv market 102 103 50
      = (soldStore rivalEnv (soldStore marketEnv market marketLocals) rivalLocals,
         Except.ok (soldTransfer marketEnv marketLocals),
         Except.ok (soldTransfer rivalEnv rivalLocals)) := by
  unfold BuyPlayerOverlapping
  simp only [market_checks, market_checks_rival]
  rw [buyPlayerWrites_none marketEnv BuyFaults.none market marketLocals rfl rfl rfl rfl rfl]
  simp only
  rw [buyPlayerWrites_none rivalEnv BuyFaults.none _ rivalLocals rfl rfl rfl rfl rfl]

/-- C5, counterexample. In the market, let the second and the third team buy listing 50 with
overlapping calls, both reading before either writes.  Both calls succeed; both buyers are
debited 1,000,000; the seller is credited once; the player ends with the third team; and
two Transfer records are written for the one sale. -/
theorem BuyPlayer_overlapping_calls_both_succeed :
    (BuyPlayerOverlapping marketEnv rivalEnv market 102 103 50).2.1
      = Except.ok (soldTransfer marketEnv marketLocals) ∧
    (BuyPlayerOverlapping marketEnv rivalEnv market 102 103 50).2.2
      = Except.ok (soldTransfer rivalEnv rivalLocals) ∧
    budgetOf (BuyPlayerOverlapping marketEnv rivalEnv market 102 103 50).1 2 = some 4000000 ∧
    budgetOf (BuyPlayerOverlapping marketEnv rivalEnv market 102 103 50).1 3 = some 4000000 ∧
    budgetOf (BuyPlayerOverlapping marketEnv rivalEnv market 102 103 50).1 1 = some 6000000 ∧
    ownerOf (BuyPlayerOverlapping marketEnv rivalEnv market 102 103 50).1 10 = some (some 3) ∧
    (BuyPlayerOverlapping marketEnv rivalEnv market 102 103 50).1.transfers
      = [soldTransfer marketEnv marketLocals, soldTransfer rivalEnv rivalLocals] := by
  rw [market_overlapping]
  have e1 : buyerTeam.Budget - F64.fin activeListing.AskingPrice = 4000000 := by
    decide!
  have e2 : rivalTeam.Budget - F64.fin activeListing.AskingPrice = 4000000 := by
    decide!
  have e3 : sellerTeam.Budget + F64.fin activeListing.AskingPrice = 6000000 := by
    decide!
  refine ⟨rfl, rfl, ?_, ?_, ?_, rfl, rfl⟩
  · rw [← e1]; rfl
  · rw [← e2]; rfl
  · rw [← e3]; rfl

/-- C5, amended. For two `BuyPlayer` calls on the same listing made one after the other, by any
two callers: if the first call succeeds, the second returns an error and the store it was
given, so that only the first buyer's budget has changed and the transfers table is the
old one followed by the first call's record alone. -/
theorem BuyPlayer_serial_calls_at_most_one (env1 env2 : BuyEnv) (f1 f2 : BuyFaults)
    (s : Store) (user1 user2 listingID : UUID) (t1 : Transfer)
    (hok : (BuyPlayer env1 f1 s user1 listingID).2 = Except.ok t1) :
    (∃ e, (BuyPlayer env2 f2 (BuyPlayer env1 f1 s user1 listingID).1 user2 listingID).2
      = Except.error e) ∧
    (BuyPlayer env2 f2 (BuyPlayer env1 f1 s user1 listingID).1 user2 listingID).1
      = (BuyPlayer env1 f1 s user1 listingID).1 ∧
    (BuyPlayer env2 f2 (BuyPlayer env1 f1 s user1 listingID).1 user2 listingID).1.transfers
      = s.transfers ++ [t1] := by
  obtain ⟨e, he, -⟩ := buyPlayerChecks_closed f2 user2 (closedListing_of_BuyPlayer_ok hok)
  rw [BuyPlayer_of_checks_error he]
  obtain ⟨v, -, hs', ht⟩ := BuyPlayer_ok hok
  refine ⟨⟨e, rfl⟩, rfl, ?_⟩
  show (BuyPlayer env1 f1 s user1 listingID).1.transfers = _
  rw [hs', soldStore_transfers, ht]

/-- Witness for C5 as amended: the second team buys listing 50, then the third team tries. -/
theorem BuyPlayer_serial_calls_at_most_one_witness :
    (∃ e, (BuyPlayer rivalEnv BuyFaults.none
        (BuyPlayer marketEnv BuyFaults.none market 102 50).1 103 50).2 = Except.error e) ∧
    (BuyPlayer rivalEnv BuyFaults.none
        (BuyPlayer marketEnv BuyFaults.none market 102 50).1 103 50).1
      = (BuyPlayer marketEnv BuyFaults.none market 102 50).1 ∧
    (BuyPlayer rivalEnv BuyFaults.none
        (BuyPlayer marketEnv BuyFaults.none market 102 50).1 103 50).1.transfers
      = market.transfers ++ [soldTransfer marketEnv marketLocals] :=
  BuyPlayer_serial_calls_at_most_one marketEnv rivalEnv BuyFaults.none BuyFaults.none market
    102 103 50 (soldTransfer marketEnv marketLocals) (by rw [market_buy])

/-! ## Budgets stay non-negative -/

theorem budgetsNonneg_congr {s s' : Store} (h : s'.teams = s.teams) (hb : budgetsNonneg s) :
    budgetsNonneg s' := by
  unfold budgetsNonneg at *; rw [h]; exact hb

theorem activePricesNonneg_congr {s s' : Store} (h : s'.listings = s.listings)
    (hp : activePricesNonneg s) : activePricesNonneg s' := by
  unfold activePricesNonneg at *; rw [h]; exact hp

theorem budgetsNonneg_Update {s : Store} (team : Team) (ht : 0 ≤ team.Budget)
    (hb : budgetsNonneg s) : budgetsNonneg (teamRepo.Update s team) := by
  intro t hmem
  unfold teamRepo.Update at hmem
  simp only [List.mem_map] at hmem
  obtain ⟨row, hrow, rfl⟩ := hmem
  split
  · exact ht
  · exact hb row hrow

theorem budgetsNonneg_Create {s : Store} (team : Team) (ht : 0 ≤ team.Budget)
    (hb : budgetsNonneg s) : budgetsNonneg (teamRepo.Create s team) := by
  intro t hmem
  unfold teamRepo.Create at hmem
  simp only [List.mem_append, List.mem_singleton] at hmem
  rcases hmem with h | h
  · exact hb t h
  · rw [h]; exact ht

theorem activePricesNonneg_UpdateListing {s : Store} (listing : TransferListing)
    (hst : listing.Status ≠ TransferStatusActive) (hp : activePricesNonneg s) :
    activePricesNonneg (transferRepo.UpdateListing s listing) := by
  intro l hmem hact
  unfold transferRepo.UpdateListing at hmem
  simp only [List.mem_map] at hmem
  obtain ⟨row, hrow, rfl⟩ := hmem
  split at hact
  · exact absurd hact hst
  · next hid =>
    simp only [hid, if_false]
    exact hp row hrow hact

theorem activePricesNonneg_CreateListing {s : Store} (listing : TransferListing)
    (hl : 0 ≤ listing.AskingPrice) (hp : activePricesNonneg s) :
    activePricesNonneg (transferRepo.CreateListing s listing) := by
  intro l hmem hact
  unfold transferRepo.CreateListing at hmem
  simp only [List.mem_append, List.mem_singleton] at hmem
  rcases hmem with h | h
  · exact hp l h hact
  · rw [h]; exact hl

/-- The two properties together are kept by every outcome of `BuyPlayer`. -/
theorem nonneg_BuyPlayer (env : BuyEnv) (f : BuyFaults) {s : Store} (userID listingID : UUID)
    (hb : budgetsNonneg s) (hp : activePricesNonneg s) :
    budgetsNonneg (BuyPlayer env f s userID listingID).1 ∧
    activePricesNonneg (BuyPlayer env f s userID listingID).1 := by
  rcases BuyPlayer_store_cases env f s userID listingID with h | ⟨v, hv, h⟩
  · rw [h]; exact ⟨hb, hp⟩
  · obtain ⟨c1, c2, c3, -, -, -, c7, -, c9⟩ := buyPlayerChecks_ok hv
    have hprice : 0 ≤ v.listing.AskingPrice := hp _ (mem_of_GetListingByID c2).1 c3
    have hbuyer : 0 ≤ (v.buyerTeam.DeductBudget v.listing.AskingPrice env.now).Budget :=
      F64.sub_fin_nonneg c7
    have hseller : 0 ≤ (v.sellerTeam.AddBudget v.listing.AskingPrice env.now).Budget :=
      F64.add_fin_nonneg (hb _ (mem_of_GetByID c9).1) hprice
    have hb0 : budgetsNonneg (afterPlayerUpdate env s v) := budgetsNonneg_congr rfl hb
    have hb1 : budgetsNonneg (afterBuyerUpdate env s v) := budgetsNonneg_Update _ hbuyer hb0
    have hb2 : budgetsNonneg (afterSellerUpdate env s v) := budgetsNonneg_Update _ hseller hb1
    have hp2 : activePricesNonneg (afterSellerUpdate env s v) :=
      activePricesNonneg_congr rfl hp
    have hp3 : activePricesNonneg (afterListingUpdate env s v) :=
      activePricesNonneg_UpdateListing _ (by simp [TransferListing.MarkAsSold]) hp2
    rcases h with h | h | h | h | h <;> rw [h]
    · exact ⟨hb0, activePricesNonneg_congr rfl hp⟩
    · exact ⟨hb1, activePricesNonneg_congr rfl hp⟩
    · exact ⟨hb2, hp2⟩
    · exact ⟨budgetsNonneg_congr rfl hb2, hp3⟩
    · exact ⟨budgetsNonneg_congr (s := afterSellerUpdate env s v) rfl hb2,
        activePricesNonneg_congr (s := afterListingUpdate env s v) rfl hp3⟩

theorem nonneg_step {s : Store} (op : Op) (hb : budgetsNonneg s) (hp : activePricesNonneg s) :
    budgetsNonneg (step s op) ∧ activePricesNonneg (step s op) := by
  cases op with
  | register env f email password =>
    have hnew : ∀ u n, (0 : F64) ≤ (NewTeam env.teamID env.now u n "Unknown").Budget := by
      intro u n
      show (0 : F64) ≤ InitialBudget
      decide!
    rcases Register_store_cases env f s email password with h | ⟨u, n, h | h | h⟩ <;>
      simp only [step, h]
    · exact ⟨hb, hp⟩
    · exact ⟨budgetsNonneg_congr rfl hb, activePricesNonneg_congr rfl hp⟩
    · exact ⟨budgetsNonneg_Create _ (hnew _ _) (budgetsNonneg_congr (s := s) rfl hb),
        activePricesNonneg_congr rfl hp⟩
    · exact ⟨budgetsNonneg_congr
          (s := teamRepo.Create s (NewTeam env.teamID env.now u.ID n "Unknown")) rfl
          (budgetsNonneg_Create _ (hnew _ _) hb),
        activePricesNonneg_congr rfl hp⟩
  | listPlayer env f userID playerID askingPrice =>
    rcases ListPlayer_store_cases env f s userID playerID askingPrice with h | ⟨pid, hpos, h⟩ <;>
      simp only [step, h]
    · exact ⟨hb, hp⟩
    · exact ⟨budgetsNonneg_congr rfl hb,
        activePricesNonneg_CreateListing _ (le_of_lt hpos) hp⟩
  | removeFromTransferList f userID playerID =>
    rcases RemoveFromTransferList_store_cases f s userID playerID with h | ⟨l, h⟩ <;>
      simp only [step, h]
    · exact ⟨hb, hp⟩
    · exact ⟨budgetsNonneg_congr rfl hb,
        activePricesNonneg_UpdateListing _ (by simp [TransferListing.Cancel]) hp⟩
  | buyPlayer env f userID listingID => exact nonneg_BuyPlayer env f userID listingID hb hp
  | updateTeam f userID name country =>
    rcases UpdateTeam_store_cases f s userID name country with h | ⟨t, ht, h⟩ <;>
      simp only [step, h]
    · exact ⟨hb, hp⟩
    · exact ⟨budgetsNonneg_Update _ (hb t ht) hb, activePricesNonneg_congr rfl hp⟩
  | updatePlayer f userID playerID firstName lastName country =>
    rcases UpdatePlayer_store_cases f s userID playerID firstName lastName country with
      h | ⟨q, h⟩ <;> simp only [step, h]
    · exact ⟨hb, hp⟩
    · exact ⟨budgetsNonneg_congr rfl hb, activePricesNonneg_congr rfl hp⟩

theorem nonneg_run (ops : List Op) :
    ∀ {s : Store}, budgetsNonneg s → activePricesNonneg s →
      budgetsNonneg (run s ops) ∧ activePricesNonneg (run s ops) := by
  induction ops with
  | nil => intro s hb hp; exact ⟨hb, hp⟩
  | cons op ops ih =>
    intro s hb hp
    have h := nonneg_step op hb hp
    exact ih h.1 h.2

/-- C10. Starting from a store in which every team budget is non-negative and no Active
listing asks a negative price (`ListPlayer` creates no other listing), after any finite
sequence of Register, ListPlayer, RemoveFromTransferList, BuyPlayer, UpdateTeam and
UpdatePlayer calls, successful or failed, executed one at a time, every team budget is
still non-negative and still no Active listing asks a negative price; in particular this
holds of every store that a sequence of calls reaches from the empty database.  Budgets
are `float64` values: a purchase is made only if the price is at most the budget, and the
rounded difference of a budget and a smaller price is not negative.  Proved for arbitrary
repository failures, hence in particular for repositories that do not fail. -/
theorem budgets_never_negative (s : Store) (ops : List Op)
    (hb : budgetsNonneg s) (hp : activePricesNonneg s) :
    budgetsNonneg (run s ops) ∧ activePricesNonneg (run s ops) ∧
    ∀ calls : List Op, budgetsNonneg (run emptyStore calls) :=
  ⟨(nonneg_run ops hb hp).1, (nonneg_run ops hb hp).2,
    fun calls => (nonneg_run calls (s := emptyStore) (fun _ h => by simp [emptyStore] at h)
      (fun _ h => by simp [emptyStore] at h)).1⟩

theorem market_nonneg : budgetsNonneg market ∧ activePricesNonneg market := by
  constructor
  · intro t ht
    simp only [market, List.mem_cons, List.mem_singleton, List.not_mem_nil, or_false] at ht
    rcases ht with h | h | h <;> rw [h] <;> decide!
  · intro l hl _
    simp only [market, List.mem_singleton] at hl
    rw [hl]; norm_num [activeListing]

/-- Witness for C10: the market, a purchase of listing 50 and two later calls. -/
theorem budgets_never_negative_witness :
    budgetsNonneg
      (run market (Op.buyPlayer marketEnv BuyFaults.none 102 50 :: laterCalls)) :=
  (budgets_never_negative market (Op.buyPlayer marketEnv BuyFaults.none 102 50 :: laterCalls)
    market_nonneg.1 market_nonneg.2).1

/-! ## ListPlayer -/

theorem GetListingByPlayerID_ok {s : Store} {playerID : UUID} {l : TransferListing}
    (h : transferRepo.GetListingByPlayerID s playerID = Except.ok l) :
    l ∈ s.listings ∧ l.PlayerID = playerID ∧ l.Status = TransferStatusActive := by
  unfold transferRepo.GetListingByPlayerID at h
  split at h
  · next t ht =>
    injection h with h
    subst h
    have := List.find?_some ht
    simp only [Bool.and_eq_true, beq_iff_eq, decide_eq_true_eq] at this
    exact ⟨List.mem_of_find?_eq_some ht, this.1, this.2⟩
  · simp at h

/-- The lookup finds nothing exactly when the player has no Active listing. -/
theorem GetListingByPlayerID_none {s : Store} {playerID : UUID}
    (h : ∀ l ∈ s.listings, l.PlayerID = playerID → l.Status ≠ TransferStatusActive) :
    transferRepo.GetListingByPlayerID s playerID = Except.error ErrTransferListingNotFound := by
  unfold transferRepo.GetListingByPlayerID
  have hnone : s.listings.find?
      (fun l => l.PlayerID == playerID && decide (l.Status = TransferStatusActive)) = none := by
    rw [List.find?_eq_none]
    intro l hl
    simp only [Bool.and_eq_true, beq_iff_eq, decide_eq_true_eq, not_and]
    exact h l hl
  rw [hnone]

theorem GetListingByPlayerID_error {s : Store} {playerID : UUID} {e : Err}
    (h : transferRepo.GetListingByPlayerID s playerID = Except.error e) :
    ∀ l ∈ s.listings, l.PlayerID = playerID → l.Status ≠ TransferStatusActive := by
  unfold transferRepo.GetListingByPlayerID at h
  split at h
  · simp at h
  · next hnone =>
    rw [List.find?_eq_none] at hnone
    intro l hl hp hact
    exact hnone l hl (by simp [hp, hact])

/-- The first two loads of `ListPlayer` and the ownership check. -/
theorem ListPlayer_after_loads {env : ListEnv} {f : ListFaults} {s : Store}
    {userID playerID : UUID} {askingPrice : ℚ} {T : Team} {p : Player}
    (hf1 : f.getByUserID = none) (hf2 : f.getPlayerByID = none)
    (hT : teamRepo.GetByUserID s userID = Except.ok T)
    (hp : playerRepo.GetByID s playerID = Except.ok p) :
    ListPlayer env f s userID playerID askingPrice =
      if !p.IsOwnedBy T.ID then (s, Except.error ErrPlayerNotOwned) else
      if Option.any (fun l : TransferListing => l.IsActive)
          (match callRepo f.getListingByPlayerID
            (transferRepo.GetListingByPlayerID s playerID) with
          | Except.error _ => Option.none
          | Except.ok l => some l)
      then (s, Except.error ErrPlayerAlreadyListed) else
      if askingPrice ≤ 0 then (s, Except.error ErrInvalidAskingPrice) else
      match execRepo f.createListing s (transferRepo.CreateListing s
          (NewTransferListing env.listingID env.now p.ID askingPrice)) with
      | (s1, Except.error e) => (s1, Except.error e)
      | (s1, Except.ok _) =>
        (s1, Except.ok (NewTransferListing env.listingID env.now p.ID askingPrice)) := by
  unfold ListPlayer
  simp only [hf1, hf2, callRepo_none, hT, hp]

/-- C13. For a caller with a team `T` and a stored player `p` that `T` does not own, `ListPlayer`
fails with `ErrPlayerNotOwned` and returns the store it was given (no listing is created),
whatever the asking price, whatever listings exist for the player and whatever the later
repository calls would do. -/
theorem ListPlayer_not_owned (env : ListEnv) (f : ListFaults) (s : Store)
    (userID playerID : UUID) (askingPrice : ℚ) (T : Team) (p : Player)
    (hf1 : f.getByUserID = none) (hf2 : f.getPlayerByID = none)
    (hT : teamRepo.GetByUserID s userID = Except.ok T)
    (hp : playerRepo.GetByID s playerID = Except.ok p)
    (hown : p.IsOwnedBy T.ID = false) :
    ListPlayer env f s userID playerID askingPrice = (s, Except.error ErrPlayerNotOwned) := by
  rw [ListPlayer_after_loads hf1 hf2 hT hp]
  simp [hown]

/-- Witness for C13: after the sale of player 10 to the second team, the first team (user 101)
tries to list the player it no longer owns. -/
theorem ListPlayer_not_owned_witness :
    ListPlayer listEnv ListFaults.none marketAfterSale 101 10 2000000
      = (marketAfterSale, Except.error ErrPlayerNotOwned) :=
  ListPlayer_not_owned listEnv ListFaults.none marketAfterSale 101 10 2000000
    (Team.mk 1 101 "FC United" "Unknown" (sellerTeam.Budget + F64.fin activeListing.AskingPrice) 0 2)
    (soldPlayer marketEnv marketLocals) rfl rfl rfl rfl rfl

/-- Inversion of `ListPlayer`: a returned listing means that the caller's team owns the
player, that the price is positive, that the lookup, if it answered, found no Active
listing of the player, and that the store is the old one with the new listing appended. -/
theorem ListPlayer_ok {env : ListEnv} {f : ListFaults} {s : Store} {userID playerID : UUID}
    {askingPrice : ℚ} {l : TransferListing}
    (h : (ListPlayer env f s userID playerID askingPrice).2 = Except.ok l) :
    ∃ T p, teamRepo.GetByUserID s userID = Except.ok T ∧
      playerRepo.GetByID s playerID = Except.ok p ∧
      p.IsOwnedBy T.ID = true ∧
      0 < askingPrice ∧
      l = NewTransferListing env.listingID env.now playerID askingPrice ∧
      (ListPlayer env f s userID playerID askingPrice).1 = transferRepo.CreateListing s l ∧
      (f.getListingByPlayerID = none →
        ∀ r ∈ s.listings, r.PlayerID = playerID → r.Status ≠ TransferStatusActive) := by
  unfold ListPlayer at h ⊢
  split at h
  · simp at h
  · next T hT =>
    split at h
    · simp at h
    · next p hp =>
      have hT2 := (callRepo_ok hT).2
      have hp2 := (callRepo_ok hp).2
      have hpid : p.ID = playerID := (mem_of_playerGetByID hp2).2.1
      simp only [hT, hp]
      split at h
      · simp at h
      · next hown =>
        simp only at h
        split at h
        · simp at h
        · next hex =>
          split at h
          · simp at h
          · next hprice =>
            cases hflt : f.createListing with
            | some c => rw [hflt] at h; simp [execRepo_some] at h
            | none =>
              rw [hflt] at h
              simp only [execRepo_none, Except.ok.injEq] at h
              simp only [hown, hex, hprice, hflt, execRepo_none, if_false]
              refine ⟨T, p, hT2, hp2, by simpa using hown, not_le.mp hprice, ?_, ?_, ?_⟩
              · rw [← h, hpid]
              · rw [← h]; simp
              · intro hlk
                rw [hlk, callRepo_none] at hex
                cases hg : transferRepo.GetListingByPlayerID s playerID with
                | error e => exact GetListingByPlayerID_error hg
                | ok r =>
                  rw [hg] at hex
                  have := (GetListingByPlayerID_ok hg).2.2
                  simp [TransferListing.IsActive, this] at hex

/-- Converse of `ListPlayer_ok`: an owned player for whom the lookup yields no Active listing
(it found none, or it failed) is listed at any positive price when the insert goes
through. -/
theorem ListPlayer_creates {env : ListEnv} {f : ListFaults} {s : Store}
    {userID playerID : UUID} {askingPrice : ℚ} {T : Team} {p : Player}
    (hf1 : f.getByUserID = none) (hf2 : f.getPlayerByID = none)
    (hf4 : f.createListing = none)
    (hT : teamRepo.GetByUserID s userID = Except.ok T)
    (hp : playerRepo.GetByID s playerID = Except.ok p)
    (hown : p.IsOwnedBy T.ID = true)
    (hex : ∀ l, callRepo f.getListingByPlayerID (transferRepo.GetListingByPlayerID s playerID)
      ≠ Except.ok l)
    (hprice : 0 < askingPrice) :
    ListPlayer env f s userID playerID askingPrice
      = (transferRepo.CreateListing s
          (NewTransferListing env.listingID env.now playerID askingPrice),
         Except.ok (NewTransferListing env.listingID env.now playerID askingPrice)) := by
  rw [ListPlayer_after_loads hf1 hf2 hT hp]
  have hpid : p.ID = playerID := (mem_of_playerGetByID hp).2.1
  cases hg : callRepo f.getListingByPlayerID (transferRepo.GetListingByPlayerID s playerID) with
  | ok l => exact absurd hg (hex l)
  | error e =>
    simp [hown, not_le.mpr hprice, hf4, execRepo_none, hpid]

/-- C14. For a caller with a team `T` that owns the stored player `p`, with the listing lookup
answering: if some stored listing of the player is Active, `ListPlayer` fails with
`ErrPlayerAlreadyListed` and returns the store it was given; if every stored listing of the
player is Sold or Cancelled, `ListPlayer` never fails with `ErrPlayerAlreadyListed`, and at
a positive price, with the insert going through, it creates a new Active listing. -/
theorem ListPlayer_already_listed (env : ListEnv) (f : ListFaults) (s : Store)
    (userID playerID : UUID) (askingPrice : ℚ) (T : Team) (p : Player)
    (hf1 : f.getByUserID = none) (hf2 : f.getPlayerByID = none)
    (hf3 : f.getListingByPlayerID = none)
    (hT : teamRepo.GetByUserID s userID = Except.ok T)
    (hp : playerRepo.GetByID s playerID = Except.ok p)
    (hown : p.IsOwnedBy T.ID = true) :
    ((∃ l ∈ s.listings, l.PlayerID = playerID ∧ l.Status = TransferStatusActive) →
      ListPlayer env f s userID playerID askingPrice
        = (s, Except.error ErrPlayerAlreadyListed)) ∧
    ((∀ l ∈ s.listings, l.PlayerID = playerID → l.Status ≠ TransferStatusActive) →
      (ListPlayer env f s userID playerID askingPrice).2
        ≠ Except.error ErrPlayerAlreadyListed ∧
      (0 < askingPrice → f.createListing = none →
        ListPlayer env f s userID playerID askingPrice
          = (transferRepo.CreateListing s
              (NewTransferListing env.listingID env.now playerID askingPrice),
             Except.ok (NewTransferListing env.listingID env.now playerID askingPrice)))) := by
  constructor
  · rintro ⟨l, hl, hlp, hact⟩
    rw [ListPlayer_after_loads hf1 hf2 hT hp]
    cases hg : transferRepo.GetListingByPlayerID s playerID with
    | error e => exact absurd hact (GetListingByPlayerID_error hg l hl hlp)
    | ok r =>
      have := (GetListingByPlayerID_ok hg).2.2
      simp [hown, hf3, callRepo_none, hg, TransferListing.IsActive, this]
  · intro hnone
    have hg := GetListingByPlayerID_none hnone
    have hex : ∀ l, callRepo f.getListingByPlayerID
        (transferRepo.GetListingByPlayerID s playerID) ≠ Except.ok l := by
      intro l
      rw [hf3, callRepo_none, hg]
      simp
    constructor
    · rw [ListPlayer_after_loads hf1 hf2 hT hp]
      simp only [hown, hf3, callRepo_none, hg, Bool.not_true, Bool.false_eq_true, if_false,
        Option.any_none]
      split
      · simp
      · cases hflt : f.createListing with
        | some c => simp [execRepo_some]
        | none => simp [execRepo_none]
    · intro hprice hf4
      exact ListPlayer_creates hf1 hf2 hf4 hT hp hown hex hprice

theorem withdrawnMarket_list :
    ListPlayer listEnv ListFaults.none withdrawnMarket 101 10 2000000
      = (transferRepo.CreateListing withdrawnMarket (NewTransferListing 51 4 10 2000000),
         Except.ok (NewTransferListing 51 4 10 2000000)) :=
  @ListPlayer_creates listEnv ListFaults.none withdrawnMarket 101 10 2000000 sellerTeam
    listedPlayer rfl rfl rfl rfl rfl rfl (by intro l; simp [callRepo, ListFaults.none,
      transferRepo.GetListingByPlayerID, withdrawnMarket, TransferListing.Cancel,
      activeListing]) (by norm_num)

/-- Witness for C14: in the market player 10 is already listed, and the first team's second
listing is refused; with listing 50 withdrawn, the player is listed again. -/
theorem ListPlayer_already_listed_witness :
    ListPlayer listEnv ListFaults.none market 101 10 2000000
      = (market, Except.error ErrPlayerAlreadyListed) ∧
    ListPlayer listEnv ListFaults.none withdrawnMarket 101 10 2000000
      = (transferRepo.CreateListing withdrawnMarket (NewTransferListing 51 4 10 2000000),
         Except.ok (NewTransferListing 51 4 10 2000000)) :=
  ⟨(ListPlayer_already_listed listEnv ListFaults.none market 101 10 2000000 sellerTeam
      listedPlayer rfl rfl rfl rfl rfl rfl).1 ⟨activeListing, by decide, rfl, rfl⟩,
   ((ListPlayer_already_listed listEnv ListFaults.none withdrawnMarket 101 10 2000000
      sellerTeam listedPlayer rfl rfl rfl rfl rfl rfl).2 (by decide)).2 (by norm_num) rfl⟩

/-- C15. For a caller with a team `T` that owns the stored player `p`, when no stored listing of
the player is Active and the asking price is zero or negative, `ListPlayer` fails with
`ErrInvalidAskingPrice` and returns the store it was given; and every listing that any
`ListPlayer` call returns carries the requested price, which is strictly positive. -/
theorem ListPlayer_invalid_price (env : ListEnv) (f : ListFaults) (s : Store)
    (userID playerID : UUID) (askingPrice : ℚ) :
    (∀ T p, f.getByUserID = none → f.getPlayerByID = none →
      teamRepo.GetByUserID s userID = Except.ok T →
      playerRepo.GetByID s playerID = Except.ok p →
      p.IsOwnedBy T.ID = true →
      (∀ l ∈ s.listings, l.PlayerID = playerID → l.Status ≠ TransferStatusActive) →
      askingPrice ≤ 0 →
      ListPlayer env f s userID playerID askingPrice
        = (s, Except.error ErrInvalidAskingPrice)) ∧
    (∀ l, (ListPlayer env f s userID playerID askingPrice).2 = Except.ok l →
      l.AskingPrice = askingPrice ∧ 0 < l.AskingPrice ∧
      l ∈ (ListPlayer env f s userID playerID askingPrice).1.listings) := by
  constructor
  · intro T p hf1 hf2 hT hp hown hnone hprice
    rw [ListPlayer_after_loads hf1 hf2 hT hp]
    have hg := GetListingByPlayerID_none hnone
    cases hflt : f.getListingByPlayerID with
    | some c => simp [hown, callRepo, hprice]
    | none => simp [hown, callRepo_none, hg, hprice]
  · intro l hl
    obtain ⟨T, p, -, -, -, hpos, hnew, hstore, -⟩ := ListPlayer_ok hl
    rw [hstore]
    refine ⟨by rw [hnew]; rfl, by rw [hnew]; exact hpos, ?_⟩
    simp [transferRepo.CreateListing]

/-- Witness for C15: with listing 50 withdrawn, the first team asks 0 for player 10 and is
refused; asking 2,000,000 it gets a listing at that price. -/
theorem ListPlayer_invalid_price_witness :
    ListPlayer listEnv ListFaults.none withdrawnMarket 101 10 0
      = (withdrawnMarket, Except.error ErrInvalidAskingPrice) ∧
    (NewTransferListing 51 4 10 2000000).AskingPrice = 2000000 ∧
    0 < (NewTransferListing 51 4 10 2000000).AskingPrice :=
  have h := withdrawnMarket_list
  ⟨(ListPlayer_invalid_price listEnv ListFaults.none withdrawnMarket 101 10 0).1 sellerTeam
      listedPlayer rfl rfl rfl rfl rfl (by decide) (le_refl 0),
   ((ListPlayer_invalid_price listEnv ListFaults.none withdrawnMarket 101 10 2000000).2
      (NewTransferListing 51 4 10 2000000) (by rw [h])).1,
   ((ListPlayer_invalid_price listEnv ListFaults.none withdrawnMarket 101 10 2000000).2
      (NewTransferListing 51 4 10 2000000) (by rw [h])).2.1⟩

/-! ## Round trip of a listing -/

theorem UpdateListing_mem {s : Store} {listing r : TransferListing}
    (h : r ∈ (transferRepo.UpdateListing s listing).listings) :
    ∃ r0 ∈ s.listings, (r0.ID = listing.ID ∧ r.Status = listing.Status ∧
        r.PlayerID = r0.PlayerID ∧ r.ID = r0.ID) ∨ (r0.ID ≠ listing.ID ∧ r = r0) := by
  unfold transferRepo.UpdateListing at h
  simp only [List.mem_map] at h
  obtain ⟨r0, hr0, rfl⟩ := h
  refine ⟨r0, hr0, ?_⟩
  by_cases hid : r0.ID = listing.ID
  · left; simp [hid]
  · right; simp [hid]

/-- C16. After a successful `ListPlayer` for a player at a price, made with the listing lookup
answering, the Active-listing lookup by player returns exactly the listing that
`ListPlayer` returned, which carries the generated id, the player, the price and status
Active; and after a successful `BuyPlayer` on that listing's id, the same lookup finds no
listing for the player. -/
theorem listing_round_trip (env : ListEnv) (f : ListFaults) (s : Store)
    (userID playerID : UUID) (askingPrice : ℚ) (l : TransferListing)
    (hlist : (ListPlayer env f s userID playerID askingPrice).2 = Except.ok l)
    (hlk : f.getListingByPlayerID = none) :
    transferRepo.GetListingByPlayerID (ListPlayer env f s userID playerID askingPrice).1
      playerID = Except.ok l ∧
    l.ID = env.listingID ∧ l.PlayerID = playerID ∧ l.AskingPrice = askingPrice ∧
    l.Status = TransferStatusActive ∧
    ∀ (envB : BuyEnv) (fB : BuyFaults) (buyer : UUID) (t : Transfer),
      (BuyPlayer envB fB (ListPlayer env f s userID playerID askingPrice).1 buyer l.ID).2
        = Except.ok t →
      transferRepo.GetListingByPlayerID
        (BuyPlayer envB fB (ListPlayer env f s userID playerID askingPrice).1 buyer l.ID).1
        playerID = Except.error ErrTransferListingNotFound := by
  obtain ⟨T, p, -, -, -, -, hnew, hstore, hnone⟩ := ListPlayer_ok hlist
  have hnone := hnone hlk
  have hfind0 : s.listings.find?
      (fun r => r.PlayerID == playerID && decide (r.Status = TransferStatusActive)) = none := by
    rw [List.find?_eq_none]
    intro r hr
    simp only [Bool.and_eq_true, beq_iff_eq, decide_eq_true_eq, not_and]
    exact hnone r hr
  have hl1 : l.PlayerID = playerID := by rw [hnew]; rfl
  have hl2 : l.Status = TransferStatusActive := by rw [hnew]; rfl
  rw [hstore]
  refine ⟨?_, by rw [hnew]; rfl, hl1, by rw [hnew]; rfl, hl2, ?_⟩
  · unfold transferRepo.GetListingByPlayerID transferRepo.CreateListing
    simp [List.find?_append, hfind0, hl1, hl2]
  · intro envB fB buyer t hok
    obtain ⟨v, hv, hs', -⟩ := BuyPlayer_ok hok
    obtain ⟨-, c2, -, -, -, -, -, -, -⟩ := buyPlayerChecks_ok hv
    have hvid : v.listing.ID = l.ID := (mem_of_GetListingByID c2).2.1
    rw [hs']
    apply GetListingByPlayerID_none
    intro r hr hrp hact
    have hr' : r ∈ (transferRepo.UpdateListing (transferRepo.CreateListing s l)
        v.listing.MarkAsSold).listings := hr
    obtain ⟨r0, hr0, h | h⟩ := UpdateListing_mem hr'
    · rw [h.2.1] at hact
      simp [TransferListing.MarkAsSold] at hact
    · obtain ⟨hne, rfl⟩ := h
      unfold transferRepo.CreateListing at hr0
      simp only [List.mem_append, List.mem_singleton] at hr0
      rcases hr0 with h0 | h0
      · exact hnone r h0 hrp hact
      · apply hne
        rw [h0]
        exact hvid.symm

theorem relistedMarket_checks :
    buyPlayerChecks BuyFaults.none relistedMarket 102 51 = Except.ok relistedLocals :=
  buyPlayerChecks_pass rfl rfl rfl rfl rfl (B := buyerTeam) (S := sellerTeam)
    (l := NewTransferListing 51 4 10 2000000) (p := listedPlayer) rfl rfl rfl rfl rfl
    (by decide) (by decide!) (by decide) rfl

theorem relistedMarket_buy :
    BuyPlayer marketEnv BuyFaults.none relistedMarket 102 51
      = (soldStore marketEnv relistedMarket relistedLocals,
         Except.ok (soldTransfer marketEnv relistedLocals)) := by
  rw [BuyPlayer_of_checks_ok relistedMarket_checks]
  exact buyPlayerWrites_none _ _ _ _ rfl rfl rfl rfl rfl

/-- Witness for C16: with listing 50 withdrawn, the first team lists player 10 again as listing
51, the lookup returns listing 51, and once the second team has bought it the lookup finds
nothing. -/
theorem listing_round_trip_witness :
    transferRepo.GetListingByPlayerID
        (ListPlayer listEnv ListFaults.none withdrawnMarket 101 10 2000000).1 10
      = Except.ok (NewTransferListing 51 4 10 2000000) ∧
    transferRepo.GetListingByPlayerID
        (BuyPlayer marketEnv BuyFaults.none
          (ListPlayer listEnv ListFaults.none withdrawnMarket 101 10 2000000).1 102 51).1 10
      = Except.error ErrTransferListingNotFound :=
  have h := listing_round_trip listEnv ListFaults.none withdrawnMarket 101 10 2000000
    (NewTransferListing 51 4 10 2000000) (by rw [withdrawnMarket_list]) rfl
  ⟨h.1, h.2.2.2.2.2 marketEnv BuyFaults.none 102 (soldTransfer marketEnv relistedLocals)
    (by rw [withdrawnMarket_list]; exact congrArg Prod.snd relistedMarket_buy)⟩

/-! ## RemoveFromTransferList -/

theorem RemoveFromTransferList_after_loads {f : RemoveFaults} {s : Store}
    {userID playerID : UUID} {T : Team} {p : Player}
    (hf1 : f.getByUserID = none) (hf2 : f.getPlayerByID = none)
    (hT : teamRepo.GetByUserID s userID = Except.ok T)
    (hp : playerRepo.GetByID s playerID = Except.ok p) :
    RemoveFromTransferList f s userID playerID =
      if !p.IsOwnedBy T.ID then (s, Except.error ErrPlayerNotOwned) else
      match callRepo f.getListingByPlayerID (transferRepo.GetListingByPlayerID s playerID) with
      | Except.error _ => (s, Except.error ErrPlayerNotOnTransferList)
      | Except.ok listing =>
      match execRepo f.updateListing s (transferRepo.UpdateListing s listing.Cancel) with
      | (s1, Except.error e) => (s1, Except.error e)
      | (s1, Except.ok _) => (s1, Except.ok ()) := by
  unfold RemoveFromTransferList
  simp only [hf1, hf2, callRepo_none, hT, hp]

/-- With unique listing ids, `UpdateListing` rewrites the one row it was given and no other. -/
theorem UpdateListing_replaces {s : Store} (hkey : (s.listings.map TransferListing.ID).Nodup)
    {l : TransferListing} (hl : l ∈ s.listings) (l' : TransferListing)
    (hid : l'.ID = l.ID) (hpl : l'.PlayerID = l.PlayerID) (hat : l'.ListedAt = l.ListedAt) :
    transferRepo.UpdateListing s l'
      = { s with listings := s.listings.map (fun r => if r = l then l' else r) } := by
  unfold transferRepo.UpdateListing
  congr 1
  apply List.map_congr_left
  intro r hr
  by_cases hrl : r = l
  · subst hrl
    simp only [hid, beq_self_eq_true, if_true]
    cases l'
    cases r
    simp_all
  · have hne : r.ID ≠ l'.ID := by
      intro he
      exact hrl (List.inj_on_of_nodup_map hkey hr hl (he.trans hid))
    simp [hne, hrl]

/-- C17. For a caller with a team `T` and a stored player `p`, with repositories that do not
fail: if `T` does not own `p`, `RemoveFromTransferList` fails with `ErrPlayerNotOwned`; if
`T` owns `p` and no stored listing of the player is Active, it fails with
`ErrPlayerNotOnTransferList`; in both cases it returns the store it was given.  If `T`
owns `p` and the lookup finds the Active listing `l`, it succeeds, and the store it leaves
is the old store with the row `l` replaced by `l` with status Cancelled: every other
listing, every player, every team, every user and every Transfer record is as before.
Listing ids are unique (they are the key of the table). -/
theorem RemoveFromTransferList_cancels (s : Store) (userID playerID : UUID) (T : Team)
    (p : Player)
    (hT : teamRepo.GetByUserID s userID = Except.ok T)
    (hp : playerRepo.GetByID s playerID = Except.ok p) :
    (p.IsOwnedBy T.ID = false →
      RemoveFromTransferList RemoveFaults.none s userID playerID
        = (s, Except.error ErrPlayerNotOwned)) ∧
    (p.IsOwnedBy T.ID = true →
      (∀ l ∈ s.listings, l.PlayerID = playerID → l.Status ≠ TransferStatusActive) →
      RemoveFromTransferList RemoveFaults.none s userID playerID
        = (s, Except.error ErrPlayerNotOnTransferList)) ∧
    (p.IsOwnedBy T.ID = true → (s.listings.map TransferListing.ID).Nodup →
      ∀ l, transferRepo.GetListingByPlayerID s playerID = Except.ok l →
      l.Cancel.Status = TransferStatusCancelled ∧
      RemoveFromTransferList RemoveFaults.none s userID playerID
        = ({ s with listings := s.listings.map (fun r => if r = l then l.Cancel else r) },
           Except.ok ())) := by
  have hloads := @RemoveFromTransferList_after_loads RemoveFaults.none s userID playerID T p
    rfl rfl hT hp
  refine ⟨?_, ?_, ?_⟩
  · intro hown
    rw [hloads]; simp [hown]
  · intro hown hnone
    rw [hloads]
    simp [hown, RemoveFaults.none, callRepo_none, GetListingByPlayerID_none hnone]
  · intro hown hkey l hl
    refine ⟨rfl, ?_⟩
    rw [hloads]
    simp only [hown, RemoveFaults.none, callRepo_none, hl, execRepo_none, Bool.not_true,
      Bool.false_eq_true, if_false]
    rw [UpdateListing_replaces hkey (GetListingByPlayerID_ok hl).1 l.Cancel rfl rfl rfl]

/-- Witness for C17: in the market the first team withdraws player 10, which leaves listing
50 Cancelled and nothing else changed; the second team is refused; and once the listing is
withdrawn a second withdrawal is refused. -/
theorem RemoveFromTransferList_cancels_witness :
    RemoveFromTransferList RemoveFaults.none market 102 10
      = (market, Except.error ErrPlayerNotOwned) ∧
    RemoveFromTransferList RemoveFaults.none withdrawnMarket 101 10
      = (withdrawnMarket, Except.error ErrPlayerNotOnTransferList) ∧
    RemoveFromTransferList RemoveFaults.none market 101 10
      = ({ market with listings :=
            market.listings.map (fun r => if r = activeListing then activeListing.Cancel else r) },
         Except.ok ()) :=
  ⟨(RemoveFromTransferList_cancels market 102 10 buyerTeam listedPlayer rfl rfl).1 rfl,
   (RemoveFromTransferList_cancels withdrawnMarket 101 10 sellerTeam listedPlayer
      rfl rfl).2.1 rfl (by decide),
   ((RemoveFromTransferList_cancels market 101 10 sellerTeam listedPlayer rfl rfl).2.2 rfl
      (by decide) activeListing rfl).2⟩

/-! ## Status changes of stored listings -/

theorem RemoveFromTransferList_store_active (f : RemoveFaults) (s : Store)
    (userID playerID : UUID) :
    (RemoveFromTransferList f s userID playerID).1 = s ∨
    ∃ listing ∈ s.listings, listing.Status = TransferStatusActive ∧
      (RemoveFromTransferList f s userID playerID).1
        = transferRepo.UpdateListing s listing.Cancel := by
  unfold RemoveFromTransferList
  split
  · exact Or.inl rfl
  · split
    · exact Or.inl rfl
    · split
      · exact Or.inl rfl
      · split
        · exact Or.inl rfl
        · next listing hl =>
          have hg := GetListingByPlayerID_ok (callRepo_ok hl).2
          cases hflt : f.updateListing with
          | some c => simp [execRepo_some]
          | none => exact Or.inr ⟨listing, hg.1, hg.2.2, by simp [execRepo_none]⟩

theorem BuyPlayer_listings_cases (env : BuyEnv) (f : BuyFaults) (s : Store)
    (userID listingID : UUID) :
    (BuyPlayer env f s userID listingID).1.listings = s.listings ∨
    ∃ listing ∈ s.listings, listing.Status = TransferStatusActive ∧
      (BuyPlayer env f s userID listingID).1.listings
        = (transferRepo.UpdateListing s listing.MarkAsSold).listings := by
  rcases BuyPlayer_store_cases env f s userID listingID with h | ⟨v, hv, h⟩
  · rw [h]; exact Or.inl rfl
  · obtain ⟨-, c2, c3, -, -, -, -, -, -⟩ := buyPlayerChecks_ok hv
    have hmem := (mem_of_GetListingByID c2).1
    rcases h with h | h | h | h | h <;> rw [h]
    · exact Or.inl rfl
    · exact Or.inl rfl
    · exact Or.inl rfl
    · exact Or.inr ⟨v.listing, hmem, c3, rfl⟩
    · exact Or.inr ⟨v.listing, hmem, c3, rfl⟩

theorem statusOf_congr {s s' : Store} (h : s'.listings = s.listings) (L : UUID) :
    statusOf s' L = statusOf s L := by
  unfold statusOf; rw [h]

theorem statusOf_CreateListing {s : Store} {L : UUID} {st : TransferListingStatus}
    (listing : TransferListing) (h : statusOf s L = some st) :
    statusOf (transferRepo.CreateListing s listing) L = some st := by
  unfold statusOf transferRepo.CreateListing at *
  cases hf : s.listings.find? (fun l => l.ID == L) with
  | none => rw [hf] at h; simp at h
  | some row =>
    rw [hf] at h
    simp only [List.find?_append, hf]
    exact h

/-- With unique listing ids, rewriting the status of a row read as Active changes the status
stored under an id only if that id was Active. -/
theorem statusOf_UpdateListing_of_active {s : Store}
    (hkey : (s.listings.map TransferListing.ID).Nodup) {X : TransferListing}
    (hX : X ∈ s.listings) (hact : X.Status = TransferStatusActive) (Y : TransferListing)
    (hid : Y.ID = X.ID) {L : UUID} {st : TransferListingStatus}
    (h : statusOf s L = some st) :
    statusOf (transferRepo.UpdateListing s Y) L = some st ∨
    (st = TransferStatusActive ∧ statusOf (transferRepo.UpdateListing s Y) L = some Y.Status)
    := by
  unfold statusOf at h ⊢
  rw [UpdateListing_find]
  cases hf : s.listings.find? (fun l => l.ID == L) with
  | none => rw [hf] at h; simp at h
  | some row =>
    rw [hf] at h
    simp only [Option.map_some', Option.some.injEq] at h
    have hrow : row ∈ s.listings := List.mem_of_find?_eq_some hf
    by_cases hrid : row.ID = Y.ID
    · right
      have : row = X := List.inj_on_of_nodup_map hkey hrow hX (hrid.trans hid)
      subst this
      exact ⟨by rw [← h]; exact hact, by simp [hrid]⟩
    · left
      simp [hrid, h]

/-- One call of a use case changes the status stored under a listing id, if at all, from
Active to Sold or from Active to Cancelled. -/
theorem statusOf_step {s : Store} (hkey : (s.listings.map TransferListing.ID).Nodup)
    (op : Op) {L : UUID} {st : TransferListingStatus} (h : statusOf s L = some st) :
    statusOf (step s op) L = some st ∨
    (st = TransferStatusActive ∧
      (statusOf (step s op) L = some TransferStatusSold ∨
       statusOf (step s op) L = some TransferStatusCancelled)) := by
  cases op with
  | register env f email password =>
    left
    rcases Register_store_cases env f s email password with e | ⟨u, n, e | e | e⟩ <;>
      simp only [step, e]
    · exact h
    · exact (statusOf_congr rfl L).trans h
    · exact (statusOf_congr rfl L).trans h
    · exact (statusOf_congr rfl L).trans h
  | listPlayer env f userID playerID askingPrice =>
    left
    rcases ListPlayer_store_cases env f s userID playerID askingPrice with e | ⟨pid, -, e⟩ <;>
      simp only [step, e]
    · exact h
    · exact statusOf_CreateListing _ h
  | removeFromTransferList f userID playerID =>
    rcases RemoveFromTransferList_store_active f s userID playerID with
      e | ⟨X, hX, hact, e⟩ <;> simp only [step, e]
    · exact Or.inl h
    · rcases statusOf_UpdateListing_of_active hkey hX hact X.Cancel rfl h with h1 | ⟨h1, h2⟩
      · exact Or.inl h1
      · exact Or.inr ⟨h1, Or.inr h2⟩
  | buyPlayer env f userID listingID =>
    simp only [step]
    rcases BuyPlayer_listings_cases env f s userID listingID with e | ⟨X, hX, hact, e⟩
    · exact Or.inl ((statusOf_congr e L).trans h)
    · rw [statusOf_congr e L]
      rcases statusOf_UpdateListing_of_active hkey hX hact X.MarkAsSold rfl h with
        h1 | ⟨h1, h2⟩
      · exact Or.inl h1
      · exact Or.inr ⟨h1, Or.inl h2⟩
  | updateTeam f userID name country =>
    left
    rcases UpdateTeam_store_cases f s userID name country with e | ⟨t, -, e⟩ <;>
      simp only [step, e]
    · exact h
    · exact (statusOf_congr rfl L).trans h
  | updatePlayer f userID playerID firstName lastName country =>
    left
    rcases UpdatePlayer_store_cases f s userID playerID firstName lastName country with
      e | ⟨q, e⟩ <;> simp only [step, e]
    · exact h
    · exact (statusOf_congr rfl L).trans h

/-- C18, counterexample. The domain methods are not guarded: `MarkAsSold` turns the Cancelled
listing into a Sold one, and `Cancel` turns the Sold listing into a Cancelled one. -/
theorem MarkAsSold_Cancel_change_terminal_status :
    activeListing.Cancel.Status = TransferStatusCancelled ∧
    activeListing.Cancel.MarkAsSold.Status = TransferStatusSold ∧
    activeListing.MarkAsSold.Status = TransferStatusSold ∧
    activeListing.MarkAsSold.Cancel.Status = TransferStatusCancelled :=
  ⟨rfl, rfl, rfl, rfl⟩

/-- C18, amended. `MarkAsSold` and `Cancel` set the status whatever it was; the use cases apply
them only to listings read as Active.  So for a store with unique listing ids and a
listing id under which status `st` is stored: after one call of any use case (BuyPlayer
and RemoveFromTransferList included, with any arguments and any repository failures) the
stored status is `st` again, or `st` was Active and it is now Sold or Cancelled; in
particular a Sold or Cancelled listing keeps its status. -/
theorem stored_status_is_terminal (s : Store) (op : Op) (L : UUID)
    (st : TransferListingStatus)
    (hkey : (s.listings.map TransferListing.ID).Nodup)
    (hst : statusOf s L = some st) :
    (∀ tl : TransferListing, tl.MarkAsSold.Status = TransferStatusSold ∧
      tl.Cancel.Status = TransferStatusCancelled) ∧
    (statusOf (step s op) L = some st ∨
      (st = TransferStatusActive ∧
        (statusOf (step s op) L = some TransferStatusSold ∨
         statusOf (step s op) L = some TransferStatusCancelled))) ∧
    (st ≠ TransferStatusActive → statusOf (step s op) L = some st) := by
  have h := statusOf_step hkey op hst
  refine ⟨fun tl => ⟨rfl, rfl⟩, h, ?_⟩
  intro hne
  rcases h with h | ⟨h, -⟩
  · exact h
  · exact absurd h hne

/-- Witness for C18 as amended: in the market whose listing 50 is Sold, the first team's
attempt to withdraw player 10 leaves listing 50 Sold. -/
theorem stored_status_is_terminal_witness :
    statusOf (step closedMarket (Op.removeFromTransferList RemoveFaults.none 101 10)) 50
      = some TransferStatusSold :=
  (stored_status_is_terminal closedMarket (Op.removeFromTransferList RemoveFaults.none 101 10)
    50 TransferStatusSold (by decide) rfl).2.2 (by decide)

/-! ## Market value -/

theorem Transfer_MarketValue (p : Player) (newTeamID : UUID) (fused : Bool) (r : ℚ)
    (now : Time) :
    (p.Transfer newTeamID fused r now).MarketValue
      = p.MarketValue
        * (1 + increasePercent fused r) := rfl

theorem marketValueOf_Update_same (s : Store) (player : Player)
    (hex : (marketValueOf s player.ID).isSome) :
    marketValueOf (playerRepo.Update s player) player.ID = some player.MarketValue := by
  unfold marketValueOf at hex ⊢
  rw [playerRepo_Update_find]
  cases hf : s.players.find? (fun p => p.ID == player.ID) with
  | none => simp [hf] at hex
  | some row =>
    have := List.find?_some hf
    simp only [beq_iff_eq] at this
    simp [this]

/-- The market value stored for the listed player after a successful `BuyPlayer`. -/
theorem BuyPlayer_marketValue {env : BuyEnv} {f : BuyFaults} {s : Store}
    {userID listingID : UUID} {t : Transfer} {l : TransferListing} {p : Player}
    (hok : (BuyPlayer env f s userID listingID).2 = Except.ok t)
    (hl : transferRepo.GetListingByID s listingID = Except.ok l)
    (hp : playerRepo.GetByID s l.PlayerID = Except.ok p) :
    marketValueOf s l.PlayerID = some p.MarketValue ∧
    marketValueOf (BuyPlayer env f s userID listingID).1 l.PlayerID
      = some (p.MarketValue * (1 + increasePercent env.fused env.rand)) := by
  obtain ⟨v, hv, hs', -⟩ := BuyPlayer_ok hok
  obtain ⟨-, c2, -, c4, -, -, -, -, -⟩ := buyPlayerChecks_ok hv
  have el : v.listing = l := by rw [hl] at c2; injection c2 with c2; exact c2.symm
  have ep : v.player = p := by rw [el, hp] at c4; injection c4 with c4; exact c4.symm
  obtain ⟨-, hpid, hpfind⟩ := mem_of_playerGetByID hp
  have hbefore : marketValueOf s l.PlayerID = some p.MarketValue := by
    simp [marketValueOf, hpfind]
  refine ⟨hbefore, ?_⟩
  rw [hs']
  show marketValueOf (playerRepo.Update s (soldPlayer env v)) l.PlayerID = _
  have hspid : (soldPlayer env v).ID = l.PlayerID := by rw [← hpid, ← ep]; rfl
  rw [← hspid, marketValueOf_Update_same]
  · rw [← ep]; rfl
  · rw [hspid, hbefore]; rfl

/-- C19, counterexample. The draw `1 - 2^-53` is a `float64` in [0,1), the largest one.  With
it the factor `1 + (0.10 + r * 0.90)` rounds to exactly `2`, whether or not the product
and the sum are fused: player 10, valued 1,000,000, is transferred with the value
2,000,000, which is not strictly less than twice the old value. -/
theorem Transfer_doubles_at_largest_draw :
    F64.isFloat (1 - 1 / 2 ^ 53) ∧ (0 : ℚ) ≤ 1 - 1 / 2 ^ 53 ∧ (1 - 1 / 2 ^ 53 : ℚ) < 1 ∧
    listedPlayer.MarketValue = 1000000 ∧
    (1 : F64) + (F64.ofDecimal (10 / 100) + F64.fin (1 - 1 / 2 ^ 53) * F64.ofDecimal (90 / 100))
      = 2 ∧
    ∀ fused : Bool,
      (1 : F64) + increasePercent fused (1 - 1 / 2 ^ 53) = 2 ∧
      (listedPlayer.Transfer 2 fused (1 - 1 / 2 ^ 53) 2).MarketValue = 2000000 ∧
      ¬ ((listedPlayer.Transfer 2 fused (1 - 1 / 2 ^ 53) 2).MarketValue
          < 2 * listedPlayer.MarketValue) := by
  refine ⟨by decide!, by norm_num, by norm_num, rfl, by decide!, ?_⟩
  intro fused
  cases fused <;> exact ⟨by decide!, by decide!, by decide!⟩

/-- C19, amended. With the random draw `r` a `float64` in [0,1), `Player.Transfer` replaces
the market value `v` by the `float64` result of `v * (1 + (0.10 + r * 0.90))`, the
operations rounding to nearest, with the product and the sum of `0.10 + r * 0.90` fused or
not.  For a finite `v ≥ 0` the new value is at least the `float64` product `v * 1.10` and
at most `2 * v` (reached at the largest draw); for a positive normal `v` it is strictly
greater than `v`; and no stored value that is not negative, infinite ones included, is
replaced by a smaller one.  A successful `BuyPlayer` stores exactly that value for the
listed player: the increase is applied once. -/
theorem Transfer_raises_market_value (p : Player) (newTeamID : UUID) (fused : Bool) (r : ℚ)
    (now : Time) (hr : F64.isFloat r) (hr0 : 0 ≤ r) (hr1 : r < 1) :
    (p.Transfer newTeamID fused r now).MarketValue
      = p.MarketValue * (1 + increasePercent fused r) ∧
    (fused = false → increasePercent fused r
      = F64.ofDecimal (10 / 100) + F64.fin r * F64.ofDecimal (90 / 100)) ∧
    (∀ v : ℚ, p.MarketValue = F64.fin v → 0 ≤ v →
      p.MarketValue * F64.ofDecimal (11 / 10)
        ≤ (p.Transfer newTeamID fused r now).MarketValue ∧
      (p.Transfer newTeamID fused r now).MarketValue ≤ 2 * p.MarketValue) ∧
    (∀ v : ℚ, p.MarketValue = F64.fin v → F64.isFloat v → 1 / 2 ^ 1022 ≤ v →
      p.MarketValue < (p.Transfer newTeamID fused r now).MarketValue) ∧
    (0 ≤ p.MarketValue → (∀ v : ℚ, p.MarketValue = F64.fin v → F64.isFloat v) →
      p.MarketValue ≤ (p.Transfer newTeamID fused r now).MarketValue) ∧
    ∀ (env : BuyEnv) (f : BuyFaults) (s : Store) (userID listingID : UUID) (t : Transfer)
      (l : TransferListing),
      env.fused = fused → env.rand = r →
      (BuyPlayer env f s userID listingID).2 = Except.ok t →
      transferRepo.GetListingByID s listingID = Except.ok l →
      playerRepo.GetByID s l.PlayerID = Except.ok p →
      marketValueOf (BuyPlayer env f s userID listingID).1 l.PlayerID
        = some (p.Transfer newTeamID fused r now).MarketValue := by
  have hval := Transfer_MarketValue p newTeamID fused r now
  refine ⟨hval, ?_, ?_, ?_, ?_, ?_⟩
  · intro hfu
    rw [hfu]
    rfl
  · intro v hv hv0
    rw [hval, hv]
    exact F64.raise_bounds fused hr hr0 hr1 hv0
  · intro v hv hfv hn
    rw [hval, hv]
    exact F64.raise_gt fused hr hr0 hr1 hfv hn
  · intro h0 hfl
    rw [hval]
    exact F64.raise_ge fused hr hr0 hr1 h0 hfl
  · intro env f s userID listingID t l hfused hrand hok hl hp
    rw [(BuyPlayer_marketValue hok hl hp).2, hval, hrand, hfused]

/-- Witness for C19 as amended: player 10, valued 1,000,000, moves to team 2 with the draw
1/2; the new value is 1,550,000, above the old one and at most its double, and it is the
value that the purchase in the market stores. -/
theorem Transfer_raises_market_value_witness :
    (listedPlayer.Transfer 2 false (1 / 2) 2).MarketValue = 1550000 ∧
    listedPlayer.MarketValue < (listedPlayer.Transfer 2 false (1 / 2) 2).MarketValue ∧
    (listedPlayer.Transfer 2 false (1 / 2) 2).MarketValue ≤ 2 * listedPlayer.MarketValue ∧
    marketValueOf (BuyPlayer marketEnv BuyFaults.none market 102 50).1 10
      = some (listedPlayer.Transfer 2 false (1 / 2) 2).MarketValue :=
  have h := Transfer_raises_market_value listedPlayer 2 false (1 / 2) 2 (by decide!)
    (by norm_num) (by norm_num)
  ⟨by decide!,
    h.2.2.2.1 1000000 (by rw [listedPlayer, F64.ofNat_eq]; norm_num)
      (by decide!) (le_trans (by norm_num) (by norm_num : (1 : ℚ) ≤ 1000000)),
    (h.2.2.1 1000000 (by rw [listedPlayer, F64.ofNat_eq]; norm_num)
      (by norm_num)).2,
    h.2.2.2.2.2 marketEnv BuyFaults.none market 102 50 (soldTransfer marketEnv marketLocals)
      activeListing rfl rfl (by rw [market_buy]) rfl rfl⟩

theorem market_buy_highDraw :
    BuyPlayer highDrawEnv BuyFaults.none market 102 50
      = (soldStore highDrawEnv market marketLocals,
         Except.ok (soldTransfer highDrawEnv marketLocals)) := by
  rw [BuyPlayer_of_checks_ok market_checks]
  exact buyPlayerWrites_none _ _ _ _ rfl rfl rfl rfl rfl

theorem market_buy_maxDraw :
    BuyPlayer maxDrawEnv BuyFaults.none market 102 50
      = (soldStore maxDrawEnv market marketLocals,
         Except.ok (soldTransfer maxDrawEnv marketLocals)) := by
  rw [BuyPlayer_of_checks_ok market_checks]
  exact buyPlayerWrites_none _ _ _ _ rfl rfl rfl rfl rfl

theorem market_value_maxDraw :
    marketValueOf (BuyPlayer maxDrawEnv BuyFaults.none market 102 50).1 10 = some 2000000 := by
  have hok : (BuyPlayer maxDrawEnv BuyFaults.none market 102 50).2
      = Except.ok (soldTransfer maxDrawEnv marketLocals) := by rw [market_buy_maxDraw]
  have h := @BuyPlayer_marketValue maxDrawEnv BuyFaults.none market 102 50 _ activeListing
    listedPlayer hok rfl rfl
  have e : listedPlayer.MarketValue * (1 + increasePercent maxDrawEnv.fused maxDrawEnv.rand)
      = 2000000 := by decide!
  rw [e] at h
  exact h.2

/-- C20, counterexample. In the market, player 10 is valued 1,000,000; bought with the random
draw 0.95 (the `float64` nearest to it) it is stored with the value 1,955,000, which
exceeds the `float64` product of 1.90 and 1,000,000, that is 1,900,000.  The value is the
same whether or not the product and the sum of `0.10 + r * 0.90` are fused. -/
theorem BuyPlayer_value_above_190_percent :
    F64.isFloat highDrawEnv.rand ∧ 0 ≤ highDrawEnv.rand ∧ highDrawEnv.rand < 1 ∧
    (BuyPlayer highDrawEnv BuyFaults.none market 102 50).2
      = Except.ok (soldTransfer highDrawEnv marketLocals) ∧
    marketValueOf market 10 = some 1000000 ∧
    marketValueOf (BuyPlayer highDrawEnv BuyFaults.none market 102 50).1 10 = some 1955000 ∧
    F64.ofDecimal (19 / 10) * 1000000 = 1900000 ∧
    (1900000 : F64) < 1955000 ∧
    ∀ fused : Bool,
      (listedPlayer.Transfer 2 fused highDrawEnv.rand 2).MarketValue = 1955000 := by
  have hok : (BuyPlayer highDrawEnv BuyFaults.none market 102 50).2
      = Except.ok (soldTransfer highDrawEnv marketLocals) := by rw [market_buy_highDraw]
  have h := @BuyPlayer_marketValue highDrawEnv BuyFaults.none market 102 50 _ activeListing
    listedPlayer hok rfl rfl
  have e : listedPlayer.MarketValue * (1 + increasePercent highDrawEnv.fused highDrawEnv.rand)
      = 1955000 := by decide!
  rw [e] at h
  exact ⟨by decide!, by norm_num [highDrawEnv], by norm_num [highDrawEnv], hok, rfl, h.2,
    by decide!, by decide!, fun fused => by cases fused <;> decide!⟩

/-- C20, amended. For a successful purchase of a player whose stored market value is a finite
`v ≥ 0`, with the random draw a `float64` in [0,1), fused or not, the stored post-sale
value lies between the `float64` products `v * 1.10` and `2 * v`, both included.  In particular a
player valued 1,000,000 is stored with a value from 1,100,000 to 2,000,000; the upper end
is reached: the purchase in the market with the largest draw stores 2,000,000. -/
theorem BuyPlayer_value_bounds (env : BuyEnv) (f : BuyFaults) (s : Store)
    (userID listingID : UUID) (t : Transfer) (l : TransferListing) (p : Player) (v : ℚ)
    (hok : (BuyPlayer env f s userID listingID).2 = Except.ok t)
    (hl : transferRepo.GetListingByID s listingID = Except.ok l)
    (hp : playerRepo.GetByID s l.PlayerID = Except.ok p)
    (hv : p.MarketValue = F64.fin v) (hv0 : 0 ≤ v)
    (hr : F64.isFloat env.rand) (hr0 : 0 ≤ env.rand) (hr1 : env.rand < 1) :
    (∃ w, marketValueOf (BuyPlayer env f s userID listingID).1 l.PlayerID = some w ∧
      p.MarketValue * F64.ofDecimal (11 / 10) ≤ w ∧ w ≤ 2 * p.MarketValue ∧
      (v = 1000000 → (1100000 : F64) ≤ w ∧ w ≤ 2000000)) ∧
    marketValueOf (BuyPlayer maxDrawEnv BuyFaults.none market 102 50).1 10 = some 2000000 := by
  refine ⟨⟨_, (BuyPlayer_marketValue hok hl hp).2, ?_, ?_, ?_⟩, market_value_maxDraw⟩
  · rw [hv]; exact (F64.raise_bounds env.fused hr hr0 hr1 hv0).1
  · rw [hv]; exact (F64.raise_bounds env.fused hr hr0 hr1 hv0).2
  · intro h1
    have hb := F64.raise_bounds env.fused hr hr0 hr1 hv0
    rw [hv, h1]
    rw [h1] at hb
    have e1 : F64.fin 1000000 * F64.ofDecimal (11 / 10) = 1100000 := by decide!
    have e2 : (2 : F64) * F64.fin 1000000 = 2000000 := by decide!
    rw [e1, e2] at hb
    exact hb

/-- Witness for C20 as amended: the purchase of player 10 with the draw 1/2. -/
theorem BuyPlayer_value_bounds_witness :
    ∃ w, marketValueOf (BuyPlayer marketEnv BuyFaults.none market 102 50).1 10 = some w ∧
      listedPlayer.MarketValue * F64.ofDecimal (11 / 10) ≤ w ∧
      w ≤ 2 * listedPlayer.MarketValue ∧
      ((1000000 : ℚ) = 1000000 → (1100000 : F64) ≤ w ∧ w ≤ 2000000) :=
  (BuyPlayer_value_bounds marketEnv BuyFaults.none market 102 50
    (soldTransfer marketEnv marketLocals) activeListing listedPlayer 1000000
    (by rw [market_buy]) rfl rfl
    (by rw [listedPlayer, F64.ofNat_eq]; norm_num)
    (by norm_num) (by decide!) (by norm_num [marketEnv]) (by norm_num [marketEnv])).1

/-! ## One Active listing per player -/

theorem ListPlayer_error_store {env : ListEnv} {f : ListFaults} {s : Store}
    {userID playerID : UUID} {askingPrice : ℚ} {e : Err}
    (h : (ListPlayer env f s userID playerID askingPrice).2 = Except.error e) :
    (ListPlayer env f s userID playerID askingPrice).1 = s := by
  unfold ListPlayer at h ⊢
  split
  · rfl
  · split
    · rfl
    · split
      · rfl
      · simp only
        split
        · rfl
        · split
          · rfl
          · cases hflt : f.createListing with
            | some c => simp [execRepo_some]
            | none =>
              rename_i hT _ _ hp hown hex hprice
              simp [hT, hp, hown, hex, hprice, hflt, execRepo_none] at h

theorem activeListingsOf_CreateListing (s : Store) (l : TransferListing) (playerID : UUID) :
    activeListingsOf (transferRepo.CreateListing s l) playerID
      = activeListingsOf s playerID
        + (if l.PlayerID = playerID ∧ l.Status = TransferStatusActive then 1 else 0) := by
  unfold activeListingsOf transferRepo.CreateListing
  simp only [List.countP_append, List.countP_cons, List.countP_nil, Bool.and_eq_true,
    beq_iff_eq, decide_eq_true_eq, zero_add]

theorem activeListingsOf_zero {s : Store} {playerID : UUID}
    (h : ∀ l ∈ s.listings, l.PlayerID = playerID → l.Status ≠ TransferStatusActive) :
    activeListingsOf s playerID = 0 := by
  unfold activeListingsOf
  rw [List.countP_eq_zero]
  intro l hl
  simp only [Bool.and_eq_true, beq_iff_eq, decide_eq_true_eq, not_and]
  exact h l hl

/-- Storing a status other than Active never adds an Active listing. -/
theorem activeListingsOf_UpdateListing_le (s : Store) (listing : TransferListing)
    (hst : listing.Status ≠ TransferStatusActive) (playerID : UUID) :
    activeListingsOf (transferRepo.UpdateListing s listing) playerID
      ≤ activeListingsOf s playerID := by
  unfold activeListingsOf transferRepo.UpdateListing
  simp only
  generalize s.listings = rows
  induction rows with
  | nil => simp
  | cons x xs ih =>
    simp only [List.map_cons, List.countP_cons]
    by_cases hid : x.ID = listing.ID
    · simp only [hid, beq_self_eq_true, if_true, hst, decide_False, Bool.and_false,
        Bool.false_eq_true, if_false, add_zero]
      omega
    · have hb : ¬ ((x.ID == listing.ID) = true) := by simpa using hid
      rw [if_neg hb]
      omega

theorem activeListingsOf_congr {s s' : Store} (h : s'.listings = s.listings) (playerID : UUID) :
    activeListingsOf s' playerID = activeListingsOf s playerID := by
  unfold activeListingsOf; rw [h]

/-- With the lookup of `ListPlayer` answering, one call of a use case keeps the property that
every player has at most one Active listing. -/
theorem oneActivePerPlayer_step {s : Store} (op : Op) (hlk : op.listingLookupAnswers)
    (h : oneActivePerPlayer s) : oneActivePerPlayer (step s op) := by
  intro pid
  cases op with
  | register env f email password =>
    rcases Register_store_cases env f s email password with e | ⟨u, n, e | e | e⟩ <;>
      simp only [step, e]
    · exact h pid
    · exact (activeListingsOf_congr rfl pid).trans_le (h pid)
    · exact (activeListingsOf_congr rfl pid).trans_le (h pid)
    · exact (activeListingsOf_congr rfl pid).trans_le (h pid)
  | listPlayer env f userID playerID askingPrice =>
    simp only [step]
    cases hres : (ListPlayer env f s userID playerID askingPrice).2 with
    | error e => rw [ListPlayer_error_store hres]; exact h pid
    | ok l =>
      obtain ⟨T, p, -, -, -, -, hnew, hstore, hnone⟩ := ListPlayer_ok hres
      have hzero := activeListingsOf_zero (hnone hlk)
      have hlp : l.PlayerID = playerID := by rw [hnew]; rfl
      rw [hstore, activeListingsOf_CreateListing]
      by_cases hp : playerID = pid
      · subst hp
        rw [hzero]
        split <;> omega
      · have : ¬ (l.PlayerID = pid ∧ l.Status = TransferStatusActive) := by
          rw [hlp]; exact fun hc => hp hc.1
        simp only [this, if_false, add_zero]
        exact h pid
  | removeFromTransferList f userID playerID =>
    rcases RemoveFromTransferList_store_cases f s userID playerID with e | ⟨l, e⟩ <;>
      simp only [step, e]
    · exact h pid
    · exact (activeListingsOf_UpdateListing_le s _ (by simp [TransferListing.Cancel]) pid).trans
        (h pid)
  | buyPlayer env f userID listingID =>
    simp only [step]
    rcases BuyPlayer_listings_cases env f s userID listingID with e | ⟨X, -, -, e⟩
    · exact (activeListingsOf_congr e pid).trans_le (h pid)
    · rw [activeListingsOf_congr e pid]
      exact (activeListingsOf_UpdateListing_le s _ (by simp [TransferListing.MarkAsSold])
        pid).trans (h pid)
  | updateTeam f userID name country =>
    rcases UpdateTeam_store_cases f s userID name country with e | ⟨t, -, e⟩ <;>
      simp only [step, e]
    · exact h pid
    · exact (activeListingsOf_congr rfl pid).trans_le (h pid)
  | updatePlayer f userID playerID firstName lastName country =>
    rcases UpdatePlayer_store_cases f s userID playerID firstName lastName country with
      e | ⟨q, e⟩ <;> simp only [step, e]
    · exact h pid
    · exact (activeListingsOf_congr rfl pid).trans_le (h pid)

/-- With every lookup of `ListPlayer` answering, at most one Active listing per player is an
invariant of sequential histories. -/
theorem oneActivePerPlayer_run (ops : List Op) :
    ∀ {s : Store}, (∀ op ∈ ops, op.listingLookupAnswers) → oneActivePerPlayer s →
      oneActivePerPlayer (run s ops) := by
  induction ops with
  | nil => intro s _ h; exact h
  | cons op ops ih =>
    intro s hlk h
    exact ih (fun o ho => hlk o (List.mem_cons_of_mem _ ho))
      (oneActivePerPlayer_step op (hlk op (List.mem_cons_self _ _)) h)

theorem market_list_lookupFails :
    ListPlayer listEnv lookupFails market 101 10 2000000
      = (transferRepo.CreateListing market (NewTransferListing 51 4 10 2000000),
         Except.ok (NewTransferListing 51 4 10 2000000)) :=
  @ListPlayer_creates listEnv lookupFails market 101 10 2000000 sellerTeam listedPlayer
    rfl rfl rfl rfl rfl rfl (by intro l; simp [callRepo, lookupFails]) (by norm_num)

/-- C12, the code at the failing input. In the market player 10 has the Active listing 50 and
every player has at most one Active listing.  The owner lists player 10 again while the
existing-listing lookup fails: `ListPlayer` succeeds and stores listing 51, so that player
10 has two Active listings. -/
theorem ListPlayer_lists_twice_when_lookup_fails :
    oneActivePerPlayer market ∧
    activeListingsOf market 10 = 1 ∧
    (ListPlayer listEnv lookupFails market 101 10 2000000).2
      = Except.ok (NewTransferListing 51 4 10 2000000) ∧
    activeListingsOf (ListPlayer listEnv lookupFails market 101 10 2000000).1 10 = 2 ∧
    ¬ oneActivePerPlayer (ListPlayer listEnv lookupFails market 101 10 2000000).1 := by
  have h2 : activeListingsOf (ListPlayer listEnv lookupFails market 101 10 2000000).1 10
      = 2 := by
    rw [market_list_lookupFails]; rfl
  refine ⟨?_, rfl, by rw [market_list_lookupFails], h2, ?_⟩
  · intro pid
    exact List.countP_le_length _
  · intro hall
    have := hall 10
    rw [h2] at this
    omega

/-! ## Squad size -/

theorem generateInitialPlayers_ids (env : RegisterEnv) (teamID : UUID) :
    (generateInitialPlayers env teamID).map Player.ID
      = (List.range 20).map (fun i => (env.draws i).id) := rfl

theorem generateInitialPlayers_length (env : RegisterEnv) (teamID : UUID) :
    (generateInitialPlayers env teamID).length = 20 := rfl

theorem generateInitialPlayers_team (env : RegisterEnv) (teamID : UUID) :
    ∀ p ∈ generateInitialPlayers env teamID, p.TeamID = some teamID := by
  intro p hp
  simp only [generateInitialPlayers, List.mem_append, List.mem_map] at hp
  rcases hp with ((⟨i, -, rfl⟩ | ⟨i, -, rfl⟩) | ⟨i, -, rfl⟩) | ⟨i, -, rfl⟩ <;> rfl

theorem GetPlayerCount_le_length (s : Store) (teamID : UUID) :
    teamRepo.GetPlayerCount s teamID ≤ s.players.length :=
  List.countP_le_length _

theorem GetPlayerCount_congr {s s' : Store} (h : s'.players = s.players) (teamID : UUID) :
    teamRepo.GetPlayerCount s' teamID = teamRepo.GetPlayerCount s teamID := by
  unfold teamRepo.GetPlayerCount; rw [h]

theorem playerRepo_Update_ids (s : Store) (player : Player) :
    (playerRepo.Update s player).players.map Player.ID = s.players.map Player.ID := by
  unfold playerRepo.Update
  simp only [List.map_map]
  apply List.map_congr_left
  intro a _
  simp only [Function.comp]
  split <;> rfl

/-- Inserting the twenty generated players of a fresh team. -/
theorem squads_CreateBatch {s : Store} (env : RegisterEnv)
    (hkey : playerIDsUnique s) (hlim : squadsWithinLimit s)
    (hteam : ∀ p ∈ s.players, p.TeamID ≠ some env.teamID)
    (hids : ∀ p ∈ s.players, ∀ i < 20, p.ID ≠ (env.draws i).id)
    (hnew : ((List.range 20).map (fun i => (env.draws i).id)).Nodup) :
    playerIDsUnique (playerRepo.CreateBatch s (generateInitialPlayers env env.teamID)) ∧
    squadsWithinLimit (playerRepo.CreateBatch s (generateInitialPlayers env env.teamID)) := by
  constructor
  · unfold playerIDsUnique playerRepo.CreateBatch
    simp only [List.map_append, generateInitialPlayers_ids]
    rw [List.nodup_append]
    refine ⟨hkey, hnew, ?_⟩
    intro a ha hb
    simp only [List.mem_map] at ha hb
    obtain ⟨p, hp, rfl⟩ := ha
    obtain ⟨i, hi, hpi⟩ := hb
    exact hids p hp i (List.mem_range.mp hi) hpi.symm
  · intro T
    unfold teamRepo.GetPlayerCount playerRepo.CreateBatch
    simp only [List.countP_append]
    by_cases hT : T = env.teamID
    · subst hT
      have h0 : s.players.countP (fun p => p.TeamID == some env.teamID) = 0 := by
        rw [List.countP_eq_zero]
        intro p hp
        simpa using hteam p hp
      have h1 := List.countP_le_length (fun p : Player => p.TeamID == some env.teamID)
        (l := generateInitialPlayers env env.teamID)
      rw [generateInitialPlayers_length] at h1
      rw [h0]
      unfold MaxPlayers
      omega
    · have h1 : (generateInitialPlayers env env.teamID).countP
          (fun p => p.TeamID == some T) = 0 := by
        rw [List.countP_eq_zero]
        intro p hp
        rw [generateInitialPlayers_team env env.teamID p hp]
        simpa using fun h => hT h.symm
      rw [h1]
      exact hlim T

theorem BuyPlayer_players_cases (env : BuyEnv) (f : BuyFaults) (s : Store)
    (userID listingID : UUID) :
    (BuyPlayer env f s userID listingID).1.players = s.players ∨
    ∃ v, buyPlayerChecks f s userID listingID = Except.ok v ∧
      (BuyPlayer env f s userID listingID).1.players
        = (playerRepo.Update s (soldPlayer env v)).players := by
  rcases BuyPlayer_store_cases env f s userID listingID with h | ⟨v, hv, h⟩
  · rw [h]; exact Or.inl rfl
  · right
    refine ⟨v, hv, ?_⟩
    rcases h with h | h | h | h | h <;> rw [h] <;> rfl

theorem UpdatePlayer_store_player (f : UpdatePlayerFaults) (s : Store) (userID playerID : UUID)
    (firstName lastName country : String) :
    (UpdatePlayer f s userID playerID firstName lastName country).1 = s ∨
    ∃ P ∈ s.players, ∃ player : Player, player.ID = P.ID ∧ player.TeamID = P.TeamID ∧
      (UpdatePlayer f s userID playerID firstName lastName country).1
        = playerRepo.Update s player := by
  unfold UpdatePlayer
  split
  · exact Or.inl rfl
  · split
    · exact Or.inl rfl
    · next player hp =>
      have hmem := (mem_of_playerGetByID (callRepo_ok hp).2).1
      split
      · exact Or.inl rfl
      · cases hflt : f.update with
        | some c => simp [execRepo_some]
        | none =>
          right
          refine ⟨player, hmem, Player.mk player.ID player.TeamID firstName lastName country
            player.Age player.Position player.MarketValue player.CreatedAt player.UpdatedAt,
            rfl, rfl, ?_⟩
          simp only [execRepo_none]

/-- Rewriting the row of a stored player keeps the ids, and moves at most one unit of the
head count to the new owner. -/
theorem squads_Update {s : Store} (hkey : playerIDsUnique s) {P : Player} (hP : P ∈ s.players)
    (player : Player) (hid : player.ID = P.ID) (T : UUID) :
    playerIDsUnique (playerRepo.Update s player) ∧
    teamRepo.GetPlayerCount (playerRepo.Update s player) T
      ≤ teamRepo.GetPlayerCount s T + (if player.TeamID = some T then 1 else 0) := by
  constructor
  · unfold playerIDsUnique
    rw [playerRepo_Update_ids]; exact hkey
  · have := GetPlayerCount_Update hkey hP player hid T
    omega

/-- Unique player ids and the squad limit are kept by one call that generates fresh ids. -/
theorem squads_step {s : Store} (op : Op) (hfresh : op.freshIDs s)
    (hkey : playerIDsUnique s) (hlim : squadsWithinLimit s) :
    playerIDsUnique (step s op) ∧ squadsWithinLimit (step s op) := by
  have keep : ∀ s' : Store, s'.players = s.players →
      playerIDsUnique s' ∧ squadsWithinLimit s' := by
    intro s' h
    refine ⟨?_, fun T => ?_⟩
    · unfold playerIDsUnique; rw [h]; exact hkey
    · rw [GetPlayerCount_congr h]; exact hlim T
  cases op with
  | register env f email password =>
    obtain ⟨h1, h2, h3⟩ := hfresh
    rcases Register_store_cases env f s email password with e | ⟨u, n, e | e | e⟩ <;>
      simp only [step, e]
    · exact ⟨hkey, hlim⟩
    · exact keep _ rfl
    · exact keep _ rfl
    · have h0 := keep (teamRepo.Create (userRepo.Create s u)
        (NewTeam env.teamID env.now u.ID n "Unknown")) rfl
      exact squads_CreateBatch env h0.1 h0.2 h1 h2 h3
  | listPlayer env f userID playerID askingPrice =>
    rcases ListPlayer_store_cases env f s userID playerID askingPrice with e | ⟨pid, -, e⟩ <;>
      simp only [step, e]
    · exact ⟨hkey, hlim⟩
    · exact keep _ rfl
  | removeFromTransferList f userID playerID =>
    rcases RemoveFromTransferList_store_cases f s userID playerID with e | ⟨l, e⟩ <;>
      simp only [step, e]
    · exact ⟨hkey, hlim⟩
    · exact keep _ rfl
  | buyPlayer env f userID listingID =>
    simp only [step]
    rcases BuyPlayer_players_cases env f s userID listingID with e | ⟨v, hv, e⟩
    · exact keep _ e
    · obtain ⟨-, -, -, c4, -, -, -, c8, -⟩ := buyPlayerChecks_ok hv
      have hmem := (mem_of_playerGetByID c4).1
      have hupd := fun T => squads_Update hkey hmem (soldPlayer env v) rfl T
      refine ⟨?_, fun T => ?_⟩
      · unfold playerIDsUnique
        rw [e]
        exact (hupd 0).1
      · rw [GetPlayerCount_congr e]
        have h1 := (hupd T).2
        have h2 := hlim T
        have hteam : (soldPlayer env v).TeamID = some v.buyerTeam.ID := rfl
        rw [hteam] at h1
        by_cases hT : v.buyerTeam.ID = T
        · subst hT
          simp only [if_true] at h1
          omega
        · have hne : ¬ (some v.buyerTeam.ID = some T) := by simpa using hT
          simp only [hne, if_false, add_zero] at h1
          omega
  | updateTeam f userID name country =>
    rcases UpdateTeam_store_cases f s userID name country with e | ⟨t, -, e⟩ <;>
      simp only [step, e]
    · exact ⟨hkey, hlim⟩
    · exact keep _ rfl
  | updatePlayer f userID playerID firstName lastName country =>
    rcases UpdatePlayer_store_player f s userID playerID firstName lastName country with
      e | ⟨P, hP, q, hid, hteam, e⟩ <;> simp only [step, e]
    · exact ⟨hkey, hlim⟩
    · refine ⟨(squads_Update hkey hP q hid 0).1, fun T => ?_⟩
      have h1 := GetPlayerCount_Update hkey hP q hid T
      rw [hteam] at h1
      have h2 := hlim T
      omega

theorem squads_run (ops : List Op) :
    ∀ {s : Store}, freshRun s ops → playerIDsUnique s → squadsWithinLimit s →
      playerIDsUnique (run s ops) ∧ squadsWithinLimit (run s ops) := by
  induction ops with
  | nil => intro s _ hkey hlim; exact ⟨hkey, hlim⟩
  | cons op ops ih =>
    intro s hfresh hkey hlim
    have h := squads_step op hfresh.1 hkey hlim
    exact ih hfresh.2 h.1 h.2

/-- C11. Starting from a store in which every team owns at most `MaxPlayers` (20) players,
after any finite sequence of Register, ListPlayer, RemoveFromTransferList and BuyPlayer
calls (and of UpdateTeam and UpdatePlayer calls) executed one at a time, with or without
repository failures, every team still owns at most 20 players.  Player ids are unique
(they are the key of the table) and the ids that `Register` generates are fresh. -/
theorem squads_never_exceed_MaxPlayers (s : Store) (ops : List Op)
    (hkey : playerIDsUnique s) (hfresh : freshRun s ops)
    (hlim : squadsWithinLimit s) :
    squadsWithinLimit (run s ops) :=
  (squads_run ops hfresh hkey hlim).2

theorem market_squads : playerIDsUnique market ∧ squadsWithinLimit market := by
  refine ⟨by unfold playerIDsUnique; decide, fun T => ?_⟩
  have := GetPlayerCount_le_length market T
  have hlen : market.players.length = 1 := rfl
  unfold MaxPlayers
  omega

theorem market_registerThenBuy_fresh : freshRun market registerThenBuy := by
  refine ⟨⟨by decide, by decide, by decide⟩, trivial, trivial⟩

/-- Witness for C11: in the market a new user registers (team 4 with twenty players) and the
second team buys player 10. -/
theorem squads_never_exceed_MaxPlayers_witness :
    squadsWithinLimit (run market registerThenBuy) :=
  squads_never_exceed_MaxPlayers market registerThenBuy market_squads.1
    market_registerThenBuy_fresh market_squads.2

/-! ## The cache and the use cases -/

theorem uc_BuyPlayer_store (env : BuyEnv) (f : BuyFaults) (cf : CacheFaults) (w : World)
    (userID listingID : UUID) :
    (uc.BuyPlayer env f cf w userID listingID).2 = (BuyPlayer env f w.store userID listingID).2 ∧
    (uc.BuyPlayer env f cf w userID listingID).1.store
      = (BuyPlayer env f w.store userID listingID).1 := by
  unfold uc.BuyPlayer BuyPlayer
  cases hc : buyPlayerChecks f w.store userID listingID with
  | error e => exact ⟨rfl, rfl⟩
  | ok v =>
    simp only
    rcases hw : buyPlayerWrites env f w.store v with ⟨s1, r⟩
    cases r with
    | error e => exact ⟨rfl, rfl⟩
    | ok t => exact ⟨rfl, rfl⟩

theorem uc_ListPlayer_store (env : ListEnv) (f : ListFaults) (cf : CacheFaults) (w : World)
    (userID playerID : UUID) (askingPrice : ℚ) :
    (uc.ListPlayer env f cf w userID playerID askingPrice).2
      = (ListPlayer env f w.store userID playerID askingPrice).2 ∧
    (uc.ListPlayer env f cf w userID playerID askingPrice).1.store
      = (ListPlayer env f w.store userID playerID askingPrice).1 := by
  unfold uc.ListPlayer
  rcases hw : ListPlayer env f w.store userID playerID askingPrice with ⟨s1, r⟩
  cases r with
  | error e => exact ⟨rfl, rfl⟩
  | ok t => exact ⟨rfl, rfl⟩

theorem uc_RemoveFromTransferList_store (f : RemoveFaults) (cf : CacheFaults) (w : World)
    (userID playerID : UUID) :
    (uc.RemoveFromTransferList f cf w userID playerID).2
      = (RemoveFromTransferList f w.store userID playerID).2 ∧
    (uc.RemoveFromTransferList f cf w userID playerID).1.store
      = (RemoveFromTransferList f w.store userID playerID).1 := by
  unfold uc.RemoveFromTransferList
  rcases hw : RemoveFromTransferList f w.store userID playerID with ⟨s1, r⟩
  cases r with
  | error e => exact ⟨rfl, rfl⟩
  | ok t => exact ⟨rfl, rfl⟩

/-- C22. For every store, the result and the store left behind by `BuyPlayer`, `ListPlayer` and
`RemoveFromTransferList` are the same for any two caches and any two behaviours of the
cache calls (succeeding or failing): they are those of the use case run on the store
alone.  In particular an operation that succeeds on the store succeeds whatever the
invalidations do. -/
theorem cache_never_influences_the_store (s : Store) (c c' : Cache) (cf cf' : CacheFaults)
    (envB : BuyEnv) (fB : BuyFaults) (envL : ListEnv) (fL : ListFaults) (fR : RemoveFaults)
    (userID listingID playerID : UUID) (askingPrice : ℚ) :
    ((uc.BuyPlayer envB fB cf ⟨s, c⟩ userID listingID).2
        = (uc.BuyPlayer envB fB cf' ⟨s, c'⟩ userID listingID).2 ∧
      (uc.BuyPlayer envB fB cf ⟨s, c⟩ userID listingID).1.store
        = (uc.BuyPlayer envB fB cf' ⟨s, c'⟩ userID listingID).1.store ∧
      (uc.BuyPlayer envB fB cf ⟨s, c⟩ userID listingID).2
        = (BuyPlayer envB fB s userID listingID).2) ∧
    ((uc.ListPlayer envL fL cf ⟨s, c⟩ userID playerID askingPrice).2
        = (uc.ListPlayer envL fL cf' ⟨s, c'⟩ userID playerID askingPrice).2 ∧
      (uc.ListPlayer envL fL cf ⟨s, c⟩ userID playerID askingPrice).1.store
        = (uc.ListPlayer envL fL cf' ⟨s, c'⟩ userID playerID askingPrice).1.store ∧
      (uc.ListPlayer envL fL cf ⟨s, c⟩ userID playerID askingPrice).2
        = (ListPlayer envL fL s userID playerID askingPrice).2) ∧
    ((uc.RemoveFromTransferList fR cf ⟨s, c⟩ userID playerID).2
        = (uc.RemoveFromTransferList fR cf' ⟨s, c'⟩ userID playerID).2 ∧
      (uc.RemoveFromTransferList fR cf ⟨s, c⟩ userID playerID).1.store
        = (uc.RemoveFromTransferList fR cf' ⟨s, c'⟩ userID playerID).1.store ∧
      (uc.RemoveFromTransferList fR cf ⟨s, c⟩ userID playerID).2
        = (RemoveFromTransferList fR s userID playerID).2) := by
  have b1 := uc_BuyPlayer_store envB fB cf ⟨s, c⟩ userID listingID
  have b2 := uc_BuyPlayer_store envB fB cf' ⟨s, c'⟩ userID listingID
  have l1 := uc_ListPlayer_store envL fL cf ⟨s, c⟩ userID playerID askingPrice
  have l2 := uc_ListPlayer_store envL fL cf' ⟨s, c'⟩ userID playerID askingPrice
  have r1 := uc_RemoveFromTransferList_store fR cf ⟨s, c⟩ userID playerID
  have r2 := uc_RemoveFromTransferList_store fR cf' ⟨s, c'⟩ userID playerID
  exact ⟨⟨b1.1.trans b2.1.symm, b1.2.trans b2.2.symm, b1.1⟩,
    ⟨l1.1.trans l2.1.symm, l1.2.trans l2.2.symm, l1.1⟩,
    ⟨r1.1.trans r2.1.symm, r1.2.trans r2.2.symm, r1.1⟩⟩

theorem marketWorldSeen_eq :
    marketWorldSeen
      = { store := market,
          cache := [("team:102", CacheValue.teamWithValue
            { Team := buyerTeam, TotalValue := 0 })] } := by
  rfl

theorem marketWorldBought_eq :
    marketWorldBought
      = { store := soldStore marketEnv market marketLocals,
          cache := [("team:102", CacheValue.teamWithValue
            { Team := buyerTeam, TotalValue := 0 })] } := by
  unfold marketWorldBought
  rw [marketWorldSeen_eq]
  unfold uc.BuyPlayer
  simp only [market_checks]
  rw [buyPlayerWrites_none marketEnv BuyFaults.none market marketLocals rfl rfl rfl rfl rfl]
  rfl

theorem marketWorldSeen_buy :
    (uc.BuyPlayer marketEnv BuyFaults.none CacheFaults.none marketWorldSeen 102 50).2
      = Except.ok (soldTransfer marketEnv marketLocals) := by
  rw [(uc_BuyPlayer_store _ _ _ _ _ _).1, marketWorldSeen_eq]
  exact congrArg Prod.snd market_buy

/-- The keys that `GetTeamPlayers` and `GetTransferList` write are covered by the
invalidations: the players key of a team is one of the three keys that
`InvalidateTeamCache` deletes for that team, and the listing index key matches the
pattern that `InvalidateTransferListCache` deletes. -/
theorem invalidation_covers_players_and_listings (teamID : UUID) :
    CacheKey "team:players" (idString teamID) ∈ teamCacheKeys (idString teamID) ∧
    matchesPattern "transfer_list:*" (CacheKey "transfer_list" "all") = true := by
  refine ⟨?_, by decide⟩
  simp [teamCacheKeys]

/-- C21, the code at the failing input. In the market user 102 owns team 2.  `GetTeam(102)`
stores the team summary under the key `team:102`, made of the user id, which is none of
the keys `team:2`, `team:players:2`, `team:value:2` that `InvalidateTeamCache` deletes for
team 2.  So after user 102 has looked at its team and then bought listing 50 with every
cache call succeeding, the store holds a budget of 4,000,000 for team 2, and the next
`GetTeam(102)` is served the cached summary with the budget 5,000,000 of before the
purchase. -/
theorem GetTeam_serves_stale_summary_after_purchase :
    CacheKey "team" (idString 102) = "team:102" ∧
    teamCacheKeys (idString buyerTeam.ID) = ["team:2", "team:players:2", "team:value:2"] ∧
    CacheKey "team" (idString 102) ∉ teamCacheKeys (idString buyerTeam.ID) ∧
    (uc.BuyPlayer marketEnv BuyFaults.none CacheFaults.none marketWorldSeen 102 50).2
      = Except.ok (soldTransfer marketEnv marketLocals) ∧
    budgetOf marketWorldBought.store 2 = some 4000000 ∧
    (uc.GetTeam GetTeamFaults.none CacheFaults.none marketWorldBought 102).2
      = Except.ok { Team := buyerTeam, TotalValue := 0 } ∧
    buyerTeam.Budget = 5000000 := by
  have e1 : buyerTeam.Budget - F64.fin activeListing.AskingPrice = 4000000 := by
    decide!
  refine ⟨by decide, by decide, by decide, marketWorldSeen_buy, ?_, ?_, rfl⟩
  · rw [marketWorldBought_eq, ← e1]; rfl
  · rw [marketWorldBought_eq]; rfl

/-- C28, the code at the failing input. The store holds two Active listings: listing 50 of a
player of team 1 and listing 52 of a player of team 2.  Computed from the store, the
transfer list of user 102 (team 2) is listing 50.  User 101 (team 1) asks first: the
answer, listing 52, is what the store query returns with the players of team 1 already
left out, and it is that answer which is cached under `transfer_list:all`.  Served from
this cache entry, the transfer list of user 102 is empty: listing 50 is missing. -/
theorem GetTransferList_cache_holds_first_callers_view :
    (uc.GetTransferList GetTransferListFaults.none CacheFaults.none twoListingsWorld 102).2
      = Except.ok [{ TransferListing := activeListing, Player := listedPlayer }] ∧
    (uc.GetTransferList GetTransferListFaults.none CacheFaults.none twoListingsWorld 101).2
      = Except.ok [{ TransferListing := secondListing, Player := secondPlayer }] ∧
    twoListingsWorldSeen
      = { twoListingsWorld with cache :=
            [("transfer_list:all", CacheValue.listings
              [{ TransferListing := secondListing, Player := secondPlayer }])] } ∧
    twoListingsWorldSeen.store = twoListingsWorld.store ∧
    (uc.GetTransferList GetTransferListFaults.none CacheFaults.none twoListingsWorldSeen 102).2
      = Except.ok [] := by
  refine ⟨?_, ?_, ?_, ?_, ?_⟩ <;> rfl

/-! ## Persistence failures -/

/-- C23, the code at the failing input. In the market player 10 of team 1 has the Active
listing 50.  Let the listing lookup fail with a repository error.
`RemoveFromTransferList` by the owner then returns the business error
`ErrPlayerNotOnTransferList`, not the repository error; and `ListPlayer` by the owner
carries on as if the lookup had found nothing and returns a new listing. -/
theorem lookup_failure_is_not_propagated :
    transferRepo.GetListingByPlayerID market 10 = Except.ok activeListing ∧
    callRepo removeLookupFails.getListingByPlayerID
        (transferRepo.GetListingByPlayerID market 10) = Except.error (infra 3) ∧
    RemoveFromTransferList removeLookupFails market 101 10
      = (market, Except.error ErrPlayerNotOnTransferList) ∧
    callRepo lookupFails.getListingByPlayerID
        (transferRepo.GetListingByPlayerID market 10) = Except.error (infra 3) ∧
    (ListPlayer listEnv lookupFails market 101 10 2000000).2
      = Except.ok (NewTransferListing 51 4 10 2000000) := by
  refine ⟨rfl, rfl, rfl, rfl, ?_⟩
  rw [market_list_lookupFails]

/-! ## Fields of a stored listing -/

theorem listingOf_congr {s s' : Store} (h : s'.listings = s.listings) (L : UUID) :
    listingOf s' L = listingOf s L := by
  unfold listingOf; rw [h]

theorem listingOf_CreateListing {s : Store} {L : UUID} {l : TransferListing}
    (listing : TransferListing) (h : listingOf s L = some l) :
    listingOf (transferRepo.CreateListing s listing) L = some l := by
  unfold listingOf transferRepo.CreateListing at *
  simp only [List.find?_append, h]
  rfl

/-- With unique listing ids, storing back a row read from the table with a new status leaves
the other fields of every stored listing as they were. -/
theorem listingOf_UpdateListing_fields {s : Store}
    (hkey : (s.listings.map TransferListing.ID).Nodup) {X : TransferListing}
    (hX : X ∈ s.listings) (Y : TransferListing) (hid : Y.ID = X.ID)
    (hprice : Y.AskingPrice = X.AskingPrice) {L : UUID} {l : TransferListing}
    (h : listingOf s L = some l) :
    ∃ l', listingOf (transferRepo.UpdateListing s Y) L = some l' ∧ l'.ID = l.ID ∧
      l'.PlayerID = l.PlayerID ∧ l'.AskingPrice = l.AskingPrice ∧ l'.ListedAt = l.ListedAt := by
  unfold listingOf at h ⊢
  rw [UpdateListing_find, h]
  have hl : l ∈ s.listings := List.mem_of_find?_eq_some h
  by_cases hlid : l.ID = Y.ID
  · have : l = X := List.inj_on_of_nodup_map hkey hl hX (hlid.trans hid)
    subst this
    exact ⟨_, rfl, by simp [hlid], by simp [hlid], by simp [hlid, hprice], by simp [hlid]⟩
  · exact ⟨l, by simp [hlid], rfl, rfl, rfl, rfl⟩

/-- C24. `MarkAsSold` and `Cancel` change the Status field only.  And for a store with unique
listing ids (the key of the table) and a stored listing `l`: after one call of any use
case, `BuyPlayer` and `RemoveFromTransferList` included, the listing stored under the same
id has the ID, PlayerID, AskingPrice and ListedAt of `l`. -/
theorem listing_fields_are_fixed (s : Store) (op : Op) (L : UUID) (l : TransferListing)
    (hkey : (s.listings.map TransferListing.ID).Nodup)
    (hl : listingOf s L = some l) :
    (∀ tl : TransferListing,
      tl.MarkAsSold = { tl with Status := TransferStatusSold } ∧
      tl.Cancel = { tl with Status := TransferStatusCancelled }) ∧
    ∃ l', listingOf (step s op) L = some l' ∧ l'.ID = l.ID ∧ l'.PlayerID = l.PlayerID ∧
      l'.AskingPrice = l.AskingPrice ∧ l'.ListedAt = l.ListedAt := by
  refine ⟨fun tl => ⟨rfl, rfl⟩, ?_⟩
  have same : ∀ s' : Store, s'.listings = s.listings →
      ∃ l', listingOf s' L = some l' ∧ l'.ID = l.ID ∧ l'.PlayerID = l.PlayerID ∧
        l'.AskingPrice = l.AskingPrice ∧ l'.ListedAt = l.ListedAt :=
    fun s' h => ⟨l, (listingOf_congr h L).trans hl, rfl, rfl, rfl, rfl⟩
  cases op with
  | register env f email password =>
    rcases Register_store_cases env f s email password with e | ⟨u, n, e | e | e⟩ <;>
      simp only [step, e]
    · exact same s rfl
    · exact same _ rfl
    · exact same _ rfl
    · exact same _ rfl
  | listPlayer env f userID playerID askingPrice =>
    rcases ListPlayer_store_cases env f s userID playerID askingPrice with e | ⟨pid, -, e⟩ <;>
      simp only [step, e]
    · exact same s rfl
    · exact ⟨l, listingOf_CreateListing _ hl, rfl, rfl, rfl, rfl⟩
  | removeFromTransferList f userID playerID =>
    rcases RemoveFromTransferList_store_active f s userID playerID with
      e | ⟨X, hX, -, e⟩ <;> simp only [step, e]
    · exact same s rfl
    · exact listingOf_UpdateListing_fields hkey hX X.Cancel rfl rfl hl
  | buyPlayer env f userID listingID =>
    simp only [step]
    rcases BuyPlayer_listings_cases env f s userID listingID with e | ⟨X, hX, -, e⟩
    · exact same _ e
    · rw [listingOf_congr e L]
      exact listingOf_UpdateListing_fields hkey hX X.MarkAsSold rfl rfl hl
  | updateTeam f userID name country =>
    rcases UpdateTeam_store_cases f s userID name country with e | ⟨t, -, e⟩ <;>
      simp only [step, e]
    · exact same s rfl
    · exact same _ rfl
  | updatePlayer f userID playerID firstName lastName country =>
    rcases UpdatePlayer_store_cases f s userID playerID firstName lastName country with
      e | ⟨q, e⟩ <;> simp only [step, e]
    · exact same s rfl
    · exact same _ rfl

/-- Witness for C24: in the market the second team buys listing 50; the listing stored under
50 still refers to player 10, asks 1,000,000 and was listed at time 1. -/
theorem listing_fields_are_fixed_witness :
    ∃ l', listingOf (step market (Op.buyPlayer marketEnv BuyFaults.none 102 50)) 50 = some l' ∧
      l'.ID = activeListing.ID ∧ l'.PlayerID = activeListing.PlayerID ∧
      l'.AskingPrice = activeListing.AskingPrice ∧ l'.ListedAt = activeListing.ListedAt :=
  (listing_fields_are_fixed market (Op.buyPlayer marketEnv BuyFaults.none 102 50) 50
    activeListing (by decide) rfl).2

/-! ## Register and Login -/

theorem GetByEmail_none {s : Store} {email : String}
    (h : ∀ u ∈ s.users, u.Email ≠ email) :
    userRepo.GetByEmail s email = Except.error ErrUserNotFound := by
  unfold userRepo.GetByEmail
  have hnone : s.users.find? (fun u => u.Email == email) = none := by
    rw [List.find?_eq_none]
    intro u hu
    simpa using h u hu
  rw [hnone]

theorem GetByEmail_ok {s : Store} {email : String} {u : User}
    (h : userRepo.GetByEmail s email = Except.ok u) : u ∈ s.users ∧ u.Email = email := by
  unfold userRepo.GetByEmail at h
  split at h
  · next t ht =>
    injection h with h
    subst h
    have := List.find?_some ht
    simp only [beq_iff_eq] at this
    exact ⟨List.mem_of_find?_eq_some ht, this⟩
  · simp at h

/-- `Register` when the e-mail lookup yields no user (none found, or the lookup failed), the
hash and the token are produced and no write fails. -/
theorem Register_creates {env : RegisterEnv} {f : RegisterFaults} {s : Store}
    {email password hash token : String}
    (hlook : ∀ u, callRepo f.getByEmail (userRepo.GetByEmail s email) ≠ Except.ok u)
    (hhash : env.hashPassword password = Except.ok hash)
    (h1 : f.createUser = none) (h2 : f.createTeam = none) (h3 : f.createBatch = none)
    (htoken : env.generateToken env.userID email = Except.ok token) :
    Register env f s email password
      = (registeredStore env s (NewUser env.userID env.now email hash),
         Except.ok { Token := token, User := NewUser env.userID env.now email hash }) := by
  unfold Register
  cases hg : callRepo f.getByEmail (userRepo.GetByEmail s email) with
  | ok u => exact absurd hg (hlook u)
  | error e =>
    have htoken2 : env.generateToken (NewUser env.userID env.now email hash).ID
        (NewUser env.userID env.now email hash).Email = Except.ok token := htoken
    simp only [Option.isSome_none, Bool.false_eq_true, if_false, hhash, h1, h2, h3,
      execRepo_none, htoken2]
    rfl

/-- Inversion of `Register`: a returned response means that the lookup yielded no user, that
the hash and the token were produced, and that every write went through. -/
theorem Register_ok {env : RegisterEnv} {f : RegisterFaults} {s : Store}
    {email password : String} {resp : AuthResponse}
    (h : (Register env f s email password).2 = Except.ok resp) :
    ∃ hash token, env.hashPassword password = Except.ok hash ∧
      env.generateToken env.userID email = Except.ok token ∧
      resp = { Token := token, User := NewUser env.userID env.now email hash } ∧
      (Register env f s email password).1
        = registeredStore env s (NewUser env.userID env.now email hash) ∧
      (f.getByEmail = none → ∀ u ∈ s.users, u.Email ≠ email) := by
  have hlook : ∀ u, callRepo f.getByEmail (userRepo.GetByEmail s email) ≠ Except.ok u := by
    intro u hu
    unfold Register at h
    simp [hu] at h
  cases hh : env.hashPassword password with
  | error c =>
    unfold Register at h
    cases hg : callRepo f.getByEmail (userRepo.GetByEmail s email) with
    | ok u => exact absurd hg (hlook u)
    | error e => simp [hg, hh] at h
  | ok hash =>
    have hpre : ∀ (P : Prop), (f.createUser = none → f.createTeam = none →
        f.createBatch = none → ∀ token, env.generateToken env.userID email = Except.ok token →
        P) → P := by
      intro P hP
      unfold Register at h
      cases hg : callRepo f.getByEmail (userRepo.GetByEmail s email) with
      | ok u => exact absurd hg (hlook u)
      | error e =>
        cases h1 : f.createUser with
        | some c => simp [hg, hh, h1, execRepo_some] at h
        | none =>
        cases h2 : f.createTeam with
        | some c => simp [hg, hh, h1, h2, execRepo_some, execRepo_none] at h
        | none =>
        cases h3 : f.createBatch with
        | some c => simp [hg, hh, h1, h2, h3, execRepo_some, execRepo_none] at h
        | none =>
        cases ht : env.generateToken env.userID email with
        | error c =>
          have ht2 : env.generateToken (NewUser env.userID env.now email hash).ID
              (NewUser env.userID env.now email hash).Email = Except.error c := ht
          simp [hg, hh, h1, h2, h3, execRepo_none, ht2] at h
        | ok token => exact hP h1 h2 h3 token ht
    apply hpre
    intro h1 h2 h3 token ht
    have hreg := Register_creates hlook hh h1 h2 h3 ht
    rw [hreg] at h ⊢
    simp only [Except.ok.injEq] at h
    refine ⟨hash, token, rfl, ht, h.symm, rfl, ?_⟩
    intro hf u hu hemail
    cases hg : userRepo.GetByEmail s email with
    | ok u' => exact hlook u' (by rw [hf, callRepo_none, hg])
    | error e =>
      unfold userRepo.GetByEmail at hg
      split at hg
      · simp at hg
      · next hnone =>
        rw [List.find?_eq_none] at hnone
        exact hnone u hu (by simp [hemail])

theorem registeredStore_users (env : RegisterEnv) (s : Store) (user : User) :
    (registeredStore env s user).users = s.users ++ [user] := rfl

theorem GetByEmail_registered {env : RegisterEnv} {s : Store} {user : User}
    (hnew : ∀ u ∈ s.users, u.Email ≠ user.Email) :
    userRepo.GetByEmail (registeredStore env s user) user.Email = Except.ok user := by
  unfold userRepo.GetByEmail
  rw [registeredStore_users]
  have hnone : s.users.find? (fun u => u.Email == user.Email) = none := by
    rw [List.find?_eq_none]
    intro u hu
    simpa using hnew u hu
  simp [List.find?_append, hnone]

/-- C25. If `Register` succeeds for an e-mail that no stored user has, then, provided the
password package accepts the hash it produced for that password and token signing
succeeds, a following `Login` with the same e-mail and password succeeds and returns the
user that `Register` created.  `Login` with an e-mail that no stored user has, or with a
password that the password package does not accept for the stored hash, fails with
`ErrInvalidCredentials`. -/
theorem Register_then_Login (envR : RegisterEnv) (fR : RegisterFaults) (s : Store)
    (email password : String) (resp : AuthResponse) (envL : LoginEnv)
    (hreg : (Register envR fR s email password).2 = Except.ok resp)
    (hnew : ∀ u ∈ s.users, u.Email ≠ email)
    (hverify : ∀ h, envR.hashPassword password = Except.ok h →
      envL.checkPasswordHash password h = true)
    (hsign : ∀ id em, ∃ token, envL.generateToken id em = Except.ok token) :
    (∃ token, Login envL none (Register envR fR s email password).1 email password
      = Except.ok { Token := token, User := resp.User }) ∧
    (∀ email' password',
      (∀ u ∈ (Register envR fR s email password).1.users, u.Email ≠ email') →
      Login envL none (Register envR fR s email password).1 email' password'
        = Except.error ErrInvalidCredentials) ∧
    (∀ password', envL.checkPasswordHash password' resp.User.PasswordHash = false →
      Login envL none (Register envR fR s email password).1 email password'
        = Except.error ErrInvalidCredentials) := by
  obtain ⟨hash, token, hhash, -, hresp, hstore, -⟩ := Register_ok hreg
  have huser : resp.User = NewUser envR.userID envR.now email hash := by rw [hresp]
  have hget : userRepo.GetByEmail (Register envR fR s email password).1 email
      = Except.ok resp.User := by
    rw [hstore, huser]
    exact @GetByEmail_registered envR s (NewUser envR.userID envR.now email hash) hnew
  refine ⟨?_, ?_, ?_⟩
  · obtain ⟨tok, htok⟩ := hsign resp.User.ID resp.User.Email
    refine ⟨tok, ?_⟩
    unfold Login
    have hcheck : envL.checkPasswordHash password resp.User.PasswordHash = true := by
      rw [huser]; exact hverify hash hhash
    simp [callRepo_none, hget, hcheck, htok]
  · intro email' password' hnone
    unfold Login
    simp [callRepo_none, GetByEmail_none hnone]
  · intro password' hbad
    unfold Login
    simp [callRepo_none, hget, hbad]

theorem market_register :
    Register registerEnv RegisterFaults.none market "new@example.com" "password123"
      = (registeredStore registerEnv market
          (NewUser 104 5 "new@example.com" "hash:password123"),
         Except.ok { Token := "token:new@example.com",
                     User := NewUser 104 5 "new@example.com" "hash:password123" }) :=
  @Register_creates registerEnv RegisterFaults.none market "new@example.com" "password123"
    "hash:password123" "token:new@example.com" (by intro u; simp [RegisterFaults.none,
      callRepo_none, userRepo.GetByEmail, market]) rfl rfl rfl rfl rfl

/-- Witness for C25: a new user registers in the market and logs in; a wrong password is
refused. -/
theorem Register_then_Login_witness :
    (∃ token,
      Login loginEnv none
        (Register registerEnv RegisterFaults.none market "new@example.com" "password123").1
        "new@example.com" "password123"
      = Except.ok { Token := token,
                    User := NewUser 104 5 "new@example.com" "hash:password123" }) ∧
    Login loginEnv none
        (Register registerEnv RegisterFaults.none market "new@example.com" "password123").1
        "new@example.com" "password124"
      = Except.error ErrInvalidCredentials :=
  have h := Register_then_Login registerEnv RegisterFaults.none market "new@example.com"
    "password123" { Token := "token:new@example.com",
                    User := NewUser 104 5 "new@example.com" "hash:password123" } loginEnv
    (by rw [market_register]) (by decide)
    (by intro h hh; simp only [registerEnv, Except.ok.injEq] at hh; simp [loginEnv, ← hh])
    (fun _ em => ⟨"token:" ++ em, rfl⟩)
  ⟨h.1, h.2.2 "password124" (by decide)⟩

theorem generateInitialPlayers_positions (env : RegisterEnv) (teamID : UUID) :
    (generateInitialPlayers env teamID).map Player.Position
      = List.replicate 3 Position.PositionGoalkeeper
        ++ List.replicate 6 Position.PositionDefender
        ++ List.replicate 6 Position.PositionMidfielder
        ++ List.replicate 5 Position.PositionAttacker := rfl

theorem generateInitialPlayers_fields (env : RegisterEnv) (teamID : UUID) :
    ∀ p ∈ generateInitialPlayers env teamID,
      p.TeamID = some teamID ∧ p.MarketValue = 1000000 ∧ MinAge ≤ p.Age ∧ p.Age ≤ MaxAge := by
  intro p hp
  simp only [generateInitialPlayers, List.mem_append, List.mem_map] at hp
  have key : ∀ pos i, (generatePlayer env teamID pos i).TeamID = some teamID ∧
      (generatePlayer env teamID pos i).MarketValue = 1000000 ∧
      MinAge ≤ (generatePlayer env teamID pos i).Age ∧
      (generatePlayer env teamID pos i).Age ≤ MaxAge := by
    intro pos i
    refine ⟨rfl, rfl, ?_, ?_⟩
    · show MinAge ≤ MinAge + (env.draws i).age % (MaxAge - MinAge + 1)
      omega
    · show MinAge + (env.draws i).age % (MaxAge - MinAge + 1) ≤ MaxAge
      have : (env.draws i).age % (MaxAge - MinAge + 1) < MaxAge - MinAge + 1 :=
        Nat.mod_lt _ (by unfold MaxAge MinAge; omega)
      unfold MaxAge MinAge at *
      omega
  rcases hp with ((⟨i, -, rfl⟩ | ⟨i, -, rfl⟩) | ⟨i, -, rfl⟩) | ⟨i, -, rfl⟩ <;> exact key _ _

/-- C26. For an e-mail that no stored user has, with repositories that do not fail and the
hash and the token produced, `Register` succeeds and leaves the old store with one more
user, one more team, owned by that user and holding 5,000,000, and twenty more players,
all owned by that team, valued 1,000,000 and aged 18 to 40: three goalkeepers, six
defenders, six midfielders and five attackers; listings and transfers are as before.  For
an e-mail that a stored user has, `Register` fails with `ErrUserAlreadyExists` and
returns the store it was given. -/
theorem Register_creates_team_and_squad (env : RegisterEnv) (s : Store)
    (email password hash token : String)
    (hhash : env.hashPassword password = Except.ok hash)
    (htoken : env.generateToken env.userID email = Except.ok token) :
    ((∀ u ∈ s.users, u.Email ≠ email) →
      ∃ user team squad,
        Register env RegisterFaults.none s email password
          = ({ users := s.users ++ [user], teams := s.teams ++ [team],
               players := s.players ++ squad, listings := s.listings,
               transfers := s.transfers },
             Except.ok { Token := token, User := user }) ∧
        user.Email = email ∧
        team.UserID = user.ID ∧ team.Budget = 5000000 ∧
        squad.length = 20 ∧
        (squad.map Player.Position).count Position.PositionGoalkeeper = 3 ∧
        (squad.map Player.Position).count Position.PositionDefender = 6 ∧
        (squad.map Player.Position).count Position.PositionMidfielder = 6 ∧
        (squad.map Player.Position).count Position.PositionAttacker = 5 ∧
        ∀ p ∈ squad, p.TeamID = some team.ID ∧ p.MarketValue = 1000000 ∧
          18 ≤ p.Age ∧ p.Age ≤ 40) ∧
    ((∃ u ∈ s.users, u.Email = email) →
      Register env RegisterFaults.none s email password
        = (s, Except.error ErrUserAlreadyExists)) := by
  constructor
  · intro hnew
    have hlook : ∀ u, callRepo RegisterFaults.none.getByEmail (userRepo.GetByEmail s email)
        ≠ Except.ok u := by
      intro u
      show callRepo none (userRepo.GetByEmail s email) ≠ Except.ok u
      rw [callRepo_none, GetByEmail_none hnew]
      simp
    refine ⟨NewUser env.userID env.now email hash,
      NewTeam env.teamID env.now env.userID (generateDefaultTeamName env.teamName) "Unknown",
      generateInitialPlayers env env.teamID, ?_, rfl, rfl, rfl, rfl, ?_, ?_, ?_, ?_, ?_⟩
    · rw [Register_creates hlook hhash rfl rfl rfl htoken]
      rfl
    · rw [generateInitialPlayers_positions]; decide
    · rw [generateInitialPlayers_positions]; decide
    · rw [generateInitialPlayers_positions]; decide
    · rw [generateInitialPlayers_positions]; decide
    · exact generateInitialPlayers_fields env env.teamID
  · rintro ⟨u, hu, hemail⟩
    unfold Register
    cases hg : userRepo.GetByEmail s email with
    | error e =>
      unfold userRepo.GetByEmail at hg
      split at hg
      · simp at hg
      · next hnone =>
        rw [List.find?_eq_none] at hnone
        exact absurd (by simp [hemail]) (hnone u hu)
    | ok u' => simp [RegisterFaults.none, callRepo_none, hg]

/-- Witness for C26: a new user registers in the market; a second registration with the same
e-mail is refused. -/
theorem Register_creates_team_and_squad_witness :
    (∃ user team squad,
        Register registerEnv RegisterFaults.none market "new@example.com" "password123"
          = ({ users := market.users ++ [user], teams := market.teams ++ [team],
               players := market.players ++ squad, listings := market.listings,
               transfers := market.transfers },
             Except.ok { Token := "token:new@example.com", User := user }) ∧
        user.Email = "new@example.com" ∧
        team.UserID = user.ID ∧ team.Budget = 5000000 ∧
        squad.length = 20 ∧
        (squad.map Player.Position).count Position.PositionGoalkeeper = 3 ∧
        (squad.map Player.Position).count Position.PositionDefender = 6 ∧
        (squad.map Player.Position).count Position.PositionMidfielder = 6 ∧
        (squad.map Player.Position).count Position.PositionAttacker = 5 ∧
        ∀ p ∈ squad, p.TeamID = some team.ID ∧ p.MarketValue = 1000000 ∧
          18 ≤ p.Age ∧ p.Age ≤ 40) ∧
    Register registerEnv RegisterFaults.none
        (registeredStore registerEnv market
          (NewUser 104 5 "new@example.com" "hash:password123"))
        "new@example.com" "password123"
      = (registeredStore registerEnv market
          (NewUser 104 5 "new@example.com" "hash:password123"),
         Except.error ErrUserAlreadyExists) :=
  ⟨(Register_creates_team_and_squad registerEnv market "new@example.com" "password123"
      "hash:password123" "token:new@example.com" rfl rfl).1 (by decide),
   (Register_creates_team_and_squad registerEnv
      (registeredStore registerEnv market
        (NewUser 104 5 "new@example.com" "hash:password123"))
      "new@example.com" "password123" "hash:password123" "token:new@example.com"
      rfl rfl).2 ⟨NewUser 104 5 "new@example.com" "hash:password123",
        by simp [registeredStore_users], rfl⟩⟩

/-! ## Order of the checks of BuyPlayer -/

theorem GetListingByID_none {s : Store} {listingID : UUID}
    (h : ∀ l ∈ s.listings, l.ID ≠ listingID) :
    transferRepo.GetListingByID s listingID = Except.error ErrTransferListingNotFound := by
  unfold transferRepo.GetListingByID
  have hnone : s.listings.find? (fun l => l.ID == listingID) = none := by
    rw [List.find?_eq_none]
    intro l hl
    simpa using h l hl
  rw [hnone]

theorem playerGetByID_none {s : Store} {playerID : UUID}
    (h : ∀ p ∈ s.players, p.ID ≠ playerID) :
    playerRepo.GetByID s playerID = Except.error ErrPlayerNotFound := by
  unfold playerRepo.GetByID
  have hnone : s.players.find? (fun p => p.ID == playerID) = none := by
    rw [List.find?_eq_none]
    intro p hp
    simpa using h p hp
  rw [hnone]

/-- C27, counterexample. In the market no team belongs to user 999 and no listing has the id
888.  The purchase of listing 888 by user 999 fails with `ErrTeamNotFound`, not with the
listing-not-found error: the caller's team is loaded before the listing. -/
theorem BuyPlayer_loads_team_before_listing :
    teamRepo.GetByUserID market 999 = Except.error ErrTeamNotFound ∧
    transferRepo.GetListingByID market 888 = Except.error ErrTransferListingNotFound ∧
    BuyPlayer marketEnv BuyFaults.none market 999 888
      = (market, Except.error ErrTeamNotFound) :=
  ⟨rfl, rfl, rfl⟩

/-- C27, amended. With the reads answering, `BuyPlayer` reports the first failing check in
this order, returning the store it was given: caller's team missing, listing absent,
listing not Active, player record missing, self-purchase, insufficient funds, roster
full.  So a caller without a team gets `ErrTeamNotFound` even for an absent listing; a
caller with a team gets the listing-not-found error for an absent listing whatever its
budget and roster; a buyer who owns the listed player gets `ErrCannotBuyOwnPlayer` whether
or not it can afford it; a buyer who cannot afford the price gets `ErrInsufficientBudget`
whether or not its roster is full. -/
theorem BuyPlayer_check_order (env : BuyEnv) (f : BuyFaults) (s : Store)
    (userID listingID : UUID)
    (hf1 : f.getByUserID = none) (hf2 : f.getListingByID = none) (hf3 : f.getPlayerByID = none)
    (hf4 : f.getPlayerCount = none) :
    ((∀ t ∈ s.teams, t.UserID ≠ userID) →
      BuyPlayer env f s userID listingID = (s, Except.error ErrTeamNotFound)) ∧
    (∀ B, teamRepo.GetByUserID s userID = Except.ok B →
      ((∀ l ∈ s.listings, l.ID ≠ listingID) →
        BuyPlayer env f s userID listingID
          = (s, Except.error ErrTransferListingNotFound)) ∧
      (∀ l, transferRepo.GetListingByID s listingID = Except.ok l →
        (l.Status ≠ TransferStatusActive →
          BuyPlayer env f s userID listingID
            = (s, Except.error ErrTransferListingNotFound)) ∧
        (l.Status = TransferStatusActive →
          ((∀ p ∈ s.players, p.ID ≠ l.PlayerID) →
            BuyPlayer env f s userID listingID = (s, Except.error ErrPlayerNotFound)) ∧
          (∀ p, playerRepo.GetByID s l.PlayerID = Except.ok p →
            (p.IsOwnedBy B.ID = true →
              BuyPlayer env f s userID listingID
                = (s, Except.error ErrCannotBuyOwnPlayer)) ∧
            (p.IsOwnedBy B.ID = false → B.Budget < F64.fin l.AskingPrice →
              BuyPlayer env f s userID listingID
                = (s, Except.error ErrInsufficientBudget)) ∧
            (p.IsOwnedBy B.ID = false → F64.fin l.AskingPrice ≤ B.Budget →
              MaxPlayers ≤ teamRepo.GetPlayerCount s B.ID →
              BuyPlayer env f s userID listingID = (s, Except.error ErrTeamFull)))))) := by
  constructor
  · intro hnone
    apply BuyPlayer_of_checks_error
    have hfind : s.teams.find? (fun t => t.UserID == userID) = none := by
      rw [List.find?_eq_none]
      intro t ht
      simpa using hnone t ht
    unfold buyPlayerChecks
    simp [hf1, callRepo_none, teamRepo.GetByUserID, hfind]
  · intro B hB
    constructor
    · intro habs
      apply BuyPlayer_of_checks_error
      unfold buyPlayerChecks
      simp [hf1, hf2, callRepo_none, hB, GetListingByID_none habs]
    · intro l hl
      constructor
      · intro hst
        apply BuyPlayer_of_checks_error
        unfold buyPlayerChecks
        simp [hf1, hf2, callRepo_none, hB, hl, TransferListing.IsActive, hst]
      · intro hact
        constructor
        · intro hmiss
          apply BuyPlayer_of_checks_error
          unfold buyPlayerChecks
          simp [hf1, hf2, hf3, callRepo_none, hB, hl, TransferListing.IsActive, hact,
            playerGetByID_none hmiss]
        · intro p hp
          have hc := buyPlayerChecks_after_loads hf1 hf2 hf3 hB hl hact hp
          refine ⟨?_, ?_, ?_⟩
          · intro hown
            apply BuyPlayer_of_checks_error
            rw [hc]
            have hsome : p.TeamID.isSome = true := by
              unfold Player.IsOwnedBy at hown
              cases ht : p.TeamID with
              | none => rw [ht] at hown; simp at hown
              | some t => rfl
            simp [hown, hsome]
          · intro hown hlt
            apply BuyPlayer_of_checks_error
            rw [hc]
            have : ¬ F64.fin l.AskingPrice ≤ B.Budget := F64.lt_imp_not_ge hlt
            simp [hown, Team.CanAfford, this]
          · intro hown haff hfull
            apply BuyPlayer_of_checks_error
            rw [hc]
            simp [hown, Team.CanAfford, haff, hf4, callRepo_none, hfull]

/-- Witness for C27 as amended: a buyer who owns the listed player and cannot afford it is
told that it cannot buy its own player; a buyer who can neither afford the price nor has
roster space is told that its budget is insufficient; a caller without a team is told so
even for an absent listing. -/
theorem BuyPlayer_check_order_witness :
    BuyPlayer marketEnv BuyFaults.none ownPoorMarket 102 50
      = (ownPoorMarket, Except.error ErrCannotBuyOwnPlayer) ∧
    BuyPlayer marketEnv BuyFaults.none fullPoorMarket 102 50
      = (fullPoorMarket, Except.error ErrInsufficientBudget) ∧
    BuyPlayer marketEnv BuyFaults.none market 102 888
      = (market, Except.error ErrTransferListingNotFound) ∧
    BuyPlayer marketEnv BuyFaults.none market 999 888
      = (market, Except.error ErrTeamNotFound) ∧
    BuyPlayer marketEnv BuyFaults.none closedMarket 102 50
      = (closedMarket, Except.error ErrTransferListingNotFound) ∧
    BuyPlayer marketEnv BuyFaults.none orphanMarket 102 50
      = (orphanMarket, Except.error ErrPlayerNotFound) ∧
    BuyPlayer marketEnv BuyFaults.none fullMarket 102 50
      = (fullMarket, Except.error ErrTeamFull) :=
  ⟨((((BuyPlayer_check_order marketEnv BuyFaults.none ownPoorMarket 102 50 rfl rfl rfl
      rfl).2 poorTeam rfl).2 activeListing rfl).2 rfl).2
      (Player.mk 10 (some 2) "John" "Smith" "Brazil" 25 Position.PositionAttacker 1000000 0 0)
      rfl |>.1 rfl,
   ((((BuyPlayer_check_order marketEnv BuyFaults.none fullPoorMarket 102 50 rfl rfl rfl
      rfl).2 poorTeam rfl).2 activeListing rfl).2 rfl).2 listedPlayer rfl |>.2.1 rfl
      (by decide!),
   ((BuyPlayer_check_order marketEnv BuyFaults.none market 102 888 rfl rfl rfl rfl).2
      buyerTeam rfl).1 (by decide),
   (BuyPlayer_check_order marketEnv BuyFaults.none market 999 888 rfl rfl rfl rfl).1
      (by decide),
   (((BuyPlayer_check_order marketEnv BuyFaults.none closedMarket 102 50 rfl rfl rfl rfl).2
      buyerTeam rfl).2 activeListing.MarkAsSold rfl).1 (by decide),
   ((((BuyPlayer_check_order marketEnv BuyFaults.none orphanMarket 102 50 rfl rfl rfl rfl).2
      buyerTeam rfl).2 activeListing rfl).2 rfl).1 (by decide),
   ((((BuyPlayer_check_order marketEnv BuyFaults.none fullMarket 102 50 rfl rfl rfl
      rfl).2 buyerTeam rfl).2 activeListing rfl).2 rfl).2 listedPlayer rfl |>.2.2 rfl
      (by decide!) (by decide)⟩

/-! ## What UpdatePlayer, ListPlayer and RemoveFromTransferList leave alone -/

/-- With unique player ids, `playerRepo.Update` rewrites the one row it was given and no
other. -/
theorem playerRepo_Update_replaces {s : Store} (hkey : (s.players.map Player.ID).Nodup)
    {P : Player} (hP : P ∈ s.players) (player : Player)
    (hid : player.ID = P.ID) (hat : player.CreatedAt = P.CreatedAt) :
    playerRepo.Update s player
      = { s with players := s.players.map (fun r => if r = P then player else r) } := by
  unfold playerRepo.Update
  congr 1
  apply List.map_congr_left
  intro r hr
  by_cases hrl : r = P
  · subst hrl
    simp only [hid, beq_self_eq_true, if_true]
    cases player
    cases r
    simp_all
  · have hne : r.ID ≠ player.ID := by
      intro he
      exact hrl (List.inj_on_of_nodup_map hkey hr hP (he.trans hid))
    simp [hne, hrl]

/-- C29. For a caller with a team `T` and a stored player `p`, with the two loads answering:
if `T` does not own `p`, `UpdatePlayer` fails with `ErrPlayerNotOwned` and returns the
store it was given; if `T` owns `p` and the update goes through, the store left behind is
the old one with the row `p` replaced by `p` with the requested FirstName, LastName and
Country, so that TeamID, MarketValue, Age and Position (and every other row and table) are
as before; if the update fails the store is as before.  Player ids are unique (they are
the key of the table).  And whatever the repositories do, `ListPlayer` and
`RemoveFromTransferList` leave the players and teams tables as they were. -/
theorem UpdatePlayer_changes_names_only (f : UpdatePlayerFaults) (s : Store)
    (userID playerID : UUID) (firstName lastName country : String) (T : Team) (p : Player)
    (hf1 : f.getByUserID = none) (hf2 : f.getPlayerByID = none)
    (hT : teamRepo.GetByUserID s userID = Except.ok T)
    (hp : playerRepo.GetByID s playerID = Except.ok p) :
    (p.IsOwnedBy T.ID = false →
      UpdatePlayer f s userID playerID firstName lastName country
        = (s, Except.error ErrPlayerNotOwned)) ∧
    (p.IsOwnedBy T.ID = true → (s.players.map Player.ID).Nodup →
      (f.update = none →
        UpdatePlayer f s userID playerID firstName lastName country
          = ({ s with players := s.players.map (fun r =>
                if r = p then
                  { p with FirstName := firstName, LastName := lastName, Country := country }
                else r) },
             Except.ok
               { p with FirstName := firstName, LastName := lastName, Country := country })) ∧
      (∀ c, f.update = some c →
        UpdatePlayer f s userID playerID firstName lastName country
          = (s, Except.error (infra c)))) ∧
    (∀ (env : ListEnv) (fl : ListFaults) (u q : UUID) (price : ℚ),
      (ListPlayer env fl s u q price).1.players = s.players ∧
      (ListPlayer env fl s u q price).1.teams = s.teams) ∧
    (∀ (fr : RemoveFaults) (u q : UUID),
      (RemoveFromTransferList fr s u q).1.players = s.players ∧
      (RemoveFromTransferList fr s u q).1.teams = s.teams) := by
  have hloads : UpdatePlayer f s userID playerID firstName lastName country =
      if !p.IsOwnedBy T.ID then (s, Except.error ErrPlayerNotOwned) else
      match execRepo f.update s (playerRepo.Update s
        (Player.mk p.ID p.TeamID firstName lastName country p.Age p.Position p.MarketValue
          p.CreatedAt p.UpdatedAt)) with
      | (s1, Except.error e) => (s1, Except.error e)
      | (s1, Except.ok _) =>
        (s1, Except.ok (Player.mk p.ID p.TeamID firstName lastName country p.Age p.Position
          p.MarketValue p.CreatedAt p.UpdatedAt)) := by
    unfold UpdatePlayer
    simp only [hf1, hf2, callRepo_none, hT, hp]
  refine ⟨?_, ?_, ?_, ?_⟩
  · intro hown
    rw [hloads]; simp [hown]
  · intro hown hkey
    constructor
    · intro hupd
      rw [hloads]
      simp only [hown, hupd, execRepo_none, Bool.not_true, Bool.false_eq_true, if_false]
      rw [playerRepo_Update_replaces hkey (mem_of_playerGetByID hp).1
        (Player.mk p.ID p.TeamID firstName lastName country p.Age p.Position p.MarketValue
          p.CreatedAt p.UpdatedAt) rfl rfl]
    · intro c hupd
      rw [hloads]
      simp [hown, hupd, execRepo_some]
  · intro env fl u q price
    rcases ListPlayer_store_cases env fl s u q price with e | ⟨pid, -, e⟩ <;> rw [e]
    · exact ⟨rfl, rfl⟩
    · exact ⟨rfl, rfl⟩
  · intro fr u q
    rcases RemoveFromTransferList_store_cases fr s u q with e | ⟨l, e⟩ <;> rw [e]
    · exact ⟨rfl, rfl⟩
    · exact ⟨rfl, rfl⟩

/-- Witness for C29: in the market the first team renames player 10; the second team is
refused. -/
theorem UpdatePlayer_changes_names_only_witness :
    UpdatePlayer { getByUserID := none, getPlayerByID := none, update := none } market 102 10
        "Giorgi" "Beridze" "Georgia"
      = (market, Except.error ErrPlayerNotOwned) ∧
    UpdatePlayer { getByUserID := none, getPlayerByID := none, update := none } market 101 10
        "Giorgi" "Beridze" "Georgia"
      = ({ market with players := market.players.map (fun r =>
            if r = listedPlayer then
              { listedPlayer with FirstName := "Giorgi", LastName := "Beridze",
                                  Country := "Georgia" }
            else r) },
         Except.ok { listedPlayer with FirstName := "Giorgi", LastName := "Beridze",
                                       Country := "Georgia" }) :=
  ⟨(UpdatePlayer_changes_names_only
      { getByUserID := none, getPlayerByID := none, update := none } market 102 10
      "Giorgi" "Beridze" "Georgia" buyerTeam listedPlayer rfl rfl rfl rfl).1 rfl,
   ((UpdatePlayer_changes_names_only
      { getByUserID := none, getPlayerByID := none, update := none } market 101 10
      "Giorgi" "Beridze" "Georgia" sellerTeam listedPlayer rfl rfl rfl rfl).2.1 rfl
      (by decide)).1 rfl⟩

/-! ## Localization -/

/-- The first piece of `Split` is the part of the string before the first separator. -/
theorem Split_head (s : Bytes) (sep : Nat) :
    ∃ pieces, Split s sep = s.takeWhile (fun b => b != sep) :: pieces := by
  induction s with
  | nil => exact ⟨[], rfl⟩
  | cons b rest ih =>
    obtain ⟨pieces, hp⟩ := ih
    by_cases hb : b = sep
    · refine ⟨Split rest sep, ?_⟩
      simp [Split, hb]
    · refine ⟨pieces, ?_⟩
      simp [Split, hb, hp]

theorem LangEN_ne_LangKA : LangEN ≠ LangKA := by decide

/-- Closed form of `normalizeLang`: Georgian exactly when the trimmed, lower-cased input
starts with the two bytes of `ka`, English otherwise. -/
theorem normalizeLang_eq (S : Strings) (lang : Bytes) :
    normalizeLang S lang
      = if (S.ToLower (S.TrimSpace lang)).take 2 = LangKA then LangKA else LangEN := by
  unfold normalizeLang
  generalize S.ToLower (S.TrimSpace lang) = l
  have hEN : LangEN = [101, 110] := by decide
  have hKA : LangKA = [107, 97] := by decide
  simp only [LangDefault, hEN, hKA]
  match l with
  | [] => simp
  | [a] => simp
  | [a, b] =>
    by_cases h1 : a = 107 ∧ b = 97
    · simp [h1.1, h1.2]
    · by_cases h2 : a = 101 ∧ b = 110
      · simp [h2.1, h2.2]
      · simp [h1, h2]
  | a :: b :: c :: rest =>
    by_cases h1 : a = 107 ∧ b = 97
    · simp [h1.1, h1.2]
    · by_cases h2 : a = 101 ∧ b = 110
      · simp [h2.1, h2.2]
      · simp [h1, h2]

/-- C30. Whatever `strings.ToLower` and `strings.TrimSpace` return: `normalizeLang` answers
`en` or `ka`, and it answers `ka` exactly when the trimmed, lower-cased input begins with
the two bytes `ka` (so `en` for an empty, shorter or otherwise different input);
`GetMessage` returns the Georgian text when the normalized language is `ka` and the key is
in the Georgian table, otherwise the English text when the key is in the English table,
otherwise the key; `GetLanguageFromHeader` answers `en` on the empty header and otherwise
normalizes the trimmed first comma-separated entry cut at its first semicolon. -/
theorem localization_falls_back (S : Strings) :
    (∀ lang, normalizeLang S lang = LangEN ∨ normalizeLang S lang = LangKA) ∧
    (∀ lang, normalizeLang S lang
      = if (S.ToLower (S.TrimSpace lang)).take 2 = LangKA then LangKA else LangEN) ∧
    (∀ lang, S.ToLower (S.TrimSpace lang) = [] → normalizeLang S lang = LangEN) ∧
    (∀ lang key, GetMessage S lang key
      = match (if normalizeLang S lang = LangKA then messagesKA.lookup key else none) with
        | some msg => msg
        | none => (messagesEN.lookup key).getD key) ∧
    (∀ header, GetLanguageFromHeader S header
      = if header = [] then LangEN
        else normalizeLang S
          ((S.TrimSpace (header.takeWhile (fun b => b != comma))).takeWhile
            (fun b => b != semicolon))) := by
  have hcases : ∀ lang, normalizeLang S lang = LangEN ∨ normalizeLang S lang = LangKA := by
    intro lang
    rw [normalizeLang_eq]
    split
    · exact Or.inr rfl
    · exact Or.inl rfl
  refine ⟨hcases, normalizeLang_eq S, ?_, ?_, ?_⟩
  · intro lang h
    rw [normalizeLang_eq, h]
    rfl
  · intro lang key
    unfold GetMessage
    rcases hcases lang with h | h
    · simp only [h, Messages, LangDefault, if_true, if_neg LangEN_ne_LangKA]
      cases messagesEN.lookup key <;> rfl
    · simp only [h, Messages, LangDefault, if_true, if_neg LangEN_ne_LangKA.symm]
      cases messagesKA.lookup key <;> cases messagesEN.lookup key <;> rfl
  · intro header
    unfold GetLanguageFromHeader
    obtain ⟨pieces, hp⟩ := Split_head header comma
    obtain ⟨pieces2, hp2⟩ :=
      Split_head (S.TrimSpace (header.takeWhile (fun b => b != comma))) semicolon
    rw [hp]
    simp only [hp2, List.headD_cons, LangDefault]

/-- The localization functions on ASCII input: blank and unknown tags give English, a tag
that starts with `ka` in any case gives Georgian (also `kab`), the header is read up to its
first comma and semicolon, and a key missing from the tables is returned as it is. -/
theorem localization_examples :
    normalizeLang asciiStrings (utf8 "") = utf8 "en" ∧
    normalizeLang asciiStrings (utf8 "  ") = utf8 "en" ∧
    normalizeLang asciiStrings (utf8 "fr") = utf8 "en" ∧
    normalizeLang asciiStrings (utf8 "k") = utf8 "en" ∧
    normalizeLang asciiStrings (utf8 " KA-ge ") = utf8 "ka" ∧
    normalizeLang asciiStrings (utf8 "kab") = utf8 "ka" ∧
    GetLanguageFromHeader asciiStrings (utf8 "ka-GE;q=0.9, en") = utf8 "ka" ∧
    GetLanguageFromHeader asciiStrings (utf8 " en-US , ka") = utf8 "en" ∧
    GetLanguageFromHeader asciiStrings (utf8 "") = utf8 "en" ∧
    GetMessage asciiStrings (utf8 "ka-GE") (utf8 "team.not_found")
      = utf8 "გუნდი ვერ მოიძებნა" ∧
    GetMessage asciiStrings (utf8 "fr") (utf8 "team.not_found") = utf8 "Team not found" ∧
    GetMessage asciiStrings (utf8 "ka") (utf8 "no.such.key") = utf8 "no.such.key" := by
  refine ⟨?_, ?_, ?_, ?_, ?_, ?_, ?_, ?_, ?_, ?_, ?_, ?_⟩ <;> decide

end SoccerManager
